import Mathlib

/-!
Identity EEPROM: board/freescale/common/sys_eeprom.c.

A shallow embedding of the identity-EEPROM code.  The in-memory record
(the static struct eeprom e) is a list of bytes, one natural number per
byte, addressed through the offsets of the packed C struct.  The global
variables of the C file (the record, has_been_read), the environment store,
the I2C bus and the console are the fields of an explicit state that every
function takes and returns.

The build-time options CONFIG_SYS_I2C_EEPROM_CCID / CONFIG_SYS_I2C_EEPROM_NXID
and MAX_NUM_PORTS are the value of type Config that every function takes.
-/

namespace SysEeprom

/-! ## Configuration and record layout -/

/-- The record layout compiled in: CCID (MAX_NUM_PORTS is 8), or NXID with
MAX_NUM_PORTS equal to ports (CONFIG_SYS_I2C_EEPROM_NXID_MAC, default 16). -/
inductive Config where
  | ccid : Config
  | nxid (ports : Nat) : Config
deriving DecidableEq, Repr

/-- The macro MAX_NUM_PORTS. -/
def MAX_NUM_PORTS : Config → Nat
  | .ccid => 8
  | .nxid ports => ports

/-- The macro NXID_VERSION. -/
def NXID_VERSION : Nat := 1

/-- True for the NXID layout (code under ifdef CONFIG_SYS_I2C_EEPROM_NXID). -/
def Config.is_nxid : Config → Bool
  | .ccid => false
  | .nxid _ => true

/-- Offset of the field sn: 0x06 in CCID, 0x04 in NXID. -/
def off_sn : Config → Nat
  | .ccid => 6
  | .nxid _ => 4

/-- The value of sizeof(e.sn): 10 in CCID, 12 in NXID. -/
def len_sn : Config → Nat
  | .ccid => 10
  | .nxid _ => 12

/-- Offset of the field errata (0x10 in both layouts). -/
def off_errata : Nat := 16

/-- The value of sizeof(e.errata): 2 in CCID, 5 in NXID. -/
def len_errata : Config → Nat
  | .ccid => 2
  | .nxid _ => 5

/-- Offset of the field date: 0x12 in CCID, 0x15 in NXID. -/
def off_date : Config → Nat
  | .ccid => 18
  | .nxid _ => 21

/-- Offset of the field res_0: 0x18 in CCID, 0x1b in NXID. -/
def off_res_0 : Config → Nat
  | .ccid => 24
  | .nxid _ => 27

/-- The value of sizeof(e.res_0): 40 bytes in CCID, one byte in NXID. -/
def len_res_0 : Config → Nat
  | .ccid => 40
  | .nxid _ => 1

/-- Offset of the NXID field version (0x1c). -/
def off_version : Nat := 28

/-- Offset of the NXID field res_1 (0x2b). -/
def off_res_1 : Nat := 43

/-- The value of sizeof(e.res_1) in NXID. -/
def len_res_1 : Nat := 21

/-- Offset of the field mac_count (0x40 in both layouts). -/
def off_mac_count : Nat := 64

/-- Offset of the field mac_flag (0x41 in both layouts). -/
def off_mac_flag : Nat := 65

/-- Offset of the MAC table (0x42 in both layouts). -/
def off_mac : Nat := 66

/-- Offset of the slot mac[i]. -/
def off_mac_slot (i : Nat) : Nat := off_mac + 6 * i

/-- Offset of the NXID field board_version, right after the MAC table. -/
def off_board_version (cfg : Config) : Nat := off_mac + 6 * MAX_NUM_PORTS cfg

/-- The value of sizeof(e.board_version). -/
def len_board_version : Nat := 16

/-- Offset of the NXID field product_info. -/
def off_product_info (cfg : Config) : Nat := off_board_version cfg + len_board_version

/-- The value of sizeof(e.product_info). -/
def len_product_info : Nat := 64

/-- Offset of the NXID field res_2. -/
def off_res_2 (cfg : Config) : Nat := off_product_info cfg + len_product_info

/-- The value of sizeof(e.res_2), written 90-16-64 in the source. -/
def len_res_2 : Nat := 90 - 16 - 64

/-- The value of offsetof(struct eeprom, crc): right after the MAC table in
CCID (0x72), right after res_2 in NXID (0xfc when MAX_NUM_PORTS is 16). -/
def off_crc : Config → Nat
  | .ccid => off_mac + 6 * 8
  | .nxid ports => off_res_2 (.nxid ports) + len_res_2

/-- The value of sizeof(e). -/
def sizeof_eeprom (cfg : Config) : Nat := off_crc cfg + 4

/-! ## Bytes, strings and the library functions the file calls -/

/-- Byte i of a buffer. -/
def byte_at (e : List Nat) (i : Nat) : Nat := e.getD i 0

/-- The len bytes of a buffer that start at off. -/
def bytes_at (e : List Nat) (off len : Nat) : List Nat := (e.drop off).take len

/-- Store data into a buffer at off (memcpy into the record). -/
def set_bytes (e : List Nat) (off : Nat) (data : List Nat) : List Nat :=
  e.take off ++ data ++ e.drop (off + data.length)

/-- The call memset(e + off, c, n). -/
def memset (e : List Nat) (off c n : Nat) : List Nat :=
  set_bytes e off (List.replicate n c)

/-- The macro be32_to_cpu applied to the four bytes at off. -/
def get_be32 (e : List Nat) (off : Nat) : Nat :=
  byte_at e off * 16777216 + byte_at e (off + 1) * 65536 +
    byte_at e (off + 2) * 256 + byte_at e (off + 3)

/-- The macro cpu_to_be32: the four bytes of a 32-bit value, most
significant first. -/
def cpu_to_be32 (v : Nat) : List Nat :=
  [v / 16777216 % 256, v / 65536 % 256, v / 256 % 256, v % 256]

/-- The bytes of an ASCII string literal. -/
def ascii (s : String) : List Nat := s.toList.map Char.toNat

/-- The C string that starts at a pointer: the bytes before the first NUL. -/
def c_str (p : List Nat) : List Nat := p.takeWhile (fun b => b != 0)

/-- The C string that starts at offset off of the record, as in
(char*) e.sn.  The struct is packed, so a field without a NUL runs on into
the following fields; the model stops at the end of the record. -/
def cstr_at (e : List Nat) (off : Nat) : List Nat := c_str (e.drop off)

/-- The library call strlen. -/
def strlen (p : List Nat) : Nat := (c_str p).length

/-- The character p[i] of a C string; the terminating NUL (and, in the
model, anything behind it) reads as 0. -/
def str_at (p : List Nat) (i : Nat) : Nat := (c_str p).getD i 0

/-- The library call strncpy(dst, src, n) as the n bytes it stores: the
string, cut at n bytes, padded with NUL bytes up to n. -/
def strncpy (src : List Nat) (n : Nat) : List Nat :=
  (c_str src).take n ++ List.replicate (n - ((c_str src).take n).length) 0

/-- One bit step of the reflected CRC-32 (polynomial 0xEDB88320). -/
def crc_bit (c : Nat) : Nat :=
  if c % 2 = 1 then (c / 2) ^^^ 0xEDB88320 else c / 2

/-- One byte step of the CRC-32. -/
def crc_byte (c b : Nat) : Nat :=
  crc_bit (crc_bit (crc_bit (crc_bit (crc_bit (crc_bit (crc_bit (crc_bit
    ((c % 4294967296) ^^^ (b % 256)))))))))

/-- Modelled from the spec: the library function crc32(crc, buf, len) of the
boot firmware (lib/crc32.c is not among the sources), which the spec states
to be the standard IEEE 802.3 CRC-32: reflected polynomial 0xEDB88320, the
running value complemented on entry and on exit.  The buffer is the list of
the len bytes. -/
def crc32 (crc : Nat) (buf : List Nat) : Nat :=
  (buf.foldl crc_byte ((crc % 4294967296) ^^^ 0xFFFFFFFF)) ^^^ 0xFFFFFFFF

/-- One upper-case hexadecimal digit, as printed by the X conversion. -/
def hex_digit (d : Nat) : Nat := if d < 10 then 48 + d else 55 + d

/-- The conversion %02X applied to a u8. -/
def fmt_02X (b : Nat) : List Nat := [hex_digit (b % 256 / 16), hex_digit (b % 16)]

/-- Decimal digits of n, most significant first, with a recursion budget. -/
def fmt_d_fuel : Nat → Nat → List Nat
  | 0, _ => []
  | fuel + 1, n =>
    if n < 10 then [48 + n] else fmt_d_fuel fuel (n / 10) ++ [48 + n % 10]

/-- The conversion %d applied to a non-negative integer. -/
def fmt_d (n : Nat) : List Nat := fmt_d_fuel (n + 1) n

/-- The string sprintf(ethaddr, "%02X:%02X:%02X:%02X:%02X:%02X", ...) builds
from the bytes of one MAC slot. -/
def fmt_ethaddr (m : List Nat) : List Nat :=
  fmt_02X (byte_at m 0) ++ [58] ++ fmt_02X (byte_at m 1) ++ [58] ++
  fmt_02X (byte_at m 2) ++ [58] ++ fmt_02X (byte_at m 3) ++ [58] ++
  fmt_02X (byte_at m 4) ++ [58] ++ fmt_02X (byte_at m 5)

/-- The string sprintf(enetvar, i ? "eth%daddr" : "ethaddr", i) builds.  The
capacity of the destination array is not part of this function: whether the
string fits is the test enetvar_fits. -/
def enetvar (i : Nat) : List Nat :=
  if i ≠ 0 then ascii "eth" ++ fmt_d i ++ ascii "addr" else ascii "ethaddr"

/-- The macro SERIALNO_NAME. -/
def SERIALNO_NAME : List Nat := ascii "serial#"

/-- The macro BOARDVERSION_NAME. -/
def BOARDVERSION_NAME : List Nat := ascii "board_version"

/-- The macro PRODUCTINFO_NAME. -/
def PRODUCTINFO_NAME : List Nat := ascii "product_info"

/-! ## The collaborators: environment store, I2C transport, console -/

/-- Modelled from the spec: the EnvironmentStore of the boot firmware (env.c
is not among the sources), get(key) giving an optional string and
set(key, value). -/
abbrev Env := List Nat → Option (List Nat)

/-- Modelled from the spec: EnvironmentStore get(key). -/
def env_get (env : Env) (name : List Nat) : Option (List Nat) := env name

/-- Modelled from the spec: EnvironmentStore set(key, value). -/
def env_set (env : Env) (name value : List Nat) : Env :=
  fun k => if k = name then some value else env k

/-- Modelled from the spec: the ByteTransport behind i2c_read / i2c_write
(with CONFIG_DM_I2C: i2c_get_chip_for_busnum followed by i2c_eeprom_read /
i2c_eeprom_write), whose drivers are not among the sources.  A read at
(offset, len) returns a status, the bytes it delivered into the buffer and
the next bus state; a write at offset of some bytes returns a status and the
next bus state.  Status 0 is success. -/
structure Transport (σ : Type) where
  i2c_read : σ → Nat → Nat → Int × List Nat × σ
  i2c_write : σ → Nat → List Nat → Int × σ

/-- One access to the transport, as recorded in the state: a read with its
status and the buffer it left, or a write with its bytes and its status. -/
inductive BusOp where
  | read (offset len : Nat) (ret : Int) (buf : List Nat) : BusOp
  | write (offset : Nat) (data : List Nat) (ret : Int) : BusOp
deriving DecidableEq, Repr

/-- True for a write access. -/
def BusOp.is_write : BusOp → Bool
  | .read _ _ _ _ => false
  | .write _ _ _ => true

/-- A buffer after a transport read of len bytes: the delivered bytes
replace the front of the buffer, the rest keeps its content. -/
def buf_store (buf data : List Nat) (len : Nat) : List Nat :=
  data.take len ++ buf.drop (data.take len).length

/-- The console messages of the file, with the values they print. -/
inductive Msg where
  | eeprom : Msg
  | read_failed : Msg
  | invalid_id (b0 b1 b2 b3 : Nat) : Msg
  | crc_mismatch (crc stored : Nat) : Msg
  | id_line (id : List Nat) (version : Option Nat) : Msg
  | show_eeprom (e : List Nat) : Msg
  | programming_failed : Msg
  | programming_passed : Msg
  | usage_date : Msg
  | usage_mac : Msg
  | please_read : Msg
  | cmd_usage : Msg
deriving DecidableEq, Repr

/-- The globals of the file and its collaborators: the record e, the flag
has_been_read, the environment store, the bus with the accesses made to it
(oldest first), and the console output (oldest first).  The field overflow
is set when the run has executed a statement that writes behind the end of
a local array, which the C language leaves undefined: from there on the
other fields hold what the statements of the program text compute, and the
real run is not bound to them. -/
structure State (σ : Type) where
  e : List Nat
  has_been_read : Bool
  env : Env
  bus : σ
  log : List BusOp
  console : List Msg
  overflow : Bool

/-- Print one message. -/
def State.print {σ : Type} (s : State σ) (m : Msg) : State σ :=
  { s with console := s.console ++ [m] }

/-! ## The functions of sys_eeprom.c -/

/-- The macro is_valid: an OR of four byte comparisons with the letters of
the tag. -/
def is_valid (cfg : Config) (e : List Nat) : Bool :=
  match cfg with
  | .nxid _ =>
    (byte_at e 0 == 78) || (byte_at e 1 == 88) || (byte_at e 2 == 73) || (byte_at e 3 == 68)
  | .ccid =>
    (byte_at e 0 == 67) || (byte_at e 1 == 67) || (byte_at e 2 == 73) || (byte_at e 3 == 68)

/-- The test e.version == 0 on the 32-bit field (no byte of it is set). -/
def version_is_zero (e : List Nat) : Bool := get_be32 e off_version == 0

/-- The function show_eeprom; its text is one message holding the record. -/
def show_eeprom {σ : Type} (s : State σ) : State σ := s.print (.show_eeprom s.e)

/-- The statement if (e.f[0] == 0xff) e.f[0] = 0 for the field at off. -/
def clear_ff (e : List Nat) (off : Nat) : List Nat :=
  if byte_at e off = 0xff then set_bytes e off [0] else e

/-- The statements of read_eeprom behind the transport read: the first byte
of sn and of errata, and in NXID of board_version and of product_info, is
set to 0 when it is 0xff. -/
def clear_unset (cfg : Config) (raw : List Nat) : List Nat :=
  let e1 := clear_ff (clear_ff raw (off_sn cfg)) off_errata
  if cfg.is_nxid then clear_ff (clear_ff e1 (off_board_version cfg)) (off_product_info cfg)
  else e1

/-- The function read_eeprom.  Returns the status and the next state. -/
def read_eeprom {σ : Type} (t : Transport σ) (cfg : Config) (s : State σ) : Int × State σ :=
  if s.has_been_read then (0, s)
  else
    let r := t.i2c_read s.bus 0 (sizeof_eeprom cfg)
    let raw := buf_store s.e r.2.1 (sizeof_eeprom cfg)
    (r.1, { s with
      e := clear_unset cfg raw
      has_been_read := r.1 == 0
      bus := r.2.2
      log := s.log ++ [BusOp.read 0 (sizeof_eeprom cfg) r.1 raw] })

/-- The function update_crc. -/
def update_crc (cfg : Config) (e : List Nat) : List Nat :=
  set_bytes e (off_crc cfg) (cpu_to_be32 (crc32 0 (e.take (sizeof_eeprom cfg - 4))))

/-- The first statements of prog_eeprom: the reserved values set to 0xFF. -/
def set_reserved (cfg : Config) (e : List Nat) : List Nat :=
  match cfg with
  | .nxid _ => memset (set_bytes e (off_res_0 cfg) [0xFF]) off_res_1 0xFF len_res_1
  | .ccid => memset e (off_res_0 cfg) 0xFF (len_res_0 cfg)

/-- The values of i the write loop of prog_eeprom runs through:
0, 8, 16, ... below sizeof(e). -/
def chunk_offsets (cfg : Config) : List Nat :=
  (List.range ((sizeof_eeprom cfg + 7) / 8)).map (fun k => 8 * k)

/-- The write loop of prog_eeprom over the remaining values of i: one write
of min(sizeof(e) - i, 8) bytes each, left at the first write that fails.
Returns ret, the bus and the log. -/
def prog_loop {σ : Type} (t : Transport σ) (cfg : Config) (e : List Nat) :
    List Nat → σ → List BusOp → Int × σ × List BusOp
  | [], bus, log => (0, bus, log)
  | i :: rest, bus, log =>
    let data := bytes_at e i (min (sizeof_eeprom cfg - i) 8)
    let w := t.i2c_write bus i data
    if w.1 ≠ 0 then (w.1, w.2, log ++ [BusOp.write i data w.1])
    else prog_loop t cfg e rest w.2 (log ++ [BusOp.write i data w.1])

/-- The block of prog_eeprom behind the write loop, entered when ret is 0: the
record is read back into the local struct eeprom e2 and compared with e over
sizeof(e) bytes.  The argument e2 is the content of the uninitialised e2
before the read fills it.  Takes and returns ret, the bus and the log. -/
def prog_verify {σ : Type} (t : Transport σ) (cfg : Config) (e2 e : List Nat)
    (w : Int × σ × List BusOp) : Int × σ × List BusOp :=
  if w.1 = 0 then
    let r := t.i2c_read w.2.1 0 (sizeof_eeprom cfg)
    let back := buf_store e2 r.2.1 (sizeof_eeprom cfg)
    let ret : Int :=
      if r.1 = 0 ∧ back.take (sizeof_eeprom cfg) ≠ e.take (sizeof_eeprom cfg) then -1 else r.1
    (ret, r.2.2, w.2.2 ++ [BusOp.read 0 (sizeof_eeprom cfg) r.1 back])
  else w

/-- The end of prog_eeprom: the message, has_been_read cleared on failure,
and the result. -/
def prog_finish {σ : Type} (s : State σ) (e : List Nat) (v : Int × σ × List BusOp) :
    Int × State σ :=
  if v.1 ≠ 0 then
    (-1, { s with
      e := e
      has_been_read := false
      bus := v.2.1
      log := v.2.2
      console := s.console ++ [Msg.programming_failed] })
  else
    (0, { s with
      e := e
      bus := v.2.1
      log := v.2.2
      console := s.console ++ [Msg.programming_passed] })

/-- The function prog_eeprom.  The argument e2 is the content of the
uninitialised local struct eeprom e2. -/
def prog_eeprom {σ : Type} (t : Transport σ) (cfg : Config) (e2 : List Nat) (s : State σ) :
    Int × State σ :=
  let e := update_crc cfg (set_reserved cfg s.e)
  prog_finish s e (prog_verify t cfg e2 e (prog_loop t cfg e (chunk_offsets cfg) s.bus s.log))

/-- The function h2i on a character code. -/
def h2i (p : Nat) : Nat :=
  if 48 ≤ p ∧ p ≤ 57 then p - 48
  else if 65 ≤ p ∧ p ≤ 70 then (p - 65) + 10
  else if 97 ≤ p ∧ p ≤ 102 then (p - 97) + 10
  else 0

/-- The byte set_date stores into date[i]. -/
def date_byte (string : List Nat) (i : Nat) : Nat :=
  ((h2i (str_at string (2 * i)) <<< 4) ||| h2i (str_at string (2 * i + 1))) % 256

/-- The function set_date. -/
def set_date {σ : Type} (cfg : Config) (string : List Nat) (s : State σ) : State σ :=
  if strlen string ≠ 12 then s.print .usage_date
  else
    let e := set_bytes s.e (off_date cfg) ((List.range 6).map (date_byte string))
    { s with e := update_crc cfg e }

/-- The loop of set_mac_address from index i on, with p the rest of the
string; budget is the number of bytes still to store (6 - i).  The parser
strtoul is simple_strtoul(p, &p, base): the value and the new pointer. -/
def set_mac_loop (strtoul : List Nat → Nat → Nat × List Nat) (index : Nat) :
    Nat → Nat → List Nat → List Nat → List Nat
  | 0, _, _, e => e
  | budget + 1, i, p, e =>
    if p.headD 0 = 0 then e
    else
      let r := strtoul p 16
      let e1 := set_bytes e (off_mac_slot index + i) [r.1 % 256]
      let p1 := if r.2.headD 0 = 58 then r.2.tail else r.2
      set_mac_loop strtoul index budget (i + 1) p1 e1

/-- The function set_mac_address (the string is never a null pointer when
do_mac calls it). -/
def set_mac_address {σ : Type} (strtoul : List Nat → Nat → Nat × List Nat) (cfg : Config)
    (index : Nat) (string : List Nat) (s : State σ) : State σ :=
  if index ≥ MAX_NUM_PORTS cfg then s.print .usage_mac
  else { s with e := update_crc cfg (set_mac_loop strtoul index 6 0 string s.e) }

/-- The switch of do_mac behind the comment "We know we have at least one
parameter": the setter selected by the command character cmd, with arg the
string argv[2] and name the string argv[1]. -/
def do_mac_switch {σ : Type} (strtoul : List Nat → Nat → Nat × List Nat) (cfg : Config)
    (cmd : Nat) (name arg : List Nat) (s : State σ) : State σ :=
  if cmd = 110 then
    { s with e := update_crc cfg (set_bytes (memset s.e (off_sn cfg) 0 (len_sn cfg)) (off_sn cfg)
          (strncpy arg (len_sn cfg - 1))) }
  else if cmd = 98 ∧ cfg.is_nxid then
    { s with e := update_crc cfg (set_bytes (memset s.e (off_board_version cfg) 0 len_board_version)
          (off_board_version cfg) (strncpy arg (len_board_version - 1))) }
  else if cmd = 97 ∧ cfg.is_nxid then
    { s with e := update_crc cfg (set_bytes (memset s.e (off_product_info cfg) 0 len_product_info)
          (off_product_info cfg) (strncpy arg (len_product_info - 1))) }
  else if cmd = 101 then
    match cfg with
    | .nxid _ =>
      { s with e := update_crc cfg (set_bytes (memset s.e off_errata 0 5) off_errata (strncpy arg 4)) }
    | .ccid =>
      { s with e := update_crc cfg (set_bytes s.e off_errata [str_at arg 0, str_at arg 1]) }
  else if cmd = 100 then set_date cfg arg s
  else if cmd = 112 then
    { s with e := update_crc cfg (set_bytes s.e off_mac_count [(strtoul arg 16).1 % 256]) }
  else if 48 ≤ cmd ∧ cmd ≤ 57 then
    set_mac_address strtoul cfg ((strtoul name 10).1 % 4294967296) arg s
  else s.print .cmd_usage

/-- The function do_mac on the argument vector argv (argc is its length).
The parser strtoul is simple_strtoul (its result is cut to the unsigned int
index of set_mac_address), e2 is passed on to prog_eeprom.  The integer
result (0, or what cmd_usage returns) is not part of the model; a call of
cmd_usage is the console message cmd_usage. -/
def do_mac {σ : Type} (t : Transport σ) (strtoul : List Nat → Nat → Nat × List Nat)
    (cfg : Config) (e2 : List Nat) (argv : List (List Nat)) (s : State σ) : State σ :=
  if argv.length = 1 then show_eeprom s
  else
    let cmd := str_at (argv.getD 1 []) 0
    if cmd = 114 then (read_eeprom t cfg s).2
    else if cmd = 105 then
      match cfg with
      | .nxid _ =>
        { s with e := update_crc cfg (set_bytes (set_bytes s.e 0 (ascii "NXID")) off_version (cpu_to_be32 NXID_VERSION)) }
      | .ccid => { s with e := update_crc cfg (set_bytes s.e 0 (ascii "CCID")) }
    else if !is_valid cfg s.e then s.print .please_read
    else if argv.length = 2 then
      if cmd = 115 then (prog_eeprom t cfg e2 s).2 else s.print .cmd_usage
    else do_mac_switch strtoul cfg cmd (argv.getD 1 []) (argv.getD 2 []) s

/-- The six bytes of the slot mac[i]. -/
def mac_slot (e : List Nat) (i : Nat) : List Nat := bytes_at e (off_mac_slot i) 6

/-- The condition of the export loop: the slot differs from six zero bytes
and from six 0xFF bytes (the two memcmp calls). -/
def mac_present (e : List Nat) (i : Nat) : Bool :=
  (mac_slot e i != List.replicate 6 0) && (mac_slot e i != List.replicate 6 0xFF)

/-- The value of sizeof(enetvar) for the local array char enetvar[9] of
mac_read_from_eeprom. -/
def sizeof_enetvar : Nat := 9

/-- The call sprintf(enetvar, ...) for the index i stays inside the array:
the string it builds and the terminating NUL take at most sizeof(enetvar)
bytes.  (The other local array, char ethaddr[18], always holds the 17
characters of the formatted address and the NUL.) -/
def enetvar_fits (i : Nat) : Bool := decide ((enetvar i).length + 1 ≤ sizeof_enetvar)

/-- The body of the export loop of mac_read_from_eeprom for one index.  For
a slot that is present and whose key does not fit, sprintf writes behind the
end of enetvar: what the run does from there on is undefined, the model
defines no export for the index, and export_overflow records the fact. -/
def export_mac (e : List Nat) (env : Env) (i : Nat) : Env :=
  if mac_present e i then
    if enetvar_fits i then
      if (env_get env (enetvar i)).isNone then
        env_set env (enetvar i) (fmt_ethaddr (mac_slot e i))
      else env
    else env
  else env

/-- The export loop with the given bound executes a sprintf that writes
behind the end of enetvar: a slot below the bound is present and its key
does not fit. -/
def export_overflow (e : List Nat) (bound : Nat) : Bool :=
  (List.range bound).any (fun i => mac_present e i && !enetvar_fits i)

/-- The bound of the export loop: min(e.mac_count, (u8)MAX_NUM_PORTS). -/
def mac_bound (cfg : Config) (e : List Nat) : Nat :=
  min (byte_at e off_mac_count) (MAX_NUM_PORTS cfg % 256)

/-- The offset of the checksum mac_read_from_eeprom checks: offsetof(crc),
or 0x72 for an NXID record whose version is 0. -/
def crc_offset (cfg : Config) (e : List Nat) : Nat :=
  if cfg.is_nxid ∧ version_is_zero e then 0x72 else off_crc cfg

/-- The part of mac_read_from_eeprom behind the checksum check: the exports
into the environment, the erased slot and the upgrade of a version 0
record.  The field overflow is set when the export loop writes behind the
end of enetvar. -/
def export_record {σ : Type} (cfg : Config) (s : State σ) : State σ :=
  let env1 := env_set s.env SERIALNO_NAME (cstr_at s.e (off_sn cfg))
  let env2 := if cfg.is_nxid then
      env_set (env_set env1 BOARDVERSION_NAME (cstr_at s.e (off_board_version cfg)))
        PRODUCTINFO_NAME (cstr_at s.e (off_product_info cfg))
    else env1
  let e1 := if cfg.is_nxid ∧ version_is_zero s.e then
      memset s.e (off_mac_slot (MAX_NUM_PORTS cfg - 1)) 0xff 6
    else s.e
  let env3 := (List.range (mac_bound cfg e1)).foldl (export_mac e1) env2
  let line := Msg.id_line (bytes_at e1 0 4)
    (if cfg.is_nxid then some (get_be32 e1 off_version) else none)
  let e2 := if cfg.is_nxid ∧ version_is_zero e1 then
      update_crc cfg (set_bytes e1 off_version (cpu_to_be32 NXID_VERSION))
    else e1
  { s with
    e := e2
    env := env3
    console := s.console ++ [line]
    overflow := s.overflow || export_overflow e1 (mac_bound cfg e1) }

/-- The function mac_read_from_eeprom (it returns 0 on every path). -/
def mac_read_from_eeprom {σ : Type} (t : Transport σ) (cfg : Config) (s : State σ) : State σ :=
  let r := read_eeprom t cfg (s.print .eeprom)
  if r.1 ≠ 0 then r.2.print .read_failed
  else if !is_valid cfg r.2.e then
    r.2.print (.invalid_id (byte_at r.2.e 0) (byte_at r.2.e 1) (byte_at r.2.e 2) (byte_at r.2.e 3))
  else if crc32 0 (r.2.e.take (crc_offset cfg r.2.e)) ≠ get_be32 r.2.e (crc_offset cfg r.2.e) then
    r.2.print (.crc_mismatch (crc32 0 (r.2.e.take (crc_offset cfg r.2.e)))
      (get_be32 r.2.e (off_crc cfg)))
  else export_record cfg r.2

/-- The checksum test of show_eeprom, crc == be32_to_cpu(e.crc) with crc the
CRC-32 of the record without its last four bytes: the record validates. -/
def crc_valid (cfg : Config) (e : List Nat) : Bool :=
  crc32 0 (e.take (sizeof_eeprom cfg - 4)) == get_be32 e (off_crc cfg)

/-- The record in memory when mac_read_from_eeprom has called read_eeprom. -/
def record_read {σ : Type} (t : Transport σ) (cfg : Config) (s : State σ) : List Nat :=
  (read_eeprom t cfg (s.print .eeprom)).2.e

/-- The three checks of mac_read_from_eeprom all pass: read_eeprom returns
0, is_valid holds, and the checksum at the effective offset matches. -/
def accepts {σ : Type} (t : Transport σ) (cfg : Config) (s : State σ) : Bool :=
  ((read_eeprom t cfg (s.print .eeprom)).1 == 0) && is_valid cfg (record_read t cfg s) &&
    (crc32 0 ((record_read t cfg s).take (crc_offset cfg (record_read t cfg s))) ==
      get_be32 (record_read t cfg s) (crc_offset cfg (record_read t cfg s)))

/-! ## Concrete collaborators and records, to run the functions -/

/-- A transport that stores what is written and returns it on read: the
device is a byte memory, every access succeeds. -/
def mem_transport : Transport (Nat → Nat) where
  i2c_read := fun mem off len => (0, (List.range len).map (fun k => mem (off + k)), mem)
  i2c_write := fun mem off data =>
    (0, fun a => if off ≤ a ∧ a < off + data.length then data.getD (a - off) 0 else mem a)

/-- The device memory that holds the given bytes from address 0 on (erased
cells read 0xFF). -/
def mem_of (bytes : List Nat) : Nat → Nat := fun a => bytes.getD a 0xFF

/-- The value of one character as a digit, 255 for a character that is no
hexadecimal digit. -/
def digit_val (c : Nat) : Nat :=
  if 48 ≤ c ∧ c ≤ 57 then c - 48
  else if 97 ≤ c ∧ c ≤ 102 then c - 87
  else if 65 ≤ c ∧ c ≤ 70 then c - 55
  else 255

/-- The digit loop of simple_strtoul. -/
def strtoul_digits (base : Nat) : List Nat → Nat → Nat × List Nat
  | [], acc => (acc, [])
  | c :: rest, acc =>
    if digit_val c < base then strtoul_digits base rest (acc * base + digit_val c)
    else (acc, c :: rest)

/-- Modelled from the spec: the number parser simple_strtoul(cp, endp, base)
of the boot firmware (lib/strto.c is not among the sources), which reads the
index and the XX fields of set_mac(index, "XX:XX:XX:XX:XX:XX") and the value
of set_mac_table_size: the leading digits of the base give the value, the
pointer stops at the first other character.  It only serves to run do_mac on
concrete arguments; the theorems hold for every parser. -/
def simple_strtoul (cp : List Nat) (base : Nat) : Nat × List Nat :=
  strtoul_digits base (c_str cp) 0

/-- Store several fields, given as (offset, bytes), into a record. -/
def store_fields (e : List Nat) (fields : List (Nat × List Nat)) : List Nat :=
  fields.foldl (fun acc f => set_bytes acc f.1 f.2) e

/-- The environment store with no variable set. -/
def env_empty : Env := fun _ => none

/-- A state whose record is all zero and not yet read, over the byte-memory
device with the given content. -/
def boot_state (cfg : Config) (env : Env) (device : List Nat) : State (Nat → Nat) :=
  { e := List.replicate (sizeof_eeprom cfg) 0
    has_been_read := false
    env := env
    bus := mem_of device
    log := []
    console := []
    overflow := false }

/-- A state whose record is the given one, already read, over a device
holding the same bytes. -/
def loaded_state (env : Env) (e : List Nat) : State (Nat → Nat) :=
  { e := e
    has_been_read := true
    env := env
    bus := mem_of e
    log := []
    console := []
    overflow := false }

/-- The checksum of a version 0 NXID record, stored at 0x72. -/
def legacy_crc (e : List Nat) : List Nat :=
  set_bytes e 0x72 (cpu_to_be32 (crc32 0 (e.take 0x72)))

/-- An NXID version 1 record for MAX_NUM_PORTS = 4 with a correct checksum:
serial number "SN1", board version "B2", product info "P3", mac_count 2,
slot 0 = AA:BB:CC:DD:EE:01, slot 1 all zero. -/
def rec_v1 : List Nat :=
  update_crc (.nxid 4) (store_fields (List.replicate 184 0)
    [(0, ascii "NXID"), (4, ascii "SN1"), (28, [0, 0, 0, 1]), (64, [2]),
     (66, [0xAA, 0xBB, 0xCC, 0xDD, 0xEE, 0x01]), (90, ascii "B2"), (106, ascii "P3")])

/-- The record rec_v1 with the tag bytes N, 0, 0, 0 and the checksum that is
correct for these bytes. -/
def rec_bad_tag : List Nat :=
  update_crc (.nxid 4) (set_bytes rec_v1 0 [78, 0, 0, 0])

/-- An NXID version 0 record in the default layout (MAX_NUM_PORTS = 16):
mac_count 9, slots 0..7 hold 02:00:00:00:00:01 .. 02:00:00:00:00:08, the
checksum of the bytes before 0x72 is stored at 0x72. -/
def rec_v0 : List Nat :=
  legacy_crc (store_fields (List.replicate 256 0)
    [(0, ascii "NXID"), (4, ascii "SN0"), (64, [9]),
     (66, [2, 0, 0, 0, 0, 1]), (72, [2, 0, 0, 0, 0, 2]), (78, [2, 0, 0, 0, 0, 3]),
     (84, [2, 0, 0, 0, 0, 4]), (90, [2, 0, 0, 0, 0, 5]), (96, [2, 0, 0, 0, 0, 6]),
     (102, [2, 0, 0, 0, 0, 7]), (108, [2, 0, 0, 0, 0, 8])])

/-- An NXID version 0 record for MAX_NUM_PORTS = 4: mac_count 4, the four
slots hold 02:00:00:00:00:01 .. 02:00:00:00:00:04, the checksum of the bytes
before 0x72 is stored at 0x72. -/
def rec_v0_4 : List Nat :=
  legacy_crc (store_fields (List.replicate 184 0)
    [(0, ascii "NXID"), (4, ascii "SN0"), (64, [4]),
     (66, [2, 0, 0, 0, 0, 1]), (72, [2, 0, 0, 0, 0, 2]), (78, [2, 0, 0, 0, 0, 3]),
     (84, [2, 0, 0, 0, 0, 4])])

/-- A record with the NXID tag and version 1 in an otherwise zero record,
the checksum field still zero (the state after the tag is set by hand, or
after reading a device with a wrong checksum). -/
def rec_stale : List Nat :=
  store_fields (List.replicate 184 0) [(0, ascii "NXID"), (28, [0, 0, 0, 1])]

/-- The commands of do_mac that store into the record: n, e, d, p, a digit,
and in the NXID layout b and a. -/
def setter_cmd (cfg : Config) (cmd : Nat) : Bool :=
  cmd == 110 || cmd == 101 || cmd == 100 || cmd == 112 ||
    (decide (48 ≤ cmd) && decide (cmd ≤ 57)) || (cfg.is_nxid && (cmd == 98 || cmd == 97))

/-- The argument checks of the setters: set_date takes a string of length
12, set_mac_address an index below MAX_NUM_PORTS; the other setters take
every argument. -/
def arg_accepted (strtoul : List Nat → Nat → Nat × List Nat) (cfg : Config)
    (argv : List (List Nat)) : Bool :=
  if str_at (argv.getD 1 []) 0 = 100 then strlen (argv.getD 2 []) == 12
  else if 48 ≤ str_at (argv.getD 1 []) 0 ∧ str_at (argv.getD 1 []) 0 ≤ 57 then
    decide ((strtoul (argv.getD 1 []) 10).1 % 4294967296 < MAX_NUM_PORTS cfg)
  else true

/-- The record prog_eeprom writes: the record in memory with the reserved
values set and the checksum updated. -/
def record_programmed (cfg : Config) (e : List Nat) : List Nat :=
  update_crc cfg (set_reserved cfg e)

/-- The state in which has_been_read is cleared (the cache is dropped). -/
def State.unread {σ : Type} (s : State σ) : State σ := { s with has_been_read := false }

/-- The state with the record rec_v1 in memory over an erased device. -/
def edit_state : State (Nat → Nat) :=
  { e := rec_v1
    has_been_read := true
    env := env_empty
    bus := mem_of []
    log := []
    console := []
    overflow := false }

/-- The record rec_v1 as prog_eeprom writes it: reserved values set to 0xFF,
checksum updated. -/
def rec_saved : List Nat := record_programmed (.nxid 4) rec_v1

/-- The content a string setter is to leave in a field of the given width,
in the words of the specification: the first min(len(s), width-1) bytes of
the string s followed by NUL bytes up to the width. -/
def nul_padded (s : List Nat) (width : Nat) : List Nat :=
  (c_str s).take (min (strlen s) (width - 1)) ++
    List.replicate (width - min (strlen s) (width - 1)) 0

/-- The octets set_mac_address reads from its string: up to budget values,
each parsed by strtoul in base 16 and cut to a byte, a colon skipped after
each, ending where the string ends. -/
def mac_octets (strtoul : List Nat → Nat → Nat × List Nat) : Nat → List Nat → List Nat
  | 0, _ => []
  | budget + 1, p =>
    if p.headD 0 = 0 then []
    else
      ((strtoul p 16).1 % 256) ::
        mac_octets strtoul budget
          (if (strtoul p 16).2.headD 0 = 58 then (strtoul p 16).2.tail else (strtoul p 16).2)

/-- The record rec_v1 with 11:22:33:44:55:66 in slot 0 and the checksum
updated. -/
def rec_mac : List Nat :=
  update_crc (.nxid 4) (set_bytes rec_v1 66 [0x11, 0x22, 0x33, 0x44, 0x55, 0x66])

/-- The record rec_v1 with 0xFF as first byte of the serial number and the
checksum that is correct for these bytes: a device content with a valid tag
and a correct checksum. -/
def rec_sn_ff : List Nat := update_crc (.nxid 4) (set_bytes rec_v1 4 [0xFF])

/-- An NXID version 1 record in the default layout (MAX_NUM_PORTS = 16) with
a correct checksum: mac_count 11, slot 10 = 02:00:00:00:00:0B, the other
slots all zero. -/
def rec_11_macs : List Nat :=
  update_crc (.nxid 16) (store_fields (List.replicate 256 0)
    [(0, ascii "NXID"), (4, ascii "SN1"), (28, [0, 0, 0, 1]), (64, [11]),
     (126, [0x02, 0x00, 0x00, 0x00, 0x00, 0x0B])])

end SysEeprom

/-!
Ethernet MAC descriptor engine: drivers/net/dwc_eth_qos_core.c.
-/

namespace Eqos

/-! ## Constants and data -/

/-- The macros of dwc_eth_qos.h that eqos_send, eqos_recv and eqos_free_pkt
use.  The header is not among the sources, so their values are parameters:
the ring capacities, the size of one packet buffer and the bits of des3. -/
structure Params where
  EQOS_DESCRIPTORS_TX : Nat
  EQOS_DESCRIPTORS_RX : Nat
  EQOS_MAX_PACKET_SIZE : Nat
  EQOS_DESC3_OWN : Nat
  EQOS_DESC3_FD : Nat
  EQOS_DESC3_LD : Nat
  EQOS_DESC3_BUF1V : Nat
deriving DecidableEq, Repr

/-- Modelled from the spec: the error code behind WouldBlock, EAGAIN of
errno.h, which is not among the sources; it is 11 there. -/
def EAGAIN : Int := 11

/-- Modelled from the spec: the error code behind InvalidArgument, EINVAL of
errno.h, which is not among the sources; it is 22 there. -/
def EINVAL : Int := 22

/-- Modelled from the spec: the error code behind Timeout, ETIMEDOUT of
errno.h, which is not among the sources; it is 110 there. -/
def ETIMEDOUT : Int := 110

/-- Modelled from the spec: struct eqos_desc of dwc_eth_qos.h, which is not
among the sources, the hardware-defined descriptor of four 32-bit words
(buffer address, reserved, length and flags, status). -/
structure eqos_desc where
  des0 : Nat
  des1 : Nat
  des2 : Nat
  des3 : Nat
deriving DecidableEq, Repr

/-- Modelled from the spec: the value of sizeof(struct eqos_desc), the
16-byte descriptor layout. -/
def sizeof_eqos_desc : Nat := 16

/-- A value stored into a 32-bit word (a u32 field, or a register written
with writel). -/
def u32 (v : Nat) : Nat := v % 4294967296

/-- What the driver does to the memory it shares with the hardware and to
the registers, in program order: the stores into descriptor words, the
barriers, the cache operations, the register writes, the polls of des3. -/
inductive Ev where
  | memcpy_tx (length : Nat) : Ev
  | flush_buffer (addr length : Nat) : Ev
  | inval_buffer (addr length : Nat) : Ev
  | store_tx (idx word val : Nat) : Ev
  | store_rx (idx word val : Nat) : Ev
  | mb : Ev
  | flush_tx_desc (idx : Nat) : Ev
  | flush_rx_desc (idx : Nat) : Ev
  | inval_tx_desc (idx : Nat) : Ev
  | inval_rx_desc (idx : Nat) : Ev
  | readl_tx_des3 (idx val : Nat) : Ev
  | writel_txdesc_tail_pointer (val : Nat) : Ev
  | writel_rxdesc_tail_pointer (val : Nat) : Ev
  | udelay (us : Nat) : Ev
  | printf_tx_timeout : Ev
deriving DecidableEq, Repr

/-- True for a poll of des3 of a TX descriptor. -/
def Ev.is_poll : Ev → Bool
  | .readl_tx_des3 _ _ => true
  | _ => false

/-- The part of struct eqos_priv and of the DMA registers that eqos_send,
eqos_recv and eqos_free_pkt touch: the two descriptor rings (by index), the
two cursors, the addresses of the rings and of the DMA buffers, the bytes in
the TX buffer, the two tail pointer registers, and the trace of what the
driver did (oldest first). -/
structure eqos_priv where
  tx_descs : Nat → eqos_desc
  rx_descs : Nat → eqos_desc
  tx_desc_idx : Nat
  rx_desc_idx : Nat
  tx_descs_addr : Nat
  rx_descs_addr : Nat
  tx_dma_buf : Nat
  rx_dma_buf : Nat
  tx_data : List Nat
  ch0_txdesc_tail_pointer : Nat
  ch0_rxdesc_tail_pointer : Nat
  trace : List Ev

/-- The address &(eqos->tx_descs[i]). -/
def eqos_priv.tx_desc_addr (s : eqos_priv) (i : Nat) : Nat :=
  s.tx_descs_addr + i * sizeof_eqos_desc

/-- The address &(eqos->rx_descs[i]). -/
def eqos_priv.rx_desc_addr (s : eqos_priv) (i : Nat) : Nat :=
  s.rx_descs_addr + i * sizeof_eqos_desc

/-- The address of RX buffer slot i: rx_dma_buf + i * EQOS_MAX_PACKET_SIZE. -/
def eqos_priv.rx_buf_addr (p : Params) (s : eqos_priv) (i : Nat) : Nat :=
  s.rx_dma_buf + i * p.EQOS_MAX_PACKET_SIZE

/-- A ring with the descriptor at index i replaced. -/
def set_desc (ring : Nat → eqos_desc) (i : Nat) (d : eqos_desc) : Nat → eqos_desc :=
  fun j => if j = i then d else ring j

/-- The test des3 & EQOS_DESC3_OWN: the descriptor belongs to the hardware. -/
def hw_owned (p : Params) (d : eqos_desc) : Bool := d.des3 &&& p.EQOS_DESC3_OWN != 0

/-! ## The functions of dwc_eth_qos_core.c -/

/-- The poll loop of eqos_send from iteration i on, with budget iterations
left: the descriptor is invalidated and des3 read; hw i is the value the
i-th read returns.  Returns the iteration that saw OWN clear, if any, and
the trace. -/
def tx_poll (p : Params) (hw : Nat → Nat) (idx : Nat) :
    Nat → Nat → List Ev → Option Nat × List Ev
  | 0, _, tr => (none, tr)
  | budget + 1, i, tr =>
    if hw i &&& p.EQOS_DESC3_OWN = 0 then
      (some i, tr ++ [Ev.inval_tx_desc idx, Ev.readl_tx_des3 idx (hw i)])
    else
      tx_poll p hw idx budget (i + 1)
        (tr ++ [Ev.inval_tx_desc idx, Ev.readl_tx_des3 idx (hw i), Ev.udelay 1])

/-- The function eqos_send for a packet of packet.length bytes.  The
hardware is the function hw: hw i is what the i-th read of des3 in the poll
loop returns.  The descriptor in the ring ends up with the des3 last read.
Returns the result and the next state. -/
def eqos_send (p : Params) (hw : Nat → Nat) (packet : List Nat) (s : eqos_priv) :
    Int × eqos_priv :=
  let length := packet.length
  let idx := s.tx_desc_idx
  let next := (s.tx_desc_idx + 1) % p.EQOS_DESCRIPTORS_TX
  let des3 := u32 (p.EQOS_DESC3_OWN ||| p.EQOS_DESC3_FD ||| p.EQOS_DESC3_LD ||| length)
  let tr := s.trace ++ [Ev.memcpy_tx length, Ev.flush_buffer s.tx_dma_buf length,
    Ev.store_tx idx 0 (u32 s.tx_dma_buf), Ev.store_tx idx 1 0, Ev.store_tx idx 2 (u32 length),
    Ev.mb, Ev.store_tx idx 3 des3, Ev.flush_tx_desc idx,
    Ev.writel_txdesc_tail_pointer (u32 (s.tx_desc_addr next))]
  let r := tx_poll p hw idx 1000000 0 tr
  let seen := match r.1 with
    | some i => hw i
    | none => hw 999999
  let s1 : eqos_priv := { s with
    tx_data := packet ++ s.tx_data.drop length
    tx_desc_idx := next
    tx_descs := set_desc s.tx_descs idx
      { des0 := u32 s.tx_dma_buf, des1 := 0, des2 := u32 length, des3 := seen }
    ch0_txdesc_tail_pointer := u32 (s.tx_desc_addr next) }
  match r.1 with
  | some _ => (0, { s1 with trace := r.2 })
  | none => (-ETIMEDOUT, { s1 with trace := r.2 ++ [Ev.printf_tx_timeout] })

/-- The end of eqos_recv for the descriptor at index i: the buffer address
stored through packetp, the length des3 & 0x7fff, the buffer invalidated. -/
def recv_packet (p : Params) (s : eqos_priv) (i : Nat) : Int × Option Nat × eqos_priv :=
  let length := (s.rx_descs i).des3 &&& 0x7fff
  (length, some (s.rx_buf_addr p s.rx_desc_idx),
    { s with trace := s.trace ++ [Ev.inval_buffer (s.rx_buf_addr p s.rx_desc_idx) length] })

/-- The function eqos_recv.  Returns the result, the pointer stored through
packetp (none when nothing is stored) and the next state. -/
def eqos_recv (p : Params) (s : eqos_priv) : Int × Option Nat × eqos_priv :=
  let s1 : eqos_priv := { s with trace := s.trace ++ [Ev.inval_rx_desc s.rx_desc_idx] }
  if (s.rx_descs s.rx_desc_idx).des3 &&& p.EQOS_DESC3_OWN ≠ 0 then
    let n := (s.rx_desc_idx + 1) % p.EQOS_DESCRIPTORS_RX
    let s2 : eqos_priv := { s1 with trace := s1.trace ++ [Ev.inval_rx_desc n] }
    if (s.rx_descs n).des3 &&& p.EQOS_DESC3_OWN ≠ 0 then (-EAGAIN, none, s2)
    else recv_packet p { s2 with rx_desc_idx := n } n
  else recv_packet p s1 s.rx_desc_idx

/-- The function eqos_free_pkt.  Returns the result and the next state. -/
def eqos_free_pkt (p : Params) (packet length : Nat) (s : eqos_priv) : Int × eqos_priv :=
  if packet ≠ s.rx_buf_addr p s.rx_desc_idx then (-EINVAL, s)
  else
    let idx := s.rx_desc_idx
    let des3 := u32 (p.EQOS_DESC3_OWN ||| p.EQOS_DESC3_BUF1V)
    (0, { s with
      rx_descs := set_desc s.rx_descs idx
        { des0 := u32 packet, des1 := 0, des2 := 0, des3 := des3 }
      ch0_rxdesc_tail_pointer := u32 (s.rx_desc_addr idx)
      rx_desc_idx := (s.rx_desc_idx + 1) % p.EQOS_DESCRIPTORS_RX
      trace := s.trace ++ [Ev.store_rx idx 0 0, Ev.mb, Ev.flush_rx_desc idx,
        Ev.inval_buffer packet length, Ev.store_rx idx 0 (u32 packet), Ev.store_rx idx 1 0,
        Ev.store_rx idx 2 0, Ev.mb, Ev.store_rx idx 3 des3, Ev.flush_rx_desc idx,
        Ev.writel_rxdesc_tail_pointer (u32 (s.rx_desc_addr idx))] })

/-! ## Concrete parameters and states, to run the functions -/

/-- Sample values of the parameters: rings of four descriptors, packet
buffers of 1600 bytes, OWN = bit 31, FD = bit 29, LD = bit 28, BUF1V = bit
24. -/
def sample_params : Params :=
  { EQOS_DESCRIPTORS_TX := 4
    EQOS_DESCRIPTORS_RX := 4
    EQOS_MAX_PACKET_SIZE := 1600
    EQOS_DESC3_OWN := 0x80000000
    EQOS_DESC3_FD := 0x20000000
    EQOS_DESC3_LD := 0x10000000
    EQOS_DESC3_BUF1V := 0x01000000 }

/-- The ring state eqos_start leaves: cursors at 0, TX descriptors zero,
every RX descriptor with its buffer address and OWN|BUF1V; the descriptors
lie at 0x90000000, the TX buffer at 0x90001000, the RX buffers at
0x90002000. -/
def sample_state : eqos_priv :=
  { tx_descs := fun _ => { des0 := 0, des1 := 0, des2 := 0, des3 := 0 }
    rx_descs := fun i =>
      { des0 := 0x90002000 + i * 1600, des1 := 0, des2 := 0, des3 := 0x81000000 }
    tx_desc_idx := 0
    rx_desc_idx := 0
    tx_descs_addr := 0x90000000
    rx_descs_addr := 0x90000040
    tx_dma_buf := 0x90001000
    rx_dma_buf := 0x90002000
    tx_data := []
    ch0_txdesc_tail_pointer := 0
    ch0_rxdesc_tail_pointer := 0x90000070
    trace := [] }

/-- The state sample_state after the hardware has received a frame of the
given length into the RX descriptor i: OWN is clear, des3 holds the
length. -/
def frame_received (s : eqos_priv) (i length : Nat) : eqos_priv :=
  { s with rx_descs := set_desc s.rx_descs i { (s.rx_descs i) with des3 := length } }

/-! ## eqos_start, eqos_stop, eqos_write_hwaddr: data -/

/-- The bit and field macros of dwc_eth_qos.h that eqos_start, eqos_stop,
eqos_adjust_link and the functions they call use.  The header is not among
the sources, so their values are parameters. -/
structure RegBits where
  EQOS_MAC_CONFIGURATION_GPSLCE : Nat
  EQOS_MAC_CONFIGURATION_CST : Nat
  EQOS_MAC_CONFIGURATION_ACS : Nat
  EQOS_MAC_CONFIGURATION_WD : Nat
  EQOS_MAC_CONFIGURATION_JD : Nat
  EQOS_MAC_CONFIGURATION_JE : Nat
  EQOS_MAC_CONFIGURATION_PS : Nat
  EQOS_MAC_CONFIGURATION_FES : Nat
  EQOS_MAC_CONFIGURATION_DM : Nat
  EQOS_MAC_CONFIGURATION_TE : Nat
  EQOS_MAC_CONFIGURATION_RE : Nat
  EQOS_MAC_Q0_TX_FLOW_CTRL_PT_SHIFT : Nat
  EQOS_MAC_Q0_TX_FLOW_CTRL_TFE : Nat
  EQOS_MAC_RX_FLOW_CTRL_RFE : Nat
  EQOS_MAC_TXQ_PRTY_MAP0_PSTQ0_SHIFT : Nat
  EQOS_MAC_TXQ_PRTY_MAP0_PSTQ0_MASK : Nat
  EQOS_MAC_RXQ_CTRL0_RXQ0EN_SHIFT : Nat
  EQOS_MAC_RXQ_CTRL0_RXQ0EN_MASK : Nat
  EQOS_MAC_RXQ_CTRL2_PSRQ0_SHIFT : Nat
  EQOS_MAC_RXQ_CTRL2_PSRQ0_MASK : Nat
  EQOS_MAC_HW_FEATURE1_TXFIFOSIZE_SHIFT : Nat
  EQOS_MAC_HW_FEATURE1_TXFIFOSIZE_MASK : Nat
  EQOS_MAC_HW_FEATURE1_RXFIFOSIZE_SHIFT : Nat
  EQOS_MAC_HW_FEATURE1_RXFIFOSIZE_MASK : Nat
  EQOS_MTL_TXQ0_OPERATION_MODE_TQS_SHIFT : Nat
  EQOS_MTL_TXQ0_OPERATION_MODE_TQS_MASK : Nat
  EQOS_MTL_TXQ0_OPERATION_MODE_TXQEN_SHIFT : Nat
  EQOS_MTL_TXQ0_OPERATION_MODE_TXQEN_ENABLED : Nat
  EQOS_MTL_TXQ0_OPERATION_MODE_TSF : Nat
  EQOS_MTL_TXQ0_OPERATION_MODE_FTQ : Nat
  EQOS_MTL_TXQ0_DEBUG_TXQSTS : Nat
  EQOS_MTL_TXQ0_DEBUG_TRCSTS_SHIFT : Nat
  EQOS_MTL_TXQ0_DEBUG_TRCSTS_MASK : Nat
  EQOS_MTL_RXQ0_OPERATION_MODE_RQS_SHIFT : Nat
  EQOS_MTL_RXQ0_OPERATION_MODE_RQS_MASK : Nat
  EQOS_MTL_RXQ0_OPERATION_MODE_RFD_SHIFT : Nat
  EQOS_MTL_RXQ0_OPERATION_MODE_RFD_MASK : Nat
  EQOS_MTL_RXQ0_OPERATION_MODE_RFA_SHIFT : Nat
  EQOS_MTL_RXQ0_OPERATION_MODE_RFA_MASK : Nat
  EQOS_MTL_RXQ0_OPERATION_MODE_EHFC : Nat
  EQOS_MTL_RXQ0_OPERATION_MODE_RSF : Nat
  EQOS_MTL_RXQ0_DEBUG_PRXQ_SHIFT : Nat
  EQOS_MTL_RXQ0_DEBUG_PRXQ_MASK : Nat
  EQOS_MTL_RXQ0_DEBUG_RXQSTS_SHIFT : Nat
  EQOS_MTL_RXQ0_DEBUG_RXQSTS_MASK : Nat
  EQOS_DMA_MODE_SWR : Nat
  EQOS_DMA_SYSBUS_MODE_RD_OSR_LMT_SHIFT : Nat
  EQOS_DMA_SYSBUS_MODE_EAME : Nat
  EQOS_DMA_SYSBUS_MODE_BLEN16 : Nat
  EQOS_DMA_SYSBUS_MODE_BLEN8 : Nat
  EQOS_DMA_SYSBUS_MODE_BLEN4 : Nat
  EQOS_DMA_CH0_CONTROL_PBLX8 : Nat
  EQOS_DMA_CH0_TX_CONTROL_TXPBL_SHIFT : Nat
  EQOS_DMA_CH0_TX_CONTROL_TXPBL_MASK : Nat
  EQOS_DMA_CH0_TX_CONTROL_OSP : Nat
  EQOS_DMA_CH0_TX_CONTROL_ST : Nat
  EQOS_DMA_CH0_RX_CONTROL_RXPBL_SHIFT : Nat
  EQOS_DMA_CH0_RX_CONTROL_RXPBL_MASK : Nat
  EQOS_DMA_CH0_RX_CONTROL_RBSZ_SHIFT : Nat
  EQOS_DMA_CH0_RX_CONTROL_RBSZ_MASK : Nat
  EQOS_DMA_CH0_RX_CONTROL_SR : Nat
deriving DecidableEq, Repr

/-- Modelled from the spec: the link speeds SPEED_1000, SPEED_100 and
SPEED_10 of phy.h, which is not among the sources, in Mbit/s. -/
def SPEED_1000 : Nat := 1000

/-- Modelled from the spec: SPEED_100 of phy.h. -/
def SPEED_100 : Nat := 100

/-- Modelled from the spec: SPEED_10 of phy.h. -/
def SPEED_10 : Nat := 10

/-- Modelled from the spec: the fields of struct phy_device (phy.h, not
among the sources) that the driver reads: link, duplex and speed. -/
structure phy_device where
  link : Nat
  duplex : Nat
  speed : Nat
deriving DecidableEq, Repr

/-- The fields of struct eqos_config (eqos->config) that eqos_start and
eqos_write_hwaddr read; the functions behind config->ops are in Platform. -/
structure eqos_config where
  reg_access_always_ok : Bool
  swr_wait : Nat
  config_mac : Nat
  tx_fifo_size : Nat
  rx_fifo_size : Nat
deriving DecidableEq, Repr

/-- What lies outside the file and answers the driver during one call of
eqos_start: the results of the functions behind config->ops (clocks,
resets, pad calibration, tick clock rate, TX clock speed), of
wait_for_bit_le32 on the software reset bit, of the PHY library
(phy_connect gives no device for a null pointer; phy_startup gives its
result and the PHY with link, duplex and speed as negotiated), the value
the register hw_feature1 reads as, and the MAC address in the platform
data.  The pad calibration is called once by eqos_start and once more by
eqos_adjust_link. -/
structure Platform where
  eqos_start_clks : Int
  eqos_start_resets : Int
  wait_swr : Int
  eqos_calibrate_pads : Int
  eqos_get_tick_clk_rate : Nat
  phy_connect : Option phy_device
  phy_set_supported : Int
  phy_config : Int
  phy_startup : phy_device → Int × phy_device
  link_calibrate_pads : Int
  eqos_disable_calibration : Int
  eqos_set_tx_clk_speed : Int
  hw_feature1 : Nat
  enetaddr : List Nat

/-- The registers of the MAC, MTL and DMA blocks that eqos_start, eqos_stop
and eqos_write_hwaddr access (the two tail pointers are fields of
eqos_priv). -/
inductive Reg where
  | mac_configuration : Reg
  | mac_us_tic_counter : Reg
  | mac_q0_tx_flow_ctrl : Reg
  | mac_rx_flow_ctrl : Reg
  | mac_txq_prty_map0 : Reg
  | mac_rxq_ctrl0 : Reg
  | mac_rxq_ctrl2 : Reg
  | mac_hw_feature1 : Reg
  | mac_address0_high : Reg
  | mac_address0_low : Reg
  | mtl_txq0_operation_mode : Reg
  | mtl_txq0_debug : Reg
  | mtl_txq0_quantum_weight : Reg
  | mtl_rxq0_operation_mode : Reg
  | mtl_rxq0_debug : Reg
  | dma_mode : Reg
  | dma_sysbus_mode : Reg
  | dma_ch0_control : Reg
  | dma_ch0_tx_control : Reg
  | dma_ch0_rx_control : Reg
  | dma_ch0_txdesc_list_haddress : Reg
  | dma_ch0_txdesc_list_address : Reg
  | dma_ch0_txdesc_ring_length : Reg
  | dma_ch0_rxdesc_list_haddress : Reg
  | dma_ch0_rxdesc_list_address : Reg
  | dma_ch0_rxdesc_ring_length : Reg
deriving DecidableEq, Repr

/-- What eqos_start, eqos_stop and eqos_write_hwaddr do besides their work on
the descriptor rings, in program order: register accesses (a read with the
value read, writes and read-modify-writes with their operands), the calls
through config->ops and into the PHY library with their results, the
delays, the memset of the descriptor memory and the pr_err messages with
the number they print. -/
inductive Op where
  | readl (r : Reg) (val : Nat) : Op
  | writel (r : Reg) (val : Nat) : Op
  | setbits_le32 (r : Reg) (set : Nat) : Op
  | clrbits_le32 (r : Reg) (clr : Nat) : Op
  | clrsetbits_le32 (r : Reg) (clr set : Nat) : Op
  | wait_for_bit_le32 (r : Reg) (mask timeout_ms : Nat) (ret : Int) : Op
  | eqos_start_clks (ret : Int) : Op
  | eqos_start_resets (ret : Int) : Op
  | eqos_stop_resets : Op
  | eqos_stop_clks : Op
  | eqos_calibrate_pads (ret : Int) : Op
  | eqos_disable_calibration (ret : Int) : Op
  | eqos_set_tx_clk_speed (ret : Int) : Op
  | eqos_get_tick_clk_rate (rate : Nat) : Op
  | phy_connect (found : Bool) : Op
  | phy_set_supported (max_speed : Nat) (ret : Int) : Op
  | phy_config (ret : Int) : Op
  | phy_startup (ret : Int) : Op
  | phy_shutdown : Op
  | udelay (us : Nat) : Op
  | memset_descs : Op
  | pr_err (msg : String) (arg : Option Int) : Op
deriving DecidableEq, Repr

/-- True for an access to a register. -/
def Op.is_reg_access : Op → Bool
  | .readl _ _ => true
  | .writel _ _ => true
  | .setbits_le32 _ _ => true
  | .clrbits_le32 _ _ => true
  | .clrsetbits_le32 _ _ _ => true
  | .wait_for_bit_le32 _ _ _ _ => true
  | _ => false

/-- True for a read of the given register. -/
def Op.is_readl (r : Reg) : Op → Bool
  | .readl r1 _ => r1 == r
  | _ => false

/-- True for a call into the PHY library or through the clock and reset
functions of config->ops. -/
def Op.is_resource_call : Op → Bool
  | .eqos_start_clks _ => true
  | .eqos_start_resets _ => true
  | .eqos_stop_resets => true
  | .eqos_stop_clks => true
  | .phy_connect _ => true
  | .phy_set_supported _ _ => true
  | .phy_config _ => true
  | .phy_startup _ => true
  | .phy_shutdown => true
  | _ => false

/-- The device as eqos_start, eqos_stop and eqos_write_hwaddr see it: the
ring part of struct eqos_priv, the flags started and reg_access_ok, the
pointer phy (none for a null pointer), max_speed, and what the driver did
outside the rings (oldest first). -/
structure eqos_dev where
  ring : eqos_priv
  started : Bool
  reg_access_ok : Bool
  phy : Option phy_device
  max_speed : Nat
  ops : List Op

/-- The state with further operations recorded. -/
def eqos_dev.did (s : eqos_dev) (l : List Op) : eqos_dev := { s with ops := s.ops ++ l }

/-! ## eqos_adjust_link and eqos_write_hwaddr -/

/-- The end of eqos_adjust_link behind the switch on the speed: the pads are
calibrated or the calibration is disabled, then the TX clock speed is set.
Returns ret and the operations. -/
def adjust_link_clocks (pl : Platform) (en_calibration : Bool) (ops : List Op) :
    Int × List Op :=
  let ret := if en_calibration then pl.link_calibrate_pads else pl.eqos_disable_calibration
  let ops1 := ops ++
    [if en_calibration then Op.eqos_calibrate_pads ret else Op.eqos_disable_calibration ret]
  if ret < 0 then
    (ret, ops1 ++ [Op.pr_err (if en_calibration then "eqos_calibrate_pads() failed"
      else "eqos_disable_calibration() failed") (some ret)])
  else if pl.eqos_set_tx_clk_speed < 0 then
    (pl.eqos_set_tx_clk_speed, ops1 ++ [Op.eqos_set_tx_clk_speed pl.eqos_set_tx_clk_speed,
      Op.pr_err "eqos_set_tx_clk_speed() failed" (some pl.eqos_set_tx_clk_speed)])
  else (0, ops1 ++ [Op.eqos_set_tx_clk_speed pl.eqos_set_tx_clk_speed])

/-- The function eqos_adjust_link, with eqos_set_full_duplex,
eqos_set_half_duplex, eqos_set_gmii_speed, eqos_set_mii_speed_100 and
eqos_set_mii_speed_10 (which all return 0) in place.  Returns ret and the
operations. -/
def eqos_adjust_link (b : RegBits) (pl : Platform) (phy : phy_device) (ops : List Op) :
    Int × List Op :=
  let ops1 := ops ++
    (if phy.duplex ≠ 0 then [Op.setbits_le32 .mac_configuration b.EQOS_MAC_CONFIGURATION_DM]
    else [Op.clrbits_le32 .mac_configuration b.EQOS_MAC_CONFIGURATION_DM,
      Op.setbits_le32 .mtl_txq0_operation_mode b.EQOS_MTL_TXQ0_OPERATION_MODE_FTQ])
  if phy.speed = SPEED_1000 then
    adjust_link_clocks pl true (ops1 ++ [Op.clrbits_le32 .mac_configuration
      (b.EQOS_MAC_CONFIGURATION_PS ||| b.EQOS_MAC_CONFIGURATION_FES)])
  else if phy.speed = SPEED_100 then
    adjust_link_clocks pl true (ops1 ++ [Op.setbits_le32 .mac_configuration
      (b.EQOS_MAC_CONFIGURATION_PS ||| b.EQOS_MAC_CONFIGURATION_FES)])
  else if phy.speed = SPEED_10 then
    adjust_link_clocks pl false (ops1 ++ [Op.clrsetbits_le32 .mac_configuration
      b.EQOS_MAC_CONFIGURATION_FES b.EQOS_MAC_CONFIGURATION_PS])
  else (-EINVAL, ops1 ++ [Op.pr_err "invalid speed" (some (Int.ofNat phy.speed))])

/-- The function eqos_write_hwaddr, with plat->enetaddr the list enetaddr:
nothing is done unless the configuration or the flag reg_access_ok allows
register accesses.  Returns the result (0 on both paths) and the state. -/
def eqos_write_hwaddr (cfg : eqos_config) (enetaddr : List Nat) (s : eqos_dev) :
    Int × eqos_dev :=
  if !cfg.reg_access_always_ok && !s.reg_access_ok then (0, s)
  else
    (0, s.did [
      Op.writel .mac_address0_high
        (u32 (((enetaddr.getD 5 0) % 256) <<< 8 ||| (enetaddr.getD 4 0) % 256)),
      Op.writel .mac_address0_low
        (u32 (((enetaddr.getD 3 0) % 256) <<< 24 ||| ((enetaddr.getD 2 0) % 256) <<< 16 |||
          ((enetaddr.getD 1 0) % 256) <<< 8 ||| (enetaddr.getD 0 0) % 256))])

/-! ## eqos_start -/

/-- The labels at the end of eqos_start. -/
inductive Label where
  | err_shutdown_phy : Label
  | err_stop_resets : Label
  | err_stop_clks : Label
  | err : Label
deriving DecidableEq, Repr

/-- The statement goto label of eqos_start with the current value of ret:
the calls from the label down to the end, the message, and ret returned. -/
def start_unwind (label : Label) (ret : Int) (s : eqos_dev) : Int × eqos_dev :=
  (ret, s.did ((match label with
    | .err_shutdown_phy => [Op.phy_shutdown, Op.eqos_stop_resets, Op.eqos_stop_clks]
    | .err_stop_resets => [Op.eqos_stop_resets, Op.eqos_stop_clks]
    | .err_stop_clks => [Op.eqos_stop_clks]
    | .err => []) ++ [Op.pr_err "FAILED" (some ret)]))

/-- The value of tx_fifo_sz or rx_fifo_sz in eqos_start (a u32): the
preconfigured value if it is not 0, else 128 shifted left by the field of
hw_feature1 at the given shift and mask. -/
def fifo_sz (preconfigured feature1 shift mask : Nat) : Nat :=
  if u32 preconfigured ≠ 0 then u32 preconfigured
  else u32 (128 <<< ((u32 feature1 >>> shift) &&& mask))

/-- The value of tqs or rqs in eqos_start: (fifo_sz / 256) - 1 in u32
arithmetic. -/
def queue_size (fifo : Nat) : Nat := u32 (fifo / 256 + 4294967295)

/-- The values of rfd and rfa that eqos_start selects from rqs. -/
def flow_thresholds (rqs : Nat) : Nat × Nat :=
  if rqs = 4096 / 256 - 1 then (0x3, 0x1)
  else if rqs = 8192 / 256 - 1 then (0x6, 0xa)
  else if rqs = 16384 / 256 - 1 then (0x6, 0x12)
  else (0x6, 0x1E)

/-- The block of eqos_start under the comment "Flow control used only if
each channel gets 4KB or more FIFO": the register operations it makes for
the given rqs. -/
def rx_flow_control (b : RegBits) (rqs : Nat) : List Op :=
  if rqs ≥ 4096 / 256 - 1 then
    [Op.setbits_le32 .mtl_rxq0_operation_mode b.EQOS_MTL_RXQ0_OPERATION_MODE_EHFC,
     Op.clrsetbits_le32 .mtl_rxq0_operation_mode
      (u32 ((b.EQOS_MTL_RXQ0_OPERATION_MODE_RFD_MASK <<<
          b.EQOS_MTL_RXQ0_OPERATION_MODE_RFD_SHIFT) |||
        (b.EQOS_MTL_RXQ0_OPERATION_MODE_RFA_MASK <<<
          b.EQOS_MTL_RXQ0_OPERATION_MODE_RFA_SHIFT)))
      (u32 (((flow_thresholds rqs).1 <<< b.EQOS_MTL_RXQ0_OPERATION_MODE_RFD_SHIFT) |||
        ((flow_thresholds rqs).2 <<< b.EQOS_MTL_RXQ0_OPERATION_MODE_RFA_SHIFT)))]
  else []

/-- The part of eqos_start under the comment "Configure MTL": the register
operations up to the flow control block. -/
def configure_mtl (b : RegBits) (cfg : eqos_config) (pl : Platform) : List Op :=
  let rx_fifo_sz := fifo_sz cfg.rx_fifo_size pl.hw_feature1
    b.EQOS_MAC_HW_FEATURE1_RXFIFOSIZE_SHIFT b.EQOS_MAC_HW_FEATURE1_RXFIFOSIZE_MASK
  let tx_fifo_sz := fifo_sz cfg.tx_fifo_size pl.hw_feature1
    b.EQOS_MAC_HW_FEATURE1_TXFIFOSIZE_SHIFT b.EQOS_MAC_HW_FEATURE1_TXFIFOSIZE_MASK
  [Op.setbits_le32 .mtl_txq0_operation_mode
      (u32 (b.EQOS_MTL_TXQ0_OPERATION_MODE_TSF |||
        (b.EQOS_MTL_TXQ0_OPERATION_MODE_TXQEN_ENABLED <<<
          b.EQOS_MTL_TXQ0_OPERATION_MODE_TXQEN_SHIFT))),
    Op.writel .mtl_txq0_quantum_weight 0x10,
    Op.setbits_le32 .mtl_rxq0_operation_mode b.EQOS_MTL_RXQ0_OPERATION_MODE_RSF] ++
  (if u32 cfg.rx_fifo_size ≠ 0 then [] else [Op.readl .mac_hw_feature1 (u32 pl.hw_feature1)]) ++
  (if u32 cfg.tx_fifo_size ≠ 0 then [] else [Op.readl .mac_hw_feature1 (u32 pl.hw_feature1)]) ++
  [Op.clrsetbits_le32 .mtl_txq0_operation_mode
      (u32 (b.EQOS_MTL_TXQ0_OPERATION_MODE_TQS_MASK <<<
        b.EQOS_MTL_TXQ0_OPERATION_MODE_TQS_SHIFT))
      (u32 (queue_size tx_fifo_sz <<< b.EQOS_MTL_TXQ0_OPERATION_MODE_TQS_SHIFT)),
    Op.clrsetbits_le32 .mtl_rxq0_operation_mode
      (u32 (b.EQOS_MTL_RXQ0_OPERATION_MODE_RQS_MASK <<<
        b.EQOS_MTL_RXQ0_OPERATION_MODE_RQS_SHIFT))
      (u32 (queue_size rx_fifo_sz <<< b.EQOS_MTL_RXQ0_OPERATION_MODE_RQS_SHIFT))] ++
  rx_flow_control b (queue_size rx_fifo_sz)

/-- The part of eqos_start under the comment "Configure MAC", up to the call
of eqos_write_hwaddr. -/
def configure_mac (b : RegBits) (cfg : eqos_config) : List Op :=
  [Op.clrsetbits_le32 .mac_rxq_ctrl0
      (u32 (b.EQOS_MAC_RXQ_CTRL0_RXQ0EN_MASK <<< b.EQOS_MAC_RXQ_CTRL0_RXQ0EN_SHIFT))
      (u32 (cfg.config_mac <<< b.EQOS_MAC_RXQ_CTRL0_RXQ0EN_SHIFT)),
    Op.setbits_le32 .mac_q0_tx_flow_ctrl (u32 (0xffff <<< b.EQOS_MAC_Q0_TX_FLOW_CTRL_PT_SHIFT)),
    Op.clrbits_le32 .mac_txq_prty_map0
      (u32 (b.EQOS_MAC_TXQ_PRTY_MAP0_PSTQ0_MASK <<< b.EQOS_MAC_TXQ_PRTY_MAP0_PSTQ0_SHIFT)),
    Op.clrbits_le32 .mac_rxq_ctrl2
      (u32 (b.EQOS_MAC_RXQ_CTRL2_PSRQ0_MASK <<< b.EQOS_MAC_RXQ_CTRL2_PSRQ0_SHIFT)),
    Op.setbits_le32 .mac_q0_tx_flow_ctrl b.EQOS_MAC_Q0_TX_FLOW_CTRL_TFE,
    Op.setbits_le32 .mac_rx_flow_ctrl b.EQOS_MAC_RX_FLOW_CTRL_RFE,
    Op.clrsetbits_le32 .mac_configuration
      (b.EQOS_MAC_CONFIGURATION_GPSLCE ||| b.EQOS_MAC_CONFIGURATION_WD |||
        b.EQOS_MAC_CONFIGURATION_JD ||| b.EQOS_MAC_CONFIGURATION_JE)
      (b.EQOS_MAC_CONFIGURATION_CST ||| b.EQOS_MAC_CONFIGURATION_ACS)]

/-- The part of eqos_start under the comment "Configure DMA", up to the
write of sysbus_mode. -/
def configure_dma (p : Params) (b : RegBits) (cfg : eqos_config) (pl : Platform) : List Op :=
  let tqs := queue_size (fifo_sz cfg.tx_fifo_size pl.hw_feature1
    b.EQOS_MAC_HW_FEATURE1_TXFIFOSIZE_SHIFT b.EQOS_MAC_HW_FEATURE1_TXFIFOSIZE_MASK)
  let pbl := if u32 (tqs + 1) > 32 then 32 else u32 (tqs + 1)
  [Op.setbits_le32 .dma_ch0_tx_control b.EQOS_DMA_CH0_TX_CONTROL_OSP,
    Op.clrsetbits_le32 .dma_ch0_rx_control
      (u32 (b.EQOS_DMA_CH0_RX_CONTROL_RBSZ_MASK <<< b.EQOS_DMA_CH0_RX_CONTROL_RBSZ_SHIFT))
      (u32 (p.EQOS_MAX_PACKET_SIZE <<< b.EQOS_DMA_CH0_RX_CONTROL_RBSZ_SHIFT)),
    Op.setbits_le32 .dma_ch0_control b.EQOS_DMA_CH0_CONTROL_PBLX8,
    Op.clrsetbits_le32 .dma_ch0_tx_control
      (u32 (b.EQOS_DMA_CH0_TX_CONTROL_TXPBL_MASK <<< b.EQOS_DMA_CH0_TX_CONTROL_TXPBL_SHIFT))
      (u32 (pbl <<< b.EQOS_DMA_CH0_TX_CONTROL_TXPBL_SHIFT)),
    Op.clrsetbits_le32 .dma_ch0_rx_control
      (u32 (b.EQOS_DMA_CH0_RX_CONTROL_RXPBL_MASK <<< b.EQOS_DMA_CH0_RX_CONTROL_RXPBL_SHIFT))
      (u32 (8 <<< b.EQOS_DMA_CH0_RX_CONTROL_RXPBL_SHIFT)),
    Op.writel .dma_sysbus_mode
      (u32 ((2 <<< b.EQOS_DMA_SYSBUS_MODE_RD_OSR_LMT_SHIFT) ||| b.EQOS_DMA_SYSBUS_MODE_EAME |||
        b.EQOS_DMA_SYSBUS_MODE_BLEN16 ||| b.EQOS_DMA_SYSBUS_MODE_BLEN8 |||
        b.EQOS_DMA_SYSBUS_MODE_BLEN4))]

/-- The part of eqos_start under the comment "Set up descriptors", on the
rings: the memset over the descriptor memory (EQOS_DESCRIPTORS_SIZE bytes,
the size eqos_alloc_descs allocates for the two rings) clears every
descriptor, the loop stores des0 and des3 of every RX descriptor and
flushes it, the descriptor memory is flushed; and, from the end of
eqos_start, the RX tail pointer is set to the address of the last RX
descriptor.  Entries of the model behind the end of a ring are not memory
of the driver and are left as they are. -/
def setup_descriptors (p : Params) (r : eqos_priv) : eqos_priv :=
  { r with
    tx_descs := fun j =>
      if j < p.EQOS_DESCRIPTORS_TX then { des0 := 0, des1 := 0, des2 := 0, des3 := 0 }
      else r.tx_descs j
    rx_descs := fun i =>
      if i < p.EQOS_DESCRIPTORS_RX then
        { des0 := u32 (r.rx_buf_addr p i), des1 := 0, des2 := 0,
          des3 := u32 (p.EQOS_DESC3_OWN ||| p.EQOS_DESC3_BUF1V) }
      else r.rx_descs i
    ch0_rxdesc_tail_pointer := u32 (r.rx_desc_addr (p.EQOS_DESCRIPTORS_RX - 1))
    trace := r.trace ++
      ((List.range p.EQOS_DESCRIPTORS_RX).map (fun i =>
        [Ev.store_rx i 0 (u32 (r.rx_buf_addr p i)),
         Ev.store_rx i 3 (u32 (p.EQOS_DESC3_OWN ||| p.EQOS_DESC3_BUF1V)),
         Ev.flush_rx_desc i])).flatten ++
      [Ev.flush_tx_desc 0,
       Ev.writel_rxdesc_tail_pointer (u32 (r.rx_desc_addr (p.EQOS_DESCRIPTORS_RX - 1)))] }

/-- The register operations of eqos_start from the memset of the
descriptors to the end: the list addresses and ring lengths, and the
enable bits. -/
def enable_dma (p : Params) (b : RegBits) (r : eqos_priv) : List Op :=
  [Op.memset_descs,
    Op.writel .dma_ch0_txdesc_list_haddress 0,
    Op.writel .dma_ch0_txdesc_list_address (u32 r.tx_descs_addr),
    Op.writel .dma_ch0_txdesc_ring_length (u32 (p.EQOS_DESCRIPTORS_TX + 4294967295)),
    Op.writel .dma_ch0_rxdesc_list_haddress 0,
    Op.writel .dma_ch0_rxdesc_list_address (u32 r.rx_descs_addr),
    Op.writel .dma_ch0_rxdesc_ring_length (u32 (p.EQOS_DESCRIPTORS_RX + 4294967295)),
    Op.setbits_le32 .mac_configuration
      (b.EQOS_MAC_CONFIGURATION_TE ||| b.EQOS_MAC_CONFIGURATION_RE),
    Op.setbits_le32 .dma_ch0_tx_control b.EQOS_DMA_CH0_TX_CONTROL_ST,
    Op.setbits_le32 .dma_ch0_rx_control b.EQOS_DMA_CH0_RX_CONTROL_SR]

/-- The part of eqos_start from the comment "Configure MTL" to the end: no
step of it can fail; it ends with started = true. -/
def start_hw (p : Params) (b : RegBits) (cfg : eqos_config) (pl : Platform) (s : eqos_dev) :
    eqos_dev :=
  let s1 := s.did (configure_mtl b cfg pl ++ configure_mac b cfg)
  let s2 := (eqos_write_hwaddr cfg pl.enetaddr s1).2
  let s3 := s2.did (configure_dma p b cfg pl ++ enable_dma p b s.ring)
  { s3 with ring := setup_descriptors p s3.ring, started := true }

/-- The part of eqos_start from phy_startup on, for the PHY device phy. -/
def start_link (p : Params) (b : RegBits) (cfg : eqos_config) (pl : Platform)
    (phy : phy_device) (s : eqos_dev) : Int × eqos_dev :=
  let r := pl.phy_startup phy
  let s1 : eqos_dev := { s.did [Op.phy_startup r.1] with phy := some r.2 }
  if r.1 < 0 then
    start_unwind .err_shutdown_phy r.1 (s1.did [Op.pr_err "phy_startup() failed" (some r.1)])
  else if r.2.link = 0 then
    start_unwind .err_shutdown_phy r.1 (s1.did [Op.pr_err "No link" none])
  else
    let a := eqos_adjust_link b pl r.2 s1.ops
    let s2 : eqos_dev := { s1 with ops := a.2 }
    if a.1 < 0 then
      start_unwind .err_shutdown_phy a.1
        (s2.did [Op.pr_err "eqos_adjust_link() failed" (some a.1)])
    else (0, start_hw p b cfg pl s2)

/-- The part of eqos_start from the test of eqos->phy on; ret is the value
the variable ret holds there. -/
def start_phy (p : Params) (b : RegBits) (cfg : eqos_config) (pl : Platform) (ret : Int)
    (s : eqos_dev) : Int × eqos_dev :=
  match s.phy with
  | some phy => start_link p b cfg pl phy s
  | none =>
    match pl.phy_connect with
    | none =>
      start_unwind .err_stop_resets ret
        (s.did [Op.phy_connect false, Op.pr_err "phy_connect() failed" none])
    | some phy =>
      let s1 : eqos_dev := { s.did [Op.phy_connect true] with phy := some phy }
      if s.max_speed ≠ 0 ∧ pl.phy_set_supported ≠ 0 then
        start_unwind .err_shutdown_phy pl.phy_set_supported
          (s1.did [Op.phy_set_supported s.max_speed pl.phy_set_supported,
            Op.pr_err "phy_set_supported() failed" (some pl.phy_set_supported)])
      else
        let s2 := if s.max_speed ≠ 0 then
            s1.did [Op.phy_set_supported s.max_speed pl.phy_set_supported]
          else s1
        if pl.phy_config < 0 then
          start_unwind .err_shutdown_phy pl.phy_config
            (s2.did [Op.phy_config pl.phy_config,
              Op.pr_err "phy_config() failed" (some pl.phy_config)])
        else start_link p b cfg pl phy (s2.did [Op.phy_config pl.phy_config])

/-- The function eqos_start.  Returns the result and the next state. -/
def eqos_start (p : Params) (b : RegBits) (cfg : eqos_config) (pl : Platform)
    (s : eqos_dev) : Int × eqos_dev :=
  let s1 : eqos_dev :=
    { s with ring := { s.ring with tx_desc_idx := 0, rx_desc_idx := 0 } }
  let s2 := s1.did [Op.eqos_start_clks pl.eqos_start_clks]
  if pl.eqos_start_clks < 0 then
    start_unwind .err pl.eqos_start_clks
      (s2.did [Op.pr_err "eqos_start_clks() failed" (some pl.eqos_start_clks)])
  else
    let s3 := s2.did [Op.eqos_start_resets pl.eqos_start_resets]
    if pl.eqos_start_resets < 0 then
      start_unwind .err_stop_clks pl.eqos_start_resets
        (s3.did [Op.pr_err "eqos_start_resets() failed" (some pl.eqos_start_resets)])
    else
      let s4 : eqos_dev := { s3.did [Op.udelay 10] with reg_access_ok := true }
      let s5 := s4.did [Op.wait_for_bit_le32 .dma_mode b.EQOS_DMA_MODE_SWR cfg.swr_wait
        pl.wait_swr]
      if pl.wait_swr ≠ 0 then
        start_unwind .err_stop_resets pl.wait_swr
          (s5.did [Op.pr_err "EQOS_DMA_MODE_SWR stuck" none])
      else
        let s6 := s5.did [Op.eqos_calibrate_pads pl.eqos_calibrate_pads]
        if pl.eqos_calibrate_pads < 0 then
          start_unwind .err_stop_resets pl.eqos_calibrate_pads
            (s6.did [Op.pr_err "eqos_calibrate_pads() failed" (some pl.eqos_calibrate_pads)])
        else
          start_phy p b cfg pl pl.eqos_calibrate_pads
            (s6.did [Op.eqos_get_tick_clk_rate pl.eqos_get_tick_clk_rate,
              Op.writel .mac_us_tic_counter
                (u32 (pl.eqos_get_tick_clk_rate / 1000000 + 4294967295))])

/-! ## eqos_stop -/

/-- The test that ends the first poll loop of eqos_stop, on the value read
from txq0_debug: trcsts is not 1 and txqsts is 0. -/
def txq_drained (b : RegBits) (val : Nat) : Bool :=
  ((u32 val >>> b.EQOS_MTL_TXQ0_DEBUG_TRCSTS_SHIFT) &&& b.EQOS_MTL_TXQ0_DEBUG_TRCSTS_MASK != 1) &&
    (u32 val &&& b.EQOS_MTL_TXQ0_DEBUG_TXQSTS == 0)

/-- The test that ends the second poll loop of eqos_stop, on the value read
from rxq0_debug: prxq and rxqsts are both 0. -/
def rxq_drained (b : RegBits) (val : Nat) : Bool :=
  ((u32 val >>> b.EQOS_MTL_RXQ0_DEBUG_PRXQ_SHIFT) &&& b.EQOS_MTL_RXQ0_DEBUG_PRXQ_MASK == 0) &&
    ((u32 val >>> b.EQOS_MTL_RXQ0_DEBUG_RXQSTS_SHIFT) &&&
      b.EQOS_MTL_RXQ0_DEBUG_RXQSTS_MASK == 0)

/-- A poll loop of eqos_stop from iteration i on, with budget iterations
left: the register is read, hw i being the value the i-th read returns, and
the loop is left when the test holds.  Returns the operations. -/
def drain_poll (done : Nat → Bool) (r : Reg) (hw : Nat → Nat) :
    Nat → Nat → List Op → List Op
  | 0, _, ops => ops
  | budget + 1, i, ops =>
    if done (hw i) then ops ++ [Op.readl r (u32 (hw i))]
    else drain_poll done r hw budget (i + 1) (ops ++ [Op.readl r (u32 (hw i))])

/-- The function eqos_stop.  The hardware is the two functions hw_tx and
hw_rx: the values the successive reads of txq0_debug and of rxq0_debug
return. -/
def eqos_stop (b : RegBits) (hw_tx hw_rx : Nat → Nat) (s : eqos_dev) : eqos_dev :=
  if !s.started then s
  else
    let ops1 := s.ops ++
      [Op.clrbits_le32 .dma_ch0_tx_control b.EQOS_DMA_CH0_TX_CONTROL_ST]
    let ops2 := drain_poll (txq_drained b) .mtl_txq0_debug hw_tx 1000000 0 ops1
    let ops3 := ops2 ++ [Op.clrbits_le32 .mac_configuration
      (b.EQOS_MAC_CONFIGURATION_TE ||| b.EQOS_MAC_CONFIGURATION_RE)]
    let ops4 := drain_poll (rxq_drained b) .mtl_rxq0_debug hw_rx 1000000 0 ops3
    let ops5 := ops4 ++ [Op.clrbits_le32 .dma_ch0_rx_control b.EQOS_DMA_CH0_RX_CONTROL_SR] ++
      (if s.phy.isSome then [Op.phy_shutdown] else []) ++
      [Op.eqos_stop_resets, Op.eqos_stop_clks]
    { s with started := false, reg_access_ok := false, ops := ops5 }

/-! ## Concrete values, to run eqos_start and eqos_stop -/

/-- Sample values of the register macros, in the layout of the Synopsys
core: single bits by their position, fields by shift and mask. -/
def sample_bits : RegBits :=
  { EQOS_MAC_CONFIGURATION_GPSLCE := 0x800000
    EQOS_MAC_CONFIGURATION_CST := 0x200000
    EQOS_MAC_CONFIGURATION_ACS := 0x100000
    EQOS_MAC_CONFIGURATION_WD := 0x80000
    EQOS_MAC_CONFIGURATION_JD := 0x20000
    EQOS_MAC_CONFIGURATION_JE := 0x10000
    EQOS_MAC_CONFIGURATION_PS := 0x8000
    EQOS_MAC_CONFIGURATION_FES := 0x4000
    EQOS_MAC_CONFIGURATION_DM := 0x2000
    EQOS_MAC_CONFIGURATION_TE := 0x2
    EQOS_MAC_CONFIGURATION_RE := 0x1
    EQOS_MAC_Q0_TX_FLOW_CTRL_PT_SHIFT := 16
    EQOS_MAC_Q0_TX_FLOW_CTRL_TFE := 0x2
    EQOS_MAC_RX_FLOW_CTRL_RFE := 0x1
    EQOS_MAC_TXQ_PRTY_MAP0_PSTQ0_SHIFT := 0
    EQOS_MAC_TXQ_PRTY_MAP0_PSTQ0_MASK := 0xff
    EQOS_MAC_RXQ_CTRL0_RXQ0EN_SHIFT := 0
    EQOS_MAC_RXQ_CTRL0_RXQ0EN_MASK := 3
    EQOS_MAC_RXQ_CTRL2_PSRQ0_SHIFT := 0
    EQOS_MAC_RXQ_CTRL2_PSRQ0_MASK := 0xff
    EQOS_MAC_HW_FEATURE1_TXFIFOSIZE_SHIFT := 6
    EQOS_MAC_HW_FEATURE1_TXFIFOSIZE_MASK := 0x1f
    EQOS_MAC_HW_FEATURE1_RXFIFOSIZE_SHIFT := 0
    EQOS_MAC_HW_FEATURE1_RXFIFOSIZE_MASK := 0x1f
    EQOS_MTL_TXQ0_OPERATION_MODE_TQS_SHIFT := 16
    EQOS_MTL_TXQ0_OPERATION_MODE_TQS_MASK := 0x1ff
    EQOS_MTL_TXQ0_OPERATION_MODE_TXQEN_SHIFT := 2
    EQOS_MTL_TXQ0_OPERATION_MODE_TXQEN_ENABLED := 2
    EQOS_MTL_TXQ0_OPERATION_MODE_TSF := 0x2
    EQOS_MTL_TXQ0_OPERATION_MODE_FTQ := 0x1
    EQOS_MTL_TXQ0_DEBUG_TXQSTS := 0x10
    EQOS_MTL_TXQ0_DEBUG_TRCSTS_SHIFT := 1
    EQOS_MTL_TXQ0_DEBUG_TRCSTS_MASK := 3
    EQOS_MTL_RXQ0_OPERATION_MODE_RQS_SHIFT := 20
    EQOS_MTL_RXQ0_OPERATION_MODE_RQS_MASK := 0x3ff
    EQOS_MTL_RXQ0_OPERATION_MODE_RFD_SHIFT := 14
    EQOS_MTL_RXQ0_OPERATION_MODE_RFD_MASK := 0x3f
    EQOS_MTL_RXQ0_OPERATION_MODE_RFA_SHIFT := 8
    EQOS_MTL_RXQ0_OPERATION_MODE_RFA_MASK := 0x3f
    EQOS_MTL_RXQ0_OPERATION_MODE_EHFC := 0x80
    EQOS_MTL_RXQ0_OPERATION_MODE_RSF := 0x20
    EQOS_MTL_RXQ0_DEBUG_PRXQ_SHIFT := 16
    EQOS_MTL_RXQ0_DEBUG_PRXQ_MASK := 0x7fff
    EQOS_MTL_RXQ0_DEBUG_RXQSTS_SHIFT := 4
    EQOS_MTL_RXQ0_DEBUG_RXQSTS_MASK := 3
    EQOS_DMA_MODE_SWR := 0x1
    EQOS_DMA_SYSBUS_MODE_RD_OSR_LMT_SHIFT := 16
    EQOS_DMA_SYSBUS_MODE_EAME := 0x800
    EQOS_DMA_SYSBUS_MODE_BLEN16 := 0x8
    EQOS_DMA_SYSBUS_MODE_BLEN8 := 0x4
    EQOS_DMA_SYSBUS_MODE_BLEN4 := 0x2
    EQOS_DMA_CH0_CONTROL_PBLX8 := 0x10000
    EQOS_DMA_CH0_TX_CONTROL_TXPBL_SHIFT := 16
    EQOS_DMA_CH0_TX_CONTROL_TXPBL_MASK := 0x3f
    EQOS_DMA_CH0_TX_CONTROL_OSP := 0x10
    EQOS_DMA_CH0_TX_CONTROL_ST := 0x1
    EQOS_DMA_CH0_RX_CONTROL_RXPBL_SHIFT := 16
    EQOS_DMA_CH0_RX_CONTROL_RXPBL_MASK := 0x3f
    EQOS_DMA_CH0_RX_CONTROL_RBSZ_SHIFT := 1
    EQOS_DMA_CH0_RX_CONTROL_RBSZ_MASK := 0x3fff
    EQOS_DMA_CH0_RX_CONTROL_SR := 0x1 }

/-- A configuration without preconfigured FIFO sizes, in which register
accesses need reg_access_ok. -/
def sample_config : eqos_config :=
  { reg_access_always_ok := false
    swr_wait := 50
    config_mac := 2
    tx_fifo_size := 0
    rx_fifo_size := 0 }

/-- A platform on which every step succeeds: the PHY connects and comes up
with link at 1000 Mbit/s full duplex, hw_feature1 reports FIFOs of 128 shifted
left by 5 = 4096 bytes for RX (field 5) and of 128 shifted left by 5 for TX. -/
def sample_platform : Platform :=
  { eqos_start_clks := 0
    eqos_start_resets := 0
    wait_swr := 0
    eqos_calibrate_pads := 0
    eqos_get_tick_clk_rate := 125000000
    phy_connect := some { link := 0, duplex := 0, speed := 0 }
    phy_set_supported := 0
    phy_config := 0
    phy_startup := fun _ => (0, { link := 1, duplex := 1, speed := 1000 })
    link_calibrate_pads := 0
    eqos_disable_calibration := 0
    eqos_set_tx_clk_speed := 0
    hw_feature1 := 0x145
    enetaddr := [0x02, 0x00, 0x00, 0x00, 0x00, 0x01] }

/-- The device after probe, never started: stale descriptors in both rings
(all ones), cursors left at 3 and 2, no PHY connected yet. -/
def stopped_dev : eqos_dev :=
  { ring :=
      { sample_state with
        tx_descs := fun _ =>
          { des0 := 0xffffffff, des1 := 0xffffffff, des2 := 0xffffffff, des3 := 0xffffffff }
        rx_descs := fun _ =>
          { des0 := 0xffffffff, des1 := 0xffffffff, des2 := 0xffffffff, des3 := 0x7fffffff }
        tx_desc_idx := 3
        rx_desc_idx := 2
        ch0_rxdesc_tail_pointer := 0 }
    started := false
    reg_access_ok := false
    phy := none
    max_speed := 1000
    ops := [] }

/-- The platform sample_platform with a PHY that comes up without link:
phy_startup returns 0 and phy->link is 0. -/
def no_link_platform : Platform :=
  { sample_platform with phy_startup := fun _ => (0, { link := 0, duplex := 0, speed := 0 }) }

/-- The platform sample_platform on which phy_connect returns a null
pointer. -/
def no_phy_platform : Platform := { sample_platform with phy_connect := none }

/-- The platform sample_platform on which the software reset bit never
clears: wait_for_bit_le32 returns -ETIMEDOUT. -/
def swr_stuck_platform : Platform := { sample_platform with wait_swr := -ETIMEDOUT }

/-- The platform sample_platform with 0 in the FIFO size fields of
hw_feature1: FIFOs of 128 bytes. -/
def small_fifo_platform : Platform := { sample_platform with hw_feature1 := 0 }

/-! ## Descriptor memory under the stores of a trace -/

/-- A descriptor after a store of val into its word number word (0 to 3). -/
def store_word (d : eqos_desc) (word val : Nat) : eqos_desc :=
  if word = 0 then { d with des0 := val }
  else if word = 1 then { d with des1 := val }
  else if word = 2 then { d with des2 := val }
  else if word = 3 then { d with des3 := val }
  else d

/-- The TX descriptor idx after one event of the trace: a store into it
changes the word, every other event leaves it as it is. -/
def apply_tx (idx : Nat) (d : eqos_desc) : Ev → eqos_desc
  | .store_tx i word val => if i = idx then store_word d word val else d
  | _ => d

/-- The RX descriptor idx after one event of the trace. -/
def apply_rx (idx : Nat) (d : eqos_desc) : Ev → eqos_desc
  | .store_rx i word val => if i = idx then store_word d word val else d
  | _ => d

/-- True for a store of the driver into a descriptor word. -/
def Ev.is_store : Ev → Bool
  | .store_tx _ _ _ => true
  | .store_rx _ _ _ => true
  | _ => false

/-! ## Predicates on a call of eqos_start -/

/-- The steps of eqos_start from phy_startup on report success for the PHY
device phy: phy_startup does not fail, the PHY has link, and
eqos_adjust_link does not fail. -/
def link_steps_ok (b : RegBits) (pl : Platform) (phy : phy_device) : Bool :=
  decide (0 ≤ (pl.phy_startup phy).1) && ((pl.phy_startup phy).2.link != 0) &&
    decide (0 ≤ (eqos_adjust_link b pl (pl.phy_startup phy).2 []).1)

/-- Every step of eqos_start that can fail reports success on the platform
pl for the device s: the clocks and the resets start, the software reset
bit clears, the pads are calibrated, the PHY is there (connected by an
earlier call, or connected and configured now), it comes up with link, and
the link adjustment succeeds. -/
def start_steps_ok (b : RegBits) (pl : Platform) (s : eqos_dev) : Bool :=
  decide (0 ≤ pl.eqos_start_clks) && decide (0 ≤ pl.eqos_start_resets) &&
    decide (pl.wait_swr = 0) && decide (0 ≤ pl.eqos_calibrate_pads) &&
    (match s.phy with
      | some phy => link_steps_ok b pl phy
      | none =>
        match pl.phy_connect with
        | none => false
        | some phy =>
          (s.max_speed == 0 || pl.phy_set_supported == 0) && decide (0 ≤ pl.phy_config) &&
            link_steps_ok b pl phy)

end Eqos

namespace SysEeprom

/-! ## Byte-level facts -/

theorem length_set_bytes (e : List Nat) (off : Nat) (data : List Nat)
    (h : off + data.length ≤ e.length) : (set_bytes e off data).length = e.length := by
  simp only [set_bytes, List.length_append, List.length_take, List.length_drop]
  omega

theorem length_memset (e : List Nat) (off c n : Nat) (h : off + n ≤ e.length) :
    (memset e off c n).length = e.length := by
  unfold memset
  exact length_set_bytes e off _ (by simpa using h)

theorem take_set_bytes (e : List Nat) (off : Nat) (data : List Nat) (n : Nat)
    (hn : n ≤ off) (h : off ≤ e.length) : (set_bytes e off data).take n = e.take n := by
  unfold set_bytes
  rw [List.append_assoc, List.take_append_of_le_length (by simp; omega), List.take_take]
  congr 1
  omega

theorem byte_at_set_bytes_lt (e : List Nat) (off : Nat) (data : List Nat) (i : Nat)
    (hi : i < off) (h : off ≤ e.length) : byte_at (set_bytes e off data) i = byte_at e i := by
  simp only [byte_at, set_bytes, List.getD_eq_getElem?_getD, List.append_assoc]
  rw [List.getElem?_append_left (by simp; omega), List.getElem?_take_of_lt hi]

theorem byte_at_set_bytes_mid (e : List Nat) (off : Nat) (data : List Nat) (k : Nat)
    (hk : k < data.length) (h : off ≤ e.length) :
    byte_at (set_bytes e off data) (off + k) = data.getD k 0 := by
  simp only [byte_at, set_bytes, List.getD_eq_getElem?_getD, List.append_assoc]
  rw [List.getElem?_append_right (by simp), List.getElem?_append_left (by simp; omega)]
  congr 2
  simp
  omega

theorem byte_at_set_bytes_ge (e : List Nat) (off : Nat) (data : List Nat) (i : Nat)
    (hi : off + data.length ≤ i) (h : off ≤ e.length) :
    byte_at (set_bytes e off data) i = byte_at e i := by
  simp only [byte_at, set_bytes, List.getD_eq_getElem?_getD, List.append_assoc]
  rw [List.getElem?_append_right (by simp; omega), List.getElem?_append_right (by simp; omega),
    List.getElem?_drop]
  congr 2
  simp
  omega

/-! ## The checksum -/

theorem crc_bit_lt (c : Nat) (h : c < 4294967296) : crc_bit c < 4294967296 := by
  unfold crc_bit
  split
  · exact Nat.xor_lt_two_pow (n := 32) (by omega) (by norm_num)
  · omega

theorem crc_byte_lt (c b : Nat) : crc_byte c b < 4294967296 := by
  unfold crc_byte
  have h0 : (c % 4294967296) ^^^ (b % 256) < 4294967296 :=
    Nat.xor_lt_two_pow (n := 32) (by omega) (by omega)
  exact crc_bit_lt _ (crc_bit_lt _ (crc_bit_lt _ (crc_bit_lt _ (crc_bit_lt _ (crc_bit_lt _
    (crc_bit_lt _ (crc_bit_lt _ h0)))))))

theorem foldl_crc_byte_lt (buf : List Nat) (c : Nat) (h : c < 4294967296) :
    buf.foldl crc_byte c < 4294967296 := by
  induction buf generalizing c with
  | nil => simpa using h
  | cons b rest ih => exact ih _ (crc_byte_lt c b)

theorem crc32_lt (crc : Nat) (buf : List Nat) : crc32 crc buf < 4294967296 := by
  unfold crc32
  refine Nat.xor_lt_two_pow (n := 32) (foldl_crc_byte_lt _ _ ?_) (by norm_num)
  exact Nat.xor_lt_two_pow (n := 32) (by omega) (by norm_num)

/-- The check value of the standard CRC-32: the nine characters "123456789"
give 0xCBF43926. -/
theorem crc32_check_value : crc32 0 (ascii "123456789") = 0xCBF43926 := by decide!

theorem get_be32_set_bytes (e : List Nat) (off v : Nat) (hv : v < 4294967296)
    (h : off ≤ e.length) : get_be32 (set_bytes e off (cpu_to_be32 v)) off = v := by
  have h0 := byte_at_set_bytes_mid e off (cpu_to_be32 v) 0 (by simp [cpu_to_be32]) h
  have h1 := byte_at_set_bytes_mid e off (cpu_to_be32 v) 1 (by simp [cpu_to_be32]) h
  have h2 := byte_at_set_bytes_mid e off (cpu_to_be32 v) 2 (by simp [cpu_to_be32]) h
  have h3 := byte_at_set_bytes_mid e off (cpu_to_be32 v) 3 (by simp [cpu_to_be32]) h
  simp only [Nat.add_zero] at h0
  unfold get_be32
  rw [h0, h1, h2, h3]
  simp only [cpu_to_be32, List.getD_cons_zero, List.getD_cons_succ]
  omega

theorem off_crc_eq (cfg : Config) : sizeof_eeprom cfg - 4 = off_crc cfg := by
  simp [sizeof_eeprom]

theorem length_update_crc (cfg : Config) (e : List Nat) (h : e.length = sizeof_eeprom cfg) :
    (update_crc cfg e).length = sizeof_eeprom cfg := by
  unfold update_crc
  rw [length_set_bytes _ _ _ (by simp [cpu_to_be32, sizeof_eeprom] at h ⊢; omega), h]

theorem crc_valid_update_crc (cfg : Config) (e : List Nat) (h : e.length = sizeof_eeprom cfg) :
    crc_valid cfg (update_crc cfg e) = true := by
  have hle : off_crc cfg ≤ e.length := by rw [h]; simp [sizeof_eeprom]
  simp only [crc_valid, beq_iff_eq, off_crc_eq]
  unfold update_crc
  rw [get_be32_set_bytes _ _ _ (crc32_lt _ _) hle, take_set_bytes _ _ _ _ (le_refl _) hle,
    off_crc_eq]

/-! ## The setters of do_mac -/

theorem length_strncpy (src : List Nat) (n : Nat) : (strncpy src n).length = n := by
  simp only [strncpy, List.length_append, List.length_replicate, List.length_take]
  omega

theorem sizeof_nxid (ports : Nat) : sizeof_eeprom (.nxid ports) = 160 + 6 * ports := by
  simp [sizeof_eeprom, off_crc, off_res_2, off_product_info, off_board_version, off_mac,
    len_res_2, len_product_info, len_board_version, MAX_NUM_PORTS]
  omega

theorem sizeof_ccid : sizeof_eeprom .ccid = 118 := by
  simp [sizeof_eeprom, off_crc, off_mac]

theorem length_set_mac_loop (strtoul : List Nat → Nat → Nat × List Nat) (index : Nat)
    (budget i : Nat) (p e : List Nat) (h : off_mac_slot index + i + budget ≤ e.length) :
    (set_mac_loop strtoul index budget i p e).length = e.length := by
  induction budget generalizing i p e with
  | zero => simp [set_mac_loop]
  | succ b ih =>
    simp only [set_mac_loop]
    split
    · rfl
    · have hl : (set_bytes e (off_mac_slot index + i) [(strtoul p 16).1 % 256]).length = e.length :=
        length_set_bytes _ _ _ (by simp; omega)
      rw [ih _ _ _ (by rw [hl]; omega), hl]

theorem length_set_field (e : List Nat) (off n : Nat) (arg : List Nat)
    (h : off + n ≤ e.length) (hn : 0 < n) :
    (set_bytes (memset e off 0 n) off (strncpy arg (n - 1))).length = e.length := by
  rw [length_set_bytes _ _ _ (by rw [length_strncpy, length_memset _ _ _ _ h]; omega),
    length_memset _ _ _ _ h]

theorem mac_slot_end_le (cfg : Config) (index : Nat) (h : index < MAX_NUM_PORTS cfg) :
    off_mac_slot index + 6 ≤ sizeof_eeprom cfg := by
  cases cfg with
  | ccid => simp [MAX_NUM_PORTS] at h; simp [sizeof_ccid, off_mac_slot, off_mac]; omega
  | nxid p => simp [MAX_NUM_PORTS] at h; simp [sizeof_nxid, off_mac_slot, off_mac]; omega

theorem arg_accepted_other (strtoul : List Nat → Nat → Nat × List Nat) (cfg : Config)
    (argv : List (List Nat)) (h1 : str_at (argv.getD 1 []) 0 ≠ 100)
    (h2 : ¬(48 ≤ str_at (argv.getD 1 []) 0 ∧ str_at (argv.getD 1 []) 0 ≤ 57)) :
    arg_accepted strtoul cfg argv = true := by
  unfold arg_accepted
  rw [if_neg h1, if_neg h2]

theorem arg_accepted_date (strtoul : List Nat → Nat → Nat × List Nat) (cfg : Config)
    (argv : List (List Nat)) (h1 : str_at (argv.getD 1 []) 0 = 100) :
    arg_accepted strtoul cfg argv = (strlen (argv.getD 2 []) == 12) := by
  unfold arg_accepted
  rw [if_pos h1]

theorem arg_accepted_digit (strtoul : List Nat → Nat → Nat × List Nat) (cfg : Config)
    (argv : List (List Nat))
    (h2 : 48 ≤ str_at (argv.getD 1 []) 0 ∧ str_at (argv.getD 1 []) 0 ≤ 57) :
    arg_accepted strtoul cfg argv =
      decide ((strtoul (argv.getD 1 []) 10).1 % 4294967296 < MAX_NUM_PORTS cfg) := by
  unfold arg_accepted
  rw [if_neg (by omega), if_pos h2]

theorem set_date_spec {σ : Type} (cfg : Config) (string : List Nat) (s : State σ)
    (hlen : s.e.length = sizeof_eeprom cfg) :
    (strlen string = 12 → crc_valid cfg (set_date cfg string s).e = true) ∧
    (strlen string ≠ 12 → (set_date cfg string s).e = s.e ∧
      (set_date cfg string s).console = s.console ++ [Msg.usage_date]) := by
  unfold set_date
  constructor
  · intro h
    rw [if_neg (by simpa using h)]
    refine crc_valid_update_crc _ _ ?_
    rw [length_set_bytes _ _ _ (by
      cases cfg <;> simp [hlen, sizeof_nxid, sizeof_ccid, off_date]; omega), hlen]
  · intro h
    rw [if_pos h]
    exact ⟨rfl, rfl⟩

theorem set_mac_address_spec {σ : Type} (strtoul : List Nat → Nat → Nat × List Nat)
    (cfg : Config) (index : Nat) (string : List Nat) (s : State σ)
    (hlen : s.e.length = sizeof_eeprom cfg) :
    (index < MAX_NUM_PORTS cfg →
      crc_valid cfg (set_mac_address strtoul cfg index string s).e = true) ∧
    (¬ index < MAX_NUM_PORTS cfg → (set_mac_address strtoul cfg index string s).e = s.e ∧
      (set_mac_address strtoul cfg index string s).console = s.console ++ [Msg.usage_mac]) := by
  unfold set_mac_address
  constructor
  · intro h
    rw [if_neg (by omega)]
    refine crc_valid_update_crc _ _ ?_
    rw [length_set_mac_loop _ _ _ _ _ _ (by have := mac_slot_end_le cfg _ h; omega), hlen]
  · intro h
    rw [if_pos (by omega)]
    exact ⟨rfl, rfl⟩

/-- Claim C7, as amended: for every record of the configured size whose tag
passes is_valid and every argument, after a setter command of do_mac (n, e,
d, p, a digit; b and a in the NXID layout) whose argument is accepted (a date
of 12 characters, a MAC index below MAX_NUM_PORTS) the stored big-endian
checksum equals the CRC-32 of bytes [0, size-4); a rejected argument prints
the usage line and leaves the record, its checksum included, as it was. -/
theorem do_mac_setter_checksum {σ : Type} (t : Transport σ)
    (strtoul : List Nat → Nat → Nat × List Nat) (cfg : Config) (e2 : List Nat)
    (argv : List (List Nat)) (s : State σ)
    (hlen : s.e.length = sizeof_eeprom cfg)
    (hvalid : is_valid cfg s.e = true)
    (hargc : 3 ≤ argv.length)
    (hcmd : setter_cmd cfg (str_at (argv.getD 1 []) 0) = true) :
    (arg_accepted strtoul cfg argv = true →
      crc_valid cfg (do_mac t strtoul cfg e2 argv s).e = true) ∧
    (arg_accepted strtoul cfg argv = false →
      (do_mac t strtoul cfg e2 argv s).e = s.e ∧
      ((do_mac t strtoul cfg e2 argv s).console = s.console ++ [Msg.usage_date] ∨
       (do_mac t strtoul cfg e2 argv s).console = s.console ++ [Msg.usage_mac])) := by
  have h1 : argv.length ≠ 1 := by omega
  have h2 : argv.length ≠ 2 := by omega
  simp only [setter_cmd, Bool.or_eq_true, Bool.and_eq_true, beq_iff_eq, decide_eq_true_eq] at hcmd
  have hr : str_at (argv.getD 1 []) 0 ≠ 114 := by omega
  have hi : str_at (argv.getD 1 []) 0 ≠ 105 := by omega
  unfold do_mac do_mac_switch
  simp only [h1, h2, hr, hi, hvalid, if_false, Bool.not_true, Bool.false_eq_true]
  split_ifs with hn hb ha he hd hp hdig
  · rw [arg_accepted_other _ _ _ (by omega) (by omega)]
    refine ⟨fun _ => crc_valid_update_crc _ _ ?_, fun h => absurd h (by simp)⟩
    rw [length_set_field _ _ _ _
      (by cases cfg <;> simp [hlen, sizeof_nxid, sizeof_ccid, off_sn, len_sn]; omega)
      (by cases cfg <;> simp [len_sn]), hlen]
  · rw [arg_accepted_other _ _ _ (by omega) (by omega)]
    refine ⟨fun _ => crc_valid_update_crc _ _ ?_, fun h => absurd h (by simp)⟩
    cases cfg with
    | ccid => simp [Config.is_nxid] at hb
    | nxid p =>
      rw [length_set_field _ _ _ _ (by
        simp [hlen, sizeof_nxid, off_board_version, off_mac, len_board_version, MAX_NUM_PORTS]
        omega) (by simp [len_board_version]), hlen]
  · rw [arg_accepted_other _ _ _ (by omega) (by omega)]
    refine ⟨fun _ => crc_valid_update_crc _ _ ?_, fun h => absurd h (by simp)⟩
    cases cfg with
    | ccid => simp [Config.is_nxid] at ha
    | nxid p =>
      rw [length_set_field _ _ _ _ (by
        simp [hlen, sizeof_nxid, off_product_info, off_board_version, off_mac, len_board_version,
          len_product_info, MAX_NUM_PORTS]
        omega) (by simp [len_product_info]), hlen]
  · rw [arg_accepted_other _ _ _ (by omega) (by omega)]
    refine ⟨fun _ => ?_, fun h => absurd h (by simp)⟩
    cases cfg with
    | ccid =>
      refine crc_valid_update_crc _ _ ?_
      rw [length_set_bytes _ _ _ (by simp [hlen, sizeof_ccid, off_errata]), hlen]
    | nxid p =>
      refine crc_valid_update_crc _ _ ?_
      rw [length_set_field s.e off_errata 5 (argv.getD 2 [])
        (by simp [hlen, sizeof_nxid, off_errata]; omega) (by norm_num), hlen]
  · rw [arg_accepted_date _ _ _ hd]
    have := set_date_spec cfg (argv.getD 2 []) s hlen
    refine ⟨fun h => this.1 (by simpa using h), fun h => ?_⟩
    have h12 : strlen (argv.getD 2 []) ≠ 12 := by simpa using h
    exact ⟨(this.2 h12).1, Or.inl (this.2 h12).2⟩
  · rw [arg_accepted_other _ _ _ (by omega) (by omega)]
    refine ⟨fun _ => crc_valid_update_crc _ _ ?_, fun h => absurd h (by simp)⟩
    rw [length_set_bytes _ _ _ (by
      cases cfg <;> simp [hlen, sizeof_nxid, sizeof_ccid, off_mac_count]; omega), hlen]
  · rw [arg_accepted_digit _ _ _ hdig]
    have := set_mac_address_spec strtoul cfg
      ((strtoul (argv.getD 1 []) 10).1 % 4294967296) (argv.getD 2 []) s hlen
    refine ⟨fun h => this.1 (by simpa using h), fun h => ?_⟩
    have hge : ¬ (strtoul (argv.getD 1 []) 10).1 % 4294967296 < MAX_NUM_PORTS cfg := by
      simpa using h
    exact ⟨(this.2 hge).1, Or.inr (this.2 hge).2⟩
  · exfalso
    tauto

/-- Claim C7 as stated fails: on a record with a valid tag and a stale
checksum, the date setter with a 3-character argument returns with the
checksum still wrong. -/
theorem do_mac_date_keeps_stale_checksum :
    is_valid (.nxid 4) rec_stale = true ∧
    setter_cmd (.nxid 4) (str_at (ascii "d") 0) = true ∧
    crc_valid (.nxid 4) (do_mac mem_transport simple_strtoul (.nxid 4) []
      [ascii "mac", ascii "d", ascii "123"] (loaded_state env_empty rec_stale)).e = false := by
  decide!

/-- The setter theorem at a concrete input: the serial number command on the
stale record leaves a record that validates. -/
theorem do_mac_setter_checksum_witness :
    rec_stale.length = sizeof_eeprom (.nxid 4) ∧
    is_valid (.nxid 4) rec_stale = true ∧
    3 ≤ [ascii "mac", ascii "n", ascii "XY"].length ∧
    setter_cmd (.nxid 4) (str_at ([ascii "mac", ascii "n", ascii "XY"].getD 1 []) 0) = true ∧
    crc_valid (.nxid 4) (do_mac mem_transport simple_strtoul (.nxid 4) []
      [ascii "mac", ascii "n", ascii "XY"] (loaded_state env_empty rec_stale)).e = true :=
  ⟨by decide!, by decide!, by decide!, by decide!,
    (do_mac_setter_checksum mem_transport simple_strtoul (.nxid 4) []
      [ascii "mac", ascii "n", ascii "XY"] (loaded_state env_empty rec_stale)
      (by decide!) (by decide!) (by decide!) (by decide!)).1 (by decide!)⟩

/-! ## mac_read_from_eeprom: the three checks -/

theorem print_console {σ : Type} (s : State σ) (m : Msg) :
    (s.print m).console = s.console ++ [m] := rfl

theorem print_env {σ : Type} (s : State σ) (m : Msg) : (s.print m).env = s.env := rfl

theorem print_e {σ : Type} (s : State σ) (m : Msg) : (s.print m).e = s.e := rfl

theorem read_eeprom_env {σ : Type} (t : Transport σ) (cfg : Config) (s : State σ) :
    (read_eeprom t cfg s).2.env = s.env := by
  unfold read_eeprom
  split <;> rfl

theorem read_eeprom_console {σ : Type} (t : Transport σ) (cfg : Config) (s : State σ) :
    (read_eeprom t cfg s).2.console = s.console := by
  unfold read_eeprom
  split <;> rfl

theorem read_eeprom_cached {σ : Type} (t : Transport σ) (cfg : Config) (s : State σ)
    (h : s.has_been_read = true) : read_eeprom t cfg s = (0, s) := by
  unfold read_eeprom
  rw [if_pos h]

theorem export_record_console {σ : Type} (cfg : Config) (s : State σ) :
    ∃ id v, (export_record cfg s).console = s.console ++ [Msg.id_line id v] :=
  ⟨_, _, rfl⟩

theorem mac_read_accepts {σ : Type} (t : Transport σ) (cfg : Config) (s : State σ)
    (h : accepts t cfg s = true) :
    mac_read_from_eeprom t cfg s = export_record cfg (read_eeprom t cfg (s.print .eeprom)).2 := by
  simp only [accepts, record_read, Bool.and_eq_true, beq_iff_eq] at h
  obtain ⟨⟨h1, h2⟩, h3⟩ := h
  unfold mac_read_from_eeprom
  simp only [h1, h2, h3, ne_eq, not_true_eq_false, if_false, Bool.not_true, Bool.false_eq_true]

/-- Claim C3: for a record that read_eeprom delivered and whose tag passes
is_valid, the checksum offset is 0x72 for an NXID record with version 0 and
size-4 otherwise; mac_read_from_eeprom goes on to print the tag line exactly
when the big-endian value stored at that offset equals the CRC-32 of the
bytes before it; on a mismatch it reports the mismatch, leaves every
environment variable as it was and leaves the record as read_eeprom left it
(the record before the call when it had been read before). -/
theorem mac_read_checksum_gate {σ : Type} (t : Transport σ) (cfg : Config) (s : State σ)
    (hread : (read_eeprom t cfg (s.print .eeprom)).1 = 0)
    (hvalid : is_valid cfg (record_read t cfg s) = true) :
    (crc_offset cfg (record_read t cfg s) =
      if cfg.is_nxid = true ∧ version_is_zero (record_read t cfg s) = true then 0x72
      else sizeof_eeprom cfg - 4) ∧
    ((∃ id v, (mac_read_from_eeprom t cfg s).console = s.console ++ [Msg.eeprom, Msg.id_line id v]) ↔
      get_be32 (record_read t cfg s) (crc_offset cfg (record_read t cfg s)) =
        crc32 0 ((record_read t cfg s).take (crc_offset cfg (record_read t cfg s)))) ∧
    (get_be32 (record_read t cfg s) (crc_offset cfg (record_read t cfg s)) ≠
        crc32 0 ((record_read t cfg s).take (crc_offset cfg (record_read t cfg s))) →
      (mac_read_from_eeprom t cfg s).env = s.env ∧
      (mac_read_from_eeprom t cfg s).e = record_read t cfg s ∧
      (s.has_been_read = true → (mac_read_from_eeprom t cfg s).e = s.e) ∧
      (mac_read_from_eeprom t cfg s).console = s.console ++ [Msg.eeprom,
        Msg.crc_mismatch
          (crc32 0 ((record_read t cfg s).take (crc_offset cfg (record_read t cfg s))))
          (get_be32 (record_read t cfg s) (off_crc cfg))]) := by
  have hmis : get_be32 (record_read t cfg s) (crc_offset cfg (record_read t cfg s)) ≠
        crc32 0 ((record_read t cfg s).take (crc_offset cfg (record_read t cfg s))) →
      mac_read_from_eeprom t cfg s = (read_eeprom t cfg (s.print .eeprom)).2.print
        (Msg.crc_mismatch
          (crc32 0 ((record_read t cfg s).take (crc_offset cfg (record_read t cfg s))))
          (get_be32 (record_read t cfg s) (off_crc cfg))) := by
    intro h
    unfold mac_read_from_eeprom
    simp only [record_read] at hvalid h
    simp only [record_read, hread, hvalid, ne_eq, not_true_eq_false, if_false, Bool.not_true,
      Bool.false_eq_true, Ne.symm h, not_false_eq_true, if_true]
  have hcons : (read_eeprom t cfg (s.print .eeprom)).2.console = s.console ++ [Msg.eeprom] := by
    rw [read_eeprom_console]; rfl
  refine ⟨?_, ⟨?_, ?_⟩, ?_⟩
  · simp only [crc_offset, off_crc_eq]
  · rintro ⟨id, v, hc⟩
    by_contra hne
    rw [hmis hne, print_console, hcons] at hc
    simp only [List.append_assoc, List.singleton_append,
      List.append_cancel_left_eq, List.cons.injEq, reduceCtorEq, and_false, true_and] at hc
    exact hc.1
  · intro heq
    have hacc : accepts t cfg s = true := by
      simp only [accepts, Bool.and_eq_true, beq_iff_eq]
      exact ⟨⟨hread, hvalid⟩, heq.symm⟩
    rw [mac_read_accepts t cfg s hacc]
    obtain ⟨id, v, h⟩ := export_record_console cfg (read_eeprom t cfg (s.print .eeprom)).2
    refine ⟨id, v, ?_⟩
    rw [h, hcons, List.append_assoc]
    rfl
  · intro hne
    rw [hmis hne]
    refine ⟨?_, rfl, ?_, ?_⟩
    · rw [print_env, read_eeprom_env, print_env]
    · intro hr
      rw [print_e, read_eeprom_cached _ _ _ (by simpa [State.print] using hr), print_e]
    · rw [print_console, hcons, List.append_assoc]
      rfl

/-- The checksum gate on a device whose record has the NXID tag and a wrong
checksum: the read succeeds, the tag passes, and the call changes neither the
environment nor the record. -/
theorem mac_read_checksum_gate_witness :
    (read_eeprom mem_transport (.nxid 4)
      ((boot_state (.nxid 4) env_empty rec_stale).print .eeprom)).1 = 0 ∧
    is_valid (.nxid 4)
      (record_read mem_transport (.nxid 4) (boot_state (.nxid 4) env_empty rec_stale)) = true ∧
    (mac_read_from_eeprom mem_transport (.nxid 4)
      (boot_state (.nxid 4) env_empty rec_stale)).env = env_empty ∧
    (mac_read_from_eeprom mem_transport (.nxid 4)
      (boot_state (.nxid 4) env_empty rec_stale)).e = rec_stale :=
  ⟨by decide!, by decide!,
    ((mac_read_checksum_gate mem_transport (.nxid 4) (boot_state (.nxid 4) env_empty rec_stale)
      (by decide!) (by decide!)).2.2 (by decide!)).1,
    ((mac_read_checksum_gate mem_transport (.nxid 4) (boot_state (.nxid 4) env_empty rec_stale)
      (by decide!) (by decide!)).2.2 (by decide!)).2.1.trans (by decide!)⟩

/-! ## mac_read_from_eeprom on concrete devices -/

/-- Claim C1, the code at a failing input: the device holds the valid record
rec_v1 (board version "B2", serial number "SN1") and the environment already
has board_version = "KEEP" and serial# = "USER"; the call accepts the record
and overwrites both variables. -/
theorem mac_read_overwrites_set_keys :
    accepts mem_transport (.nxid 4) (boot_state (.nxid 4)
      (env_set (env_set env_empty BOARDVERSION_NAME (ascii "KEEP")) SERIALNO_NAME (ascii "USER"))
      rec_v1) = true ∧
    (mac_read_from_eeprom mem_transport (.nxid 4) (boot_state (.nxid 4)
      (env_set (env_set env_empty BOARDVERSION_NAME (ascii "KEEP")) SERIALNO_NAME (ascii "USER"))
      rec_v1)).env BOARDVERSION_NAME = some (ascii "B2") ∧
    (mac_read_from_eeprom mem_transport (.nxid 4) (boot_state (.nxid 4)
      (env_set (env_set env_empty BOARDVERSION_NAME (ascii "KEEP")) SERIALNO_NAME (ascii "USER"))
      rec_v1)).env SERIALNO_NAME = some (ascii "SN1") := by
  decide!

/-- Claim C2, the code at a failing input: the device holds a record whose
tag bytes are N, 0, 0, 0 with a checksum that is correct for its bytes; the
tag test is_valid passes, no Invalid ID line is printed, the record is
accepted and exported. -/
theorem mac_read_accepts_one_letter_tag :
    bytes_at rec_bad_tag 0 4 = [78, 0, 0, 0] ∧
    crc_valid (.nxid 4) rec_bad_tag = true ∧
    is_valid (.nxid 4) rec_bad_tag = true ∧
    (mac_read_from_eeprom mem_transport (.nxid 4)
      (boot_state (.nxid 4) env_empty rec_bad_tag)).console =
        [Msg.eeprom, Msg.id_line [78, 0, 0, 0] (some 1)] ∧
    (mac_read_from_eeprom mem_transport (.nxid 4)
      (boot_state (.nxid 4) env_empty rec_bad_tag)).env SERIALNO_NAME = some (ascii "SN1") ∧
    (mac_read_from_eeprom mem_transport (.nxid 4)
      (boot_state (.nxid 4) env_empty rec_bad_tag)).env (enetvar 0) =
        some (ascii "AA:BB:CC:DD:EE:01") := by
  decide!

/-- Claim C5, the code at two failing inputs.  Default layout
(MAX_NUM_PORTS = 16), version 0 record with mac_count 9: the slot erased is
slot 15, slot 8 keeps the four legacy checksum bytes 73 26 74 2B, and
eth8addr is set from them.  Layout of the board configuration
(MAX_NUM_PORTS = 4), version 0 record with four addresses: the slot erased
is slot 3, and eth3addr is not exported. -/
theorem mac_read_v0_erases_last_slot :
    accepts mem_transport (.nxid 16) (boot_state (.nxid 16) env_empty rec_v0) = true ∧
    version_is_zero rec_v0 = true ∧
    bytes_at rec_v0 0x72 4 = cpu_to_be32 (crc32 0 (rec_v0.take 0x72)) ∧
    mac_slot rec_v0 8 = [0x73, 0x26, 0x74, 0x2B, 0, 0] ∧
    (mac_read_from_eeprom mem_transport (.nxid 16)
      (boot_state (.nxid 16) env_empty rec_v0)).env (enetvar 8) =
        some (ascii "73:26:74:2B:00:00") ∧
    mac_slot (mac_read_from_eeprom mem_transport (.nxid 16)
      (boot_state (.nxid 16) env_empty rec_v0)).e 8 = [0x73, 0x26, 0x74, 0x2B, 0, 0] ∧
    mac_slot (mac_read_from_eeprom mem_transport (.nxid 16)
      (boot_state (.nxid 16) env_empty rec_v0)).e 15 = List.replicate 6 0xFF ∧
    accepts mem_transport (.nxid 4) (boot_state (.nxid 4) env_empty rec_v0_4) = true ∧
    mac_slot rec_v0_4 3 = [2, 0, 0, 0, 0, 4] ∧
    (mac_read_from_eeprom mem_transport (.nxid 4)
      (boot_state (.nxid 4) env_empty rec_v0_4)).env (enetvar 3) = none ∧
    mac_slot (mac_read_from_eeprom mem_transport (.nxid 4)
      (boot_state (.nxid 4) env_empty rec_v0_4)).e 3 = List.replicate 6 0xFF := by
  decide!

/-! ## mac_read_from_eeprom: the upgrade of a version 0 record -/

theorem bytes_at_set_bytes_lt (e : List Nat) (off : Nat) (data : List Nat) (o l : Nat)
    (hi : o + l ≤ off) (h : off ≤ e.length) :
    bytes_at (set_bytes e off data) o l = bytes_at e o l := by
  unfold bytes_at
  rw [List.take_drop, List.take_drop, take_set_bytes _ _ _ _ (by omega) h]

theorem bytes_at_set_bytes_self (e : List Nat) (off : Nat) (data : List Nat)
    (h : off ≤ e.length) : bytes_at (set_bytes e off data) off data.length = data := by
  unfold bytes_at set_bytes
  rw [List.append_assoc, List.drop_append_of_le_length (by simp; omega)]
  simp [List.drop_take]

theorem get_be32_set_bytes_lt (e : List Nat) (off : Nat) (data : List Nat) (o : Nat)
    (hi : o + 4 ≤ off) (h : off ≤ e.length) :
    get_be32 (set_bytes e off data) o = get_be32 e o := by
  unfold get_be32
  rw [byte_at_set_bytes_lt _ _ _ _ (by omega) h, byte_at_set_bytes_lt _ _ _ _ (by omega) h,
    byte_at_set_bytes_lt _ _ _ _ (by omega) h, byte_at_set_bytes_lt _ _ _ _ (by omega) h]

theorem length_buf_store (buf data : List Nat) (len : Nat) (h : buf.length = len) :
    (buf_store buf data len).length = len := by
  simp only [buf_store, List.length_append, List.length_take, List.length_drop]
  omega

theorem length_clear_ff (e : List Nat) (off : Nat) : (clear_ff e off).length = e.length := by
  unfold clear_ff
  split
  · rename_i h
    by_cases hlt : off < e.length
    · exact length_set_bytes _ _ _ (by simp; omega)
    · exfalso
      simp only [byte_at, List.getD_eq_getElem?_getD] at h
      rw [List.getElem?_eq_none (by omega)] at h
      simp at h
  · rfl

theorem length_clear_unset (cfg : Config) (e : List Nat) :
    (clear_unset cfg e).length = e.length := by
  unfold clear_unset
  simp only
  split <;> simp only [length_clear_ff]

theorem length_read_eeprom {σ : Type} (t : Transport σ) (cfg : Config) (s : State σ)
    (h : s.e.length = sizeof_eeprom cfg) :
    (read_eeprom t cfg s).2.e.length = sizeof_eeprom cfg := by
  unfold read_eeprom
  split
  · exact h
  · simp only [length_clear_unset, length_buf_store _ _ _ h]

theorem read_eeprom_log {σ : Type} (t : Transport σ) (cfg : Config) (s : State σ) :
    ∃ reads, (read_eeprom t cfg s).2.log = s.log ++ reads ∧
      ∀ op ∈ reads, BusOp.is_write op = false := by
  unfold read_eeprom
  split
  · exact ⟨[], by simp, by simp⟩
  · exact ⟨[_], rfl, by simp [BusOp.is_write]⟩

theorem export_record_log {σ : Type} (cfg : Config) (s : State σ) :
    (export_record cfg s).log = s.log := rfl

theorem export_record_bus {σ : Type} (cfg : Config) (s : State σ) :
    (export_record cfg s).bus = s.bus := rfl

theorem export_record_v0 {σ : Type} (ports : Nat) (s : State σ)
    (hlen : s.e.length = sizeof_eeprom (.nxid ports))
    (hv0 : version_is_zero s.e = true) :
    (export_record (.nxid ports) s).e =
      update_crc (.nxid ports) (set_bytes (memset s.e (off_mac_slot (MAX_NUM_PORTS (.nxid ports) - 1))
        0xff 6) off_version (cpu_to_be32 NXID_VERSION)) := by
  have hv1 : version_is_zero (memset s.e (off_mac_slot (MAX_NUM_PORTS (.nxid ports) - 1)) 0xff 6)
      = true := by
    unfold version_is_zero memset at *
    rw [get_be32_set_bytes_lt _ _ _ _ (by simp [off_version, off_mac_slot, off_mac]; omega)
      (by simp [hlen, sizeof_nxid, off_mac_slot, off_mac, MAX_NUM_PORTS]; omega)]
    exact hv0
  simp only [export_record, Config.is_nxid, hv0, hv1, and_self, if_true]

/-- Claim C6: for every NXID record with version 0 that mac_read_from_eeprom
accepts, after the call the version field holds 1 in big-endian order and
the checksum stored at size-4 equals the CRC-32 of the bytes before it; the
only accesses the call makes to the transport are reads. -/
theorem mac_read_upgrades_v0 {σ : Type} (t : Transport σ) (ports : Nat) (s : State σ)
    (hlen : s.e.length = sizeof_eeprom (.nxid ports))
    (hacc : accepts t (.nxid ports) s = true)
    (hv0 : version_is_zero (record_read t (.nxid ports) s) = true) :
    bytes_at (mac_read_from_eeprom t (.nxid ports) s).e off_version 4 = [0, 0, 0, 1] ∧
    get_be32 (mac_read_from_eeprom t (.nxid ports) s).e (sizeof_eeprom (.nxid ports) - 4) =
      crc32 0 ((mac_read_from_eeprom t (.nxid ports) s).e.take (sizeof_eeprom (.nxid ports) - 4)) ∧
    (∃ reads, (mac_read_from_eeprom t (.nxid ports) s).log = s.log ++ reads ∧
      ∀ op ∈ reads, BusOp.is_write op = false) := by
  have hl : (read_eeprom t (.nxid ports) (s.print .eeprom)).2.e.length =
      sizeof_eeprom (.nxid ports) := length_read_eeprom t _ _ (by rw [print_e]; exact hlen)
  have hm : (memset (read_eeprom t (.nxid ports) (s.print .eeprom)).2.e
      (off_mac_slot (MAX_NUM_PORTS (.nxid ports) - 1)) 0xff 6).length =
      sizeof_eeprom (.nxid ports) := by
    rw [length_memset _ _ _ _ (by
      simp [hl, sizeof_nxid, off_mac_slot, off_mac, MAX_NUM_PORTS]; omega), hl]
  have hx : (set_bytes (memset (read_eeprom t (.nxid ports) (s.print .eeprom)).2.e
      (off_mac_slot (MAX_NUM_PORTS (.nxid ports) - 1)) 0xff 6) off_version
      (cpu_to_be32 NXID_VERSION)).length = sizeof_eeprom (.nxid ports) := by
    rw [length_set_bytes _ _ _ (by
      simp [hm, sizeof_nxid, off_version, cpu_to_be32]; omega), hm]
  rw [mac_read_accepts t _ s hacc]
  refine ⟨?_, ?_, ?_⟩
  · rw [export_record_v0 ports _ hl hv0]
    unfold update_crc
    rw [bytes_at_set_bytes_lt _ _ _ _ _ (by
        simp [off_version, off_crc, off_res_2, off_product_info, off_board_version, off_mac,
          len_res_2, len_product_info, len_board_version])
      (by rw [hx]; simp [sizeof_eeprom])]
    exact bytes_at_set_bytes_self _ off_version (cpu_to_be32 NXID_VERSION)
      (by rw [hm]; simp [sizeof_nxid, off_version]; omega)
  · rw [export_record_v0 ports _ hl hv0]
    have := crc_valid_update_crc (.nxid ports) _ hx
    simp only [crc_valid, beq_iff_eq] at this
    rw [off_crc_eq] at this ⊢
    exact this.symm
  · rw [export_record_log]
    exact read_eeprom_log t _ (s.print .eeprom)

/-- The upgrade theorem on the byte-memory device holding the version 0
record rec_v0_4: the record is accepted, upgraded in memory, and the device
still holds the version 0 bytes. -/
theorem mac_read_upgrades_v0_witness :
    (boot_state (.nxid 4) env_empty rec_v0_4).e.length = sizeof_eeprom (.nxid 4) ∧
    accepts mem_transport (.nxid 4) (boot_state (.nxid 4) env_empty rec_v0_4) = true ∧
    version_is_zero
      (record_read mem_transport (.nxid 4) (boot_state (.nxid 4) env_empty rec_v0_4)) = true ∧
    bytes_at (mac_read_from_eeprom mem_transport (.nxid 4)
      (boot_state (.nxid 4) env_empty rec_v0_4)).e off_version 4 = [0, 0, 0, 1] ∧
    (List.range 184).map (mac_read_from_eeprom mem_transport (.nxid 4)
      (boot_state (.nxid 4) env_empty rec_v0_4)).bus = rec_v0_4 :=
  ⟨by decide!, by decide!, by decide!,
    (mac_read_upgrades_v0 mem_transport 4 (boot_state (.nxid 4) env_empty rec_v0_4)
      (by decide!) (by decide!) (by decide!)).1,
    by decide!⟩

/-! ## mac_read_from_eeprom: the MAC export loop -/

theorem fmt_d_fuel_stable (f g n : Nat) (hf : n < f) (hg : n < g) :
    fmt_d_fuel f n = fmt_d_fuel g n := by
  induction f generalizing g n with
  | zero => omega
  | succ f ih =>
    cases g with
    | zero => omega
    | succ g =>
      simp only [fmt_d_fuel]
      split
      · rfl
      · rw [ih g (n / 10) (by omega) (by omega)]

theorem fmt_d_small (n : Nat) (h : n < 10) : fmt_d n = [48 + n] := by
  simp [fmt_d, fmt_d_fuel, h]

theorem fmt_d_step (n : Nat) (h : 10 ≤ n) : fmt_d n = fmt_d (n / 10) ++ [48 + n % 10] := by
  have hn : ¬ n < 10 := by omega
  unfold fmt_d
  rw [show fmt_d_fuel (n + 1) n =
    (if n < 10 then [48 + n] else fmt_d_fuel n (n / 10) ++ [48 + n % 10]) from rfl, if_neg hn,
    fmt_d_fuel_stable n (n / 10 + 1) (n / 10) (by omega) (by omega)]

theorem fmt_d_ne_nil (n : Nat) : fmt_d n ≠ [] := by
  by_cases h : n < 10
  · simp [fmt_d_small n h]
  · simp [fmt_d_step n (by omega)]

theorem fmt_d_injective (n m : Nat) (h : fmt_d n = fmt_d m) : n = m := by
  induction n using Nat.strong_induction_on generalizing m with
  | _ n ih =>
    by_cases hn : n < 10
    · by_cases hm : m < 10
      · rw [fmt_d_small n hn, fmt_d_small m hm] at h
        simpa using h
      · rw [fmt_d_small n hn, fmt_d_step m (by omega)] at h
        have hl := congrArg List.length h
        have := List.length_pos.mpr (fmt_d_ne_nil (m / 10))
        simp only [List.length_append, List.length_cons, List.length_nil] at hl
        omega
    · by_cases hm : m < 10
      · rw [fmt_d_small m hm, fmt_d_step n (by omega)] at h
        have hl := congrArg List.length h
        have := List.length_pos.mpr (fmt_d_ne_nil (n / 10))
        simp only [List.length_append, List.length_cons, List.length_nil] at hl
        omega
      · rw [fmt_d_step n (by omega), fmt_d_step m (by omega)] at h
        obtain ⟨h1, h2⟩ := List.append_inj' h rfl
        have hq := ih (n / 10) (by omega) (m / 10) h1
        simp only [List.cons.injEq, and_true] at h2
        omega

theorem ascii_eth : ascii "eth" = [101, 116, 104] := by decide

theorem ascii_addr : ascii "addr" = [97, 100, 100, 114] := by decide

theorem ascii_ethaddr : ascii "ethaddr" = [101, 116, 104, 97, 100, 100, 114] := by decide

theorem enetvar_injective (i j : Nat) (h : enetvar i = enetvar j) : i = j := by
  unfold enetvar at h
  by_cases hi : i = 0 <;> by_cases hj : j = 0
  · omega
  · simp only [hi, hj, ne_eq, not_true_eq_false, not_false_eq_true, if_true, if_false] at h
    have hl := congrArg List.length h
    have := List.length_pos.mpr (fmt_d_ne_nil j)
    simp only [ascii_eth, ascii_addr, ascii_ethaddr, List.length_append, List.length_cons,
      List.length_nil] at hl
    omega
  · simp only [hi, hj, ne_eq, not_true_eq_false, not_false_eq_true, if_true, if_false] at h
    have hl := congrArg List.length h
    have := List.length_pos.mpr (fmt_d_ne_nil i)
    simp only [ascii_eth, ascii_addr, ascii_ethaddr, List.length_append, List.length_cons,
      List.length_nil] at hl
    omega
  · simp only [hi, hj, ne_eq, not_false_eq_true, if_true] at h
    rw [List.append_assoc, List.append_assoc] at h
    exact fmt_d_injective i j (List.append_cancel_right (List.append_cancel_left h))

theorem enetvar_head (i : Nat) : (enetvar i).head? = some 101 := by
  unfold enetvar
  split <;> simp [ascii_eth, ascii_ethaddr]

theorem enetvar_ne_serial (i : Nat) : enetvar i ≠ SERIALNO_NAME := by
  intro h
  have := enetvar_head i
  rw [h] at this
  revert this
  decide

theorem enetvar_ne_board (i : Nat) : enetvar i ≠ BOARDVERSION_NAME := by
  intro h
  have := enetvar_head i
  rw [h] at this
  revert this
  decide

theorem enetvar_ne_product (i : Nat) : enetvar i ≠ PRODUCTINFO_NAME := by
  intro h
  have := enetvar_head i
  rw [h] at this
  revert this
  decide

theorem enetvar_fits_iff (i : Nat) : enetvar_fits i = true ↔ i < 10 := by
  unfold enetvar_fits sizeof_enetvar enetvar
  rw [decide_eq_true_eq]
  by_cases h0 : i = 0
  · subst h0
    simp [ascii_ethaddr]
  · rw [if_pos h0]
    simp only [ascii_eth, ascii_addr, List.length_append, List.length_cons, List.length_nil]
    by_cases hs : i < 10
    · rw [fmt_d_small i hs]
      simp only [List.length_cons, List.length_nil]
      omega
    · rw [fmt_d_step i (by omega)]
      have := List.length_pos.mpr (fmt_d_ne_nil (i / 10))
      simp only [List.length_append, List.length_cons, List.length_nil]
      omega

theorem export_mac_other (e : List Nat) (env : Env) (i : Nat) (k : List Nat)
    (h : k ≠ enetvar i) : export_mac e env i k = env k := by
  unfold export_mac
  split
  · split
    · split
      · simp [env_set, h]
      · rfl
    · rfl
  · rfl

theorem export_mac_self (e : List Nat) (env : Env) (i : Nat) :
    export_mac e env i (enetvar i) =
      if mac_present e i = true ∧ enetvar_fits i = true ∧ env (enetvar i) = none then
        some (fmt_ethaddr (mac_slot e i))
      else env (enetvar i) := by
  unfold export_mac env_get
  by_cases hp : mac_present e i = true
  · cases hfit : enetvar_fits i with
    | false => simp [hp]
    | true =>
      cases hv : env (enetvar i) with
      | none => simp [hp, hv, env_set]
      | some v => simp [hp, hv]
  · simp [hp]

theorem export_mac_unfit (e : List Nat) (env : Env) (i : Nat) (hfit : enetvar_fits i = false) :
    export_mac e env i = env := by
  unfold export_mac
  simp [hfit]

theorem export_overflow_false_iff (e : List Nat) (bound : Nat) :
    export_overflow e bound = false ↔
      ∀ i, i < bound → mac_present e i = true → i < 10 := by
  unfold export_overflow
  rw [Bool.eq_false_iff, ne_eq, List.any_eq_true]
  constructor
  · intro h i hi hp
    by_contra hge
    apply h
    refine ⟨i, List.mem_range.mpr hi, ?_⟩
    have : enetvar_fits i = false := by
      rw [Bool.eq_false_iff, ne_eq, enetvar_fits_iff]; exact hge
    simp [hp, this]
  · rintro h ⟨i, hi, hx⟩
    simp only [Bool.and_eq_true, Bool.not_eq_true'] at hx
    have := h i (List.mem_range.mp hi) hx.1
    have hf := (enetvar_fits_iff i).mpr this
    rw [hx.2] at hf
    exact absurd hf (by decide)

theorem export_loop_other (e : List Nat) (n : Nat) (env : Env) (k : List Nat)
    (h : ∀ i, i < n → k ≠ enetvar i) :
    (List.range n).foldl (export_mac e) env k = env k := by
  induction n with
  | zero => rfl
  | succ n ih =>
    rw [List.range_succ, List.foldl_append, List.foldl_cons, List.foldl_nil,
      export_mac_other _ _ _ _ (h n (by omega)), ih (fun i hi => h i (by omega))]

theorem export_loop_self (e : List Nat) (n : Nat) (env : Env) (i : Nat) (hi : i < n) :
    (List.range n).foldl (export_mac e) env (enetvar i) =
      if mac_present e i = true ∧ enetvar_fits i = true ∧ env (enetvar i) = none then
        some (fmt_ethaddr (mac_slot e i))
      else env (enetvar i) := by
  induction n with
  | zero => omega
  | succ n ih =>
    rw [List.range_succ, List.foldl_append, List.foldl_cons, List.foldl_nil]
    by_cases hin : i = n
    · subst hin
      rw [export_mac_self, export_loop_other e i env (enetvar i)
        (fun j hj hc => by have := enetvar_injective _ _ hc; omega)]
    · rw [export_mac_other _ _ _ _ (fun hc => hin (enetvar_injective _ _ hc)), ih (by omega)]

theorem mac_present_iff (e : List Nat) (i : Nat) :
    mac_present e i = true ↔
      mac_slot e i ≠ List.replicate 6 0 ∧ mac_slot e i ≠ List.replicate 6 0xFF := by
  simp [mac_present]

theorem export_record_env {σ : Type} (cfg : Config) (s : State σ)
    (hver : ¬(cfg.is_nxid = true ∧ version_is_zero s.e = true)) :
    ∃ env2 : Env, (∀ k, k ≠ SERIALNO_NAME → k ≠ BOARDVERSION_NAME → k ≠ PRODUCTINFO_NAME →
        env2 k = s.env k) ∧
      (export_record cfg s).env = (List.range (mac_bound cfg s.e)).foldl (export_mac s.e) env2 := by
  refine ⟨if cfg.is_nxid = true then
      env_set (env_set (env_set s.env SERIALNO_NAME (cstr_at s.e (off_sn cfg)))
        BOARDVERSION_NAME (cstr_at s.e (off_board_version cfg)))
        PRODUCTINFO_NAME (cstr_at s.e (off_product_info cfg))
    else env_set s.env SERIALNO_NAME (cstr_at s.e (off_sn cfg)), ?_, ?_⟩
  · intro k h1 h2 h3
    split <;> simp [env_set, h1, h2, h3]
  · simp only [export_record, hver, if_false]

theorem export_record_overflow {σ : Type} (cfg : Config) (s : State σ)
    (hver : ¬(cfg.is_nxid = true ∧ version_is_zero s.e = true)) :
    (export_record cfg s).overflow =
      (s.overflow || export_overflow s.e (mac_bound cfg s.e)) := by
  simp only [export_record, hver, if_false]

/-- The exports of mac_read_from_eeprom in a run in which the key of every
exported slot fits the array enetvar (every present slot below the bound has
an index below 10): no overflow is recorded, the variable of every index i
holds the formatted address of slot i when i < min(mac_count,
MAX_NUM_PORTS), the slot is neither all-zero nor all-0xFF and the variable
was unset, and holds what it held before in every other case; a variable
that is none of these names and none of the three string names is left as
it was. -/
theorem mac_read_exports_fitting {σ : Type} (t : Transport σ) (cfg : Config) (s : State σ)
    (hports : MAX_NUM_PORTS cfg < 256)
    (hacc : accepts t cfg s = true)
    (hver : (cfg.is_nxid && version_is_zero (record_read t cfg s)) = false)
    (hfit : ∀ i, i < min (byte_at (record_read t cfg s) off_mac_count) (MAX_NUM_PORTS cfg) →
      mac_present (record_read t cfg s) i = true → i < 10) :
    (mac_read_from_eeprom t cfg s).overflow = s.overflow ∧
    (∀ i, (mac_read_from_eeprom t cfg s).env (enetvar i) =
      if i < min (byte_at (record_read t cfg s) off_mac_count) (MAX_NUM_PORTS cfg) ∧
          mac_slot (record_read t cfg s) i ≠ List.replicate 6 0 ∧
          mac_slot (record_read t cfg s) i ≠ List.replicate 6 0xFF ∧
          s.env (enetvar i) = none
      then some (fmt_ethaddr (mac_slot (record_read t cfg s) i))
      else s.env (enetvar i)) ∧
    (∀ k, k ≠ SERIALNO_NAME → k ≠ BOARDVERSION_NAME → k ≠ PRODUCTINFO_NAME →
      (∀ i, i < min (byte_at (record_read t cfg s) off_mac_count) (MAX_NUM_PORTS cfg) →
        k ≠ enetvar i) →
      (mac_read_from_eeprom t cfg s).env k = s.env k) := by
  have hv : ¬(cfg.is_nxid = true ∧
      version_is_zero (read_eeprom t cfg (s.print .eeprom)).2.e = true) := by
    simpa [record_read] using hver
  obtain ⟨env2, h2, henv⟩ := export_record_env cfg (read_eeprom t cfg (s.print .eeprom)).2 hv
  have hs : (read_eeprom t cfg (s.print .eeprom)).2.env = s.env := by
    rw [read_eeprom_env, print_env]
  have hb : mac_bound cfg (read_eeprom t cfg (s.print .eeprom)).2.e =
      min (byte_at (record_read t cfg s) off_mac_count) (MAX_NUM_PORTS cfg) := by
    simp only [mac_bound, record_read, Nat.mod_eq_of_lt hports]
  have hso : (read_eeprom t cfg (s.print .eeprom)).2.overflow = s.overflow := by
    unfold read_eeprom
    split <;> rfl
  have hov : export_overflow (read_eeprom t cfg (s.print .eeprom)).2.e
      (min (byte_at (record_read t cfg s) off_mac_count) (MAX_NUM_PORTS cfg)) = false :=
    (export_overflow_false_iff _ _).mpr hfit
  rw [mac_read_accepts t cfg s hacc]
  refine ⟨?_, ?_, ?_⟩
  · rw [export_record_overflow cfg _ hv, hb, hov, hso, Bool.or_false]
  · rw [henv, hb]
    intro i
    have hk : env2 (enetvar i) = s.env (enetvar i) := by
      rw [h2 _ (enetvar_ne_serial i) (enetvar_ne_board i) (enetvar_ne_product i), hs]
    by_cases hi : i < min (byte_at (record_read t cfg s) off_mac_count) (MAX_NUM_PORTS cfg)
    · rw [export_loop_self _ _ _ _ hi, hk]
      by_cases hp : mac_present (record_read t cfg s) i = true
      · have hf := (enetvar_fits_iff i).mpr (hfit i hi hp)
        have hp2 := (mac_present_iff _ _).mp hp
        simp only [record_read] at hp hp2 hi
        simp only [hp, hf, hp2, hi, record_read, true_and, ne_eq, not_false_eq_true]
      · have hp2 : ¬(mac_slot (record_read t cfg s) i ≠ List.replicate 6 0 ∧
            mac_slot (record_read t cfg s) i ≠ List.replicate 6 0xFF) :=
          fun h => hp ((mac_present_iff _ _).mpr h)
        simp only [record_read] at hp hp2
        rw [if_neg (fun h => hp h.1), if_neg (fun h => hp2 ⟨h.2.1, h.2.2.1⟩)]
    · rw [export_loop_other _ _ _ _ (fun j hj hc => by
        have := enetvar_injective _ _ hc; omega), hk]
      simp only [hi, false_and, if_false]
  · rw [henv, hb]
    intro k k1 k2 k3 hk
    rw [export_loop_other _ _ _ _ hk, h2 k k1 k2 k3, hs]

/-- Claim C4 fails for the default MAX_NUM_PORTS = 16 on the record
rec_11_macs: the record is accepted, its version is 1, slot 10 lies below
min(mac_count, MAX_NUM_PORTS) = 11, is neither all-zero nor all-0xFF and
eth10addr is unset, but its key takes ten bytes with the NUL and sprintf
writes behind the end of char enetvar[9], so the run is undefined from
there on instead of setting eth10addr.  The key fits exactly for the
indices below 10; in every run in which each present slot below the bound
has an index below 10 the exports are as the claim says, as in its example
(mac_count 2, slot 0 = AA:BB:CC:DD:EE:01, slot 1 all-zero: ethaddr is set,
eth1addr is not). -/
theorem mac_read_export_overflows :
    (MAX_NUM_PORTS (.nxid 16) = 16 ∧
      (boot_state (.nxid 16) env_empty rec_11_macs).overflow = false ∧
      accepts mem_transport (.nxid 16) (boot_state (.nxid 16) env_empty rec_11_macs) = true ∧
      version_is_zero
        (record_read mem_transport (.nxid 16)
          (boot_state (.nxid 16) env_empty rec_11_macs)) = false ∧
      mac_bound (.nxid 16)
        (record_read mem_transport (.nxid 16)
          (boot_state (.nxid 16) env_empty rec_11_macs)) = 11 ∧
      mac_slot (record_read mem_transport (.nxid 16)
        (boot_state (.nxid 16) env_empty rec_11_macs)) 10 = [0x02, 0, 0, 0, 0, 0x0B] ∧
      env_empty (enetvar 10) = none ∧
      enetvar_fits 10 = false ∧
      (mac_read_from_eeprom mem_transport (.nxid 16)
        (boot_state (.nxid 16) env_empty rec_11_macs)).overflow = true) ∧
    (∀ i, enetvar_fits i = true ↔ i < 10) ∧
    (accepts mem_transport (.nxid 4) (boot_state (.nxid 4) env_empty rec_v1) = true ∧
      byte_at rec_v1 off_mac_count = 2 ∧
      mac_slot rec_v1 0 = [0xAA, 0xBB, 0xCC, 0xDD, 0xEE, 0x01] ∧
      mac_slot rec_v1 1 = [0, 0, 0, 0, 0, 0] ∧
      enetvar 0 = ascii "ethaddr" ∧
      enetvar 1 = ascii "eth1addr" ∧
      (mac_read_from_eeprom mem_transport (.nxid 4)
        (boot_state (.nxid 4) env_empty rec_v1)).env (enetvar 0) =
          some (ascii "AA:BB:CC:DD:EE:01") ∧
      (mac_read_from_eeprom mem_transport (.nxid 4)
        (boot_state (.nxid 4) env_empty rec_v1)).env (enetvar 1) = none ∧
      (mac_read_from_eeprom mem_transport (.nxid 4)
        (boot_state (.nxid 4) env_empty rec_v1)).overflow = false) ∧
    (∀ (σ : Type) (t : Transport σ) (cfg : Config) (s : State σ),
      MAX_NUM_PORTS cfg < 256 →
      accepts t cfg s = true →
      (cfg.is_nxid && version_is_zero (record_read t cfg s)) = false →
      (∀ i, i < min (byte_at (record_read t cfg s) off_mac_count) (MAX_NUM_PORTS cfg) →
        mac_present (record_read t cfg s) i = true → i < 10) →
      (mac_read_from_eeprom t cfg s).overflow = s.overflow ∧
      (∀ i, (mac_read_from_eeprom t cfg s).env (enetvar i) =
        if i < min (byte_at (record_read t cfg s) off_mac_count) (MAX_NUM_PORTS cfg) ∧
            mac_slot (record_read t cfg s) i ≠ List.replicate 6 0 ∧
            mac_slot (record_read t cfg s) i ≠ List.replicate 6 0xFF ∧
            s.env (enetvar i) = none
        then some (fmt_ethaddr (mac_slot (record_read t cfg s) i))
        else s.env (enetvar i)) ∧
      (∀ k, k ≠ SERIALNO_NAME → k ≠ BOARDVERSION_NAME → k ≠ PRODUCTINFO_NAME →
        (∀ i, i < min (byte_at (record_read t cfg s) off_mac_count) (MAX_NUM_PORTS cfg) →
          k ≠ enetvar i) →
        (mac_read_from_eeprom t cfg s).env k = s.env k)) :=
  ⟨⟨by decide!, by decide!, by decide!, by decide!, by decide!, by decide!, by decide!,
      by decide!, by decide!⟩,
    enetvar_fits_iff,
    ⟨by decide!, by decide!, by decide!, by decide!, by decide!, by decide!, by decide!,
      by decide!, by decide!⟩,
    fun _ t cfg s hports hacc hver hfit => mac_read_exports_fitting t cfg s hports hacc hver hfit⟩

/-! ## prog_eeprom on concrete devices -/

/-- Claim C10, the code at a failing input: NXID layout with
MAX_NUM_PORTS = 4, the record rec_v1 in memory (its res_2 bytes, offsets
170..179, are 0x00) over an erased device.  prog_eeprom succeeds, res_0 and
res_1 are 0xFF, and the ten res_2 bytes are still 0x00 in memory and are
written as 0x00 to the device. -/
theorem prog_eeprom_leaves_res_2 :
    off_res_2 (.nxid 4) = 170 ∧
    bytes_at rec_v1 170 10 = List.replicate 10 0 ∧
    (prog_eeprom mem_transport (.nxid 4) [] edit_state).1 = 0 ∧
    bytes_at (prog_eeprom mem_transport (.nxid 4) [] edit_state).2.e 27 1 = [0xFF] ∧
    bytes_at (prog_eeprom mem_transport (.nxid 4) [] edit_state).2.e 43 21 =
      List.replicate 21 0xFF ∧
    bytes_at (prog_eeprom mem_transport (.nxid 4) [] edit_state).2.e 170 10 =
      List.replicate 10 0 ∧
    (List.range 10).map (fun k => edit_state.bus (170 + k)) = List.replicate 10 0xFF ∧
    (List.range 10).map (fun k => (prog_eeprom mem_transport (.nxid 4) [] edit_state).2.bus
      (170 + k)) = List.replicate 10 0 := by
  decide!

/-- Claim C8 as stated fails: rec_v1 has the configured tag and a correct
checksum, prog_eeprom succeeds on the byte-memory device, and the read that
follows with the cache cleared yields a record that differs from rec_v1 (the
reserved byte at 0x1b is now 0xFF, the checksum has changed). -/
theorem prog_then_read_differs :
    bytes_at rec_v1 0 4 = ascii "NXID" ∧
    crc_valid (.nxid 4) rec_v1 = true ∧
    (prog_eeprom mem_transport (.nxid 4) [] (loaded_state env_empty rec_v1)).1 = 0 ∧
    (read_eeprom mem_transport (.nxid 4)
      (prog_eeprom mem_transport (.nxid 4) [] (loaded_state env_empty rec_v1)).2.unread).1 = 0 ∧
    (read_eeprom mem_transport (.nxid 4)
      (prog_eeprom mem_transport (.nxid 4) [] (loaded_state env_empty rec_v1)).2.unread).2.e
        ≠ rec_v1 ∧
    byte_at rec_v1 27 = 0 ∧
    byte_at (read_eeprom mem_transport (.nxid 4)
      (prog_eeprom mem_transport (.nxid 4) [] (loaded_state env_empty rec_v1)).2.unread).2.e 27
        = 0xFF := by
  decide!

/-! ## prog_eeprom and read_eeprom over the byte-memory device -/

theorem length_bytes_at (e : List Nat) (i n : Nat) :
    (bytes_at e i n).length = min n (e.length - i) := by
  simp [bytes_at]

theorem getD_bytes_at (e : List Nat) (i n k : Nat) (hk : k < (bytes_at e i n).length) :
    (bytes_at e i n).getD k 0 = e.getD (i + k) 0 := by
  rw [length_bytes_at] at hk
  simp only [bytes_at, List.getD_eq_getElem?_getD]
  rw [List.getElem?_take_of_lt (by omega), List.getElem?_drop]

theorem prog_loop_mem (cfg : Config) (e : List Nat) (L : List Nat) (mem : Nat → Nat)
    (log : List BusOp) :
    (prog_loop mem_transport cfg e L mem log).1 = 0 ∧
    ∀ a, (mem a = e.getD a 0 ∨
        ∃ i ∈ L, i ≤ a ∧ a < i + (bytes_at e i (min (sizeof_eeprom cfg - i) 8)).length) →
      (prog_loop mem_transport cfg e L mem log).2.1 a = e.getD a 0 := by
  induction L generalizing mem log with
  | nil =>
    refine ⟨rfl, fun a h => ?_⟩
    rcases h with h | ⟨i, hi, _⟩
    · exact h
    · simp at hi
  | cons i rest ih =>
    have hstep : prog_loop mem_transport cfg e (i :: rest) mem log =
        prog_loop mem_transport cfg e rest
          (mem_transport.i2c_write mem i (bytes_at e i (min (sizeof_eeprom cfg - i) 8))).2
          (log ++ [BusOp.write i (bytes_at e i (min (sizeof_eeprom cfg - i) 8)) 0]) := by
      simp [prog_loop, mem_transport]
    rw [hstep]
    refine ⟨(ih _ _).1, fun a h => (ih _ _).2 a ?_⟩
    by_cases hin : i ≤ a ∧ a < i + (bytes_at e i (min (sizeof_eeprom cfg - i) 8)).length
    · left
      simp only [mem_transport, hin, and_self, if_true]
      rw [getD_bytes_at _ _ _ _ (by omega)]
      congr 1
      omega
    · rcases h with h | ⟨j, hj, hja⟩
      · left
        simp only [mem_transport, hin, if_false]
        exact h
      · rcases List.mem_cons.mp hj with rfl | hj
        · exact absurd hja hin
        · exact Or.inr ⟨j, hj, hja⟩

theorem chunk_covers (cfg : Config) (e : List Nat) (hlen : e.length = sizeof_eeprom cfg)
    (a : Nat) (ha : a < sizeof_eeprom cfg) :
    ∃ i ∈ chunk_offsets cfg,
      i ≤ a ∧ a < i + (bytes_at e i (min (sizeof_eeprom cfg - i) 8)).length := by
  refine ⟨8 * (a / 8), ?_, by omega, ?_⟩
  · simp only [chunk_offsets, List.mem_map, List.mem_range]
    exact ⟨a / 8, by omega, rfl⟩
  · rw [length_bytes_at, hlen]
    omega

theorem prog_eeprom_e {σ : Type} (t : Transport σ) (cfg : Config) (e2 : List Nat)
    (s : State σ) : (prog_eeprom t cfg e2 s).2.e = record_programmed cfg s.e := by
  unfold prog_eeprom prog_finish
  simp only
  split <;> rfl

theorem length_set_reserved (cfg : Config) (e : List Nat) (h : e.length = sizeof_eeprom cfg) :
    (set_reserved cfg e).length = sizeof_eeprom cfg := by
  cases cfg with
  | ccid =>
    simp only [set_reserved]
    rw [length_memset _ _ _ _ (by simp [h, sizeof_ccid, off_res_0, len_res_0]), h]
  | nxid p =>
    simp only [set_reserved]
    have h1 : (set_bytes e (off_res_0 (.nxid p)) [0xFF]).length = e.length :=
      length_set_bytes _ _ _ (by simp [h, sizeof_nxid, off_res_0]; omega)
    rw [length_memset _ _ _ _ (by simp [h1, h, sizeof_nxid, off_res_1, len_res_1]; omega), h1, h]

theorem length_record_programmed (cfg : Config) (e : List Nat)
    (h : e.length = sizeof_eeprom cfg) :
    (record_programmed cfg e).length = sizeof_eeprom cfg :=
  length_update_crc cfg _ (length_set_reserved cfg e h)

theorem mem_read_eq (mem : Nat → Nat) (e : List Nat) (h : ∀ a, a < e.length → mem a = e.getD a 0) :
    (List.range e.length).map (fun k => mem (0 + k)) = e := by
  apply List.ext_getElem
  · simp
  · intro n h1 h2
    simp only [List.getElem_map, List.getElem_range, Nat.zero_add]
    rw [h n h2, List.getD_eq_getElem?_getD, List.getElem?_eq_getElem h2]
    rfl

theorem mem_read_programmed (cfg : Config) (e : List Nat) (mem : Nat → Nat)
    (hlen : e.length = sizeof_eeprom cfg) (h : ∀ a, a < sizeof_eeprom cfg → mem a = e.getD a 0) :
    (mem_transport.i2c_read mem 0 (sizeof_eeprom cfg)).2.1 = e := by
  have := mem_read_eq mem e (fun a ha => h a (by omega))
  rw [hlen] at this
  exact this

theorem buf_store_full (buf data : List Nat) (len : Nat) (h : data.length = len) :
    (buf_store buf data len).take len = data := by
  subst h
  simp [buf_store]

theorem buf_store_same (buf data : List Nat) (len : Nat) (h : data.length = len)
    (hb : buf.length = len) : buf_store buf data len = data := by
  unfold buf_store
  rw [List.take_of_length_le (by omega), List.drop_eq_nil_of_le (by omega), List.append_nil]

theorem prog_eeprom_mem (cfg : Config) (e2 : List Nat) (s : State (Nat → Nat))
    (hlen : s.e.length = sizeof_eeprom cfg) :
    (prog_eeprom mem_transport cfg e2 s).1 = 0 ∧
    (prog_eeprom mem_transport cfg e2 s).2.has_been_read = s.has_been_read ∧
    ∀ a, a < sizeof_eeprom cfg →
      (prog_eeprom mem_transport cfg e2 s).2.bus a = (record_programmed cfg s.e).getD a 0 := by
  have hl := length_record_programmed cfg s.e hlen
  have hW := prog_loop_mem cfg (record_programmed cfg s.e) (chunk_offsets cfg) s.bus s.log
  have hbus : ∀ a, a < sizeof_eeprom cfg →
      (prog_loop mem_transport cfg (record_programmed cfg s.e) (chunk_offsets cfg) s.bus s.log).2.1 a
        = (record_programmed cfg s.e).getD a 0 :=
    fun a ha => hW.2 a (Or.inr (chunk_covers cfg _ hl a ha))
  have hdata := mem_read_programmed cfg _ _ hl hbus
  have hv : (prog_verify mem_transport cfg e2 (record_programmed cfg s.e)
      (prog_loop mem_transport cfg (record_programmed cfg s.e) (chunk_offsets cfg) s.bus s.log)).1 = 0
      ∧ (prog_verify mem_transport cfg e2 (record_programmed cfg s.e)
      (prog_loop mem_transport cfg (record_programmed cfg s.e) (chunk_offsets cfg) s.bus s.log)).2.1
        = (prog_loop mem_transport cfg (record_programmed cfg s.e) (chunk_offsets cfg)
            s.bus s.log).2.1 := by
    unfold prog_verify
    rw [if_pos hW.1]
    simp only [hdata, buf_store_full _ _ _ hl]
    rw [List.take_of_length_le (by omega)]
    simp [mem_transport]
  unfold prog_eeprom prog_finish
  simp only
  rw [if_neg (by simpa [record_programmed] using hv.1)]
  refine ⟨rfl, rfl, fun a ha => ?_⟩
  simp only
  have := hv.2
  simp only [record_programmed] at this hbus
  rw [this, hbus a ha]
  rfl

theorem take_four (l : List Nat) (h : 4 ≤ l.length) :
    l.take 4 = [l.getD 0 0, l.getD 1 0, l.getD 2 0, l.getD 3 0] := by
  match l, h with
  | a :: b :: c :: d :: _, _ => rfl

theorem bytes_at_four (e : List Nat) (off : Nat) (h : off + 4 ≤ e.length) :
    bytes_at e off 4 =
      [byte_at e off, byte_at e (off + 1), byte_at e (off + 2), byte_at e (off + 3)] := by
  unfold bytes_at
  rw [take_four _ (by simp; omega)]
  simp [byte_at]

theorem byte_at_lt (e : List Nat) (hb : ∀ b ∈ e, b < 256) (i : Nat) : byte_at e i < 256 := by
  unfold byte_at
  by_cases hi : i < e.length
  · rw [List.getD_eq_getElem?_getD, List.getElem?_eq_getElem hi]
    exact hb _ (List.getElem_mem hi)
  · rw [List.getD_eq_getElem?_getD, List.getElem?_eq_none (by omega)]
    simp

theorem cpu_to_be32_get_be32 (e : List Nat) (off : Nat) (hb : ∀ b ∈ e, b < 256)
    (h : off + 4 ≤ e.length) : cpu_to_be32 (get_be32 e off) = bytes_at e off 4 := by
  have h0 := byte_at_lt e hb off
  have h1 := byte_at_lt e hb (off + 1)
  have h2 := byte_at_lt e hb (off + 2)
  have h3 := byte_at_lt e hb (off + 3)
  rw [bytes_at_four e off h]
  unfold cpu_to_be32 get_be32
  simp only [List.cons.injEq, and_true]
  refine ⟨?_, ?_, ?_, ?_⟩ <;> omega

theorem set_bytes_bytes_at (e : List Nat) (off n : Nat) (h : off + n ≤ e.length) :
    set_bytes e off (bytes_at e off n) = e := by
  unfold set_bytes
  rw [length_bytes_at, Nat.min_eq_left (by omega)]
  unfold bytes_at
  rw [List.append_assoc, ← List.drop_drop, List.take_append_drop, List.take_append_drop]

theorem update_crc_of_valid (cfg : Config) (e : List Nat) (hlen : e.length = sizeof_eeprom cfg)
    (hb : ∀ b ∈ e, b < 256) (hv : crc_valid cfg e = true) : update_crc cfg e = e := by
  simp only [crc_valid, beq_iff_eq] at hv
  have hle : off_crc cfg + 4 ≤ e.length := by rw [hlen]; simp [sizeof_eeprom]
  unfold update_crc
  rw [hv, cpu_to_be32_get_be32 e _ hb hle, set_bytes_bytes_at e _ 4 hle]

/-- Claim C8, as amended: over the byte-memory transport, for every record R
of the configured size in memory, prog_eeprom succeeds and a following
read_eeprom with the cache cleared succeeds and yields the record
prog_eeprom wrote - R with the reserved values set to 0xFF and the checksum
updated - with the first byte of serial number, errata, board version and
product info set to 0 where it was 0xFF.  The result is byte-identical to R
when R is valid (bytes below 256, correct checksum), its reserved values are
0xFF already and none of those first bytes is 0xFF. -/
theorem prog_then_read (cfg : Config) (e2 : List Nat) (s : State (Nat → Nat))
    (hlen : s.e.length = sizeof_eeprom cfg) :
    (prog_eeprom mem_transport cfg e2 s).1 = 0 ∧
    (read_eeprom mem_transport cfg (prog_eeprom mem_transport cfg e2 s).2.unread).1 = 0 ∧
    (read_eeprom mem_transport cfg (prog_eeprom mem_transport cfg e2 s).2.unread).2.e =
      clear_unset cfg (record_programmed cfg s.e) ∧
    ((∀ b ∈ s.e, b < 256) → crc_valid cfg s.e = true → set_reserved cfg s.e = s.e →
      clear_unset cfg s.e = s.e →
      (read_eeprom mem_transport cfg (prog_eeprom mem_transport cfg e2 s).2.unread).2.e = s.e) := by
  have hP := prog_eeprom_mem cfg e2 s hlen
  have hl := length_record_programmed cfg s.e hlen
  have hdata := mem_read_programmed cfg (record_programmed cfg s.e)
    (prog_eeprom mem_transport cfg e2 s).2.bus hl hP.2.2
  have hread : read_eeprom mem_transport cfg (prog_eeprom mem_transport cfg e2 s).2.unread =
      (0, { (prog_eeprom mem_transport cfg e2 s).2.unread with
        e := clear_unset cfg (record_programmed cfg s.e)
        has_been_read := true
        bus := (prog_eeprom mem_transport cfg e2 s).2.bus
        log := (prog_eeprom mem_transport cfg e2 s).2.log ++
          [BusOp.read 0 (sizeof_eeprom cfg) 0 (record_programmed cfg s.e)] }) := by
    unfold read_eeprom
    rw [if_neg (by simp [State.unread])]
    have hb : (prog_eeprom mem_transport cfg e2 s).2.unread.bus =
        (prog_eeprom mem_transport cfg e2 s).2.bus := rfl
    have he : (prog_eeprom mem_transport cfg e2 s).2.unread.e = record_programmed cfg s.e := by
      rw [← prog_eeprom_e mem_transport cfg e2 s]; rfl
    simp only [hb, he, hdata, buf_store_same _ _ _ hl hl]
    simp [mem_transport, State.unread]
  refine ⟨hP.1, by rw [hread], by rw [hread], fun hb hv hr hc => ?_⟩
  rw [hread]
  simp only [record_programmed, hr, update_crc_of_valid cfg s.e hlen hb hv, hc]

/-- The round trip on the byte-memory device for the record rec_saved, whose
reserved values are 0xFF and whose checksum is correct: prog_eeprom succeeds
and the read that follows yields rec_saved byte for byte. -/
theorem prog_then_read_witness :
    (loaded_state env_empty rec_saved).e.length = sizeof_eeprom (.nxid 4) ∧
    (∀ b ∈ rec_saved, b < 256) ∧
    crc_valid (.nxid 4) rec_saved = true ∧
    set_reserved (.nxid 4) rec_saved = rec_saved ∧
    clear_unset (.nxid 4) rec_saved = rec_saved ∧
    (prog_eeprom mem_transport (.nxid 4) [] (loaded_state env_empty rec_saved)).1 = 0 ∧
    (read_eeprom mem_transport (.nxid 4)
      (prog_eeprom mem_transport (.nxid 4) [] (loaded_state env_empty rec_saved)).2.unread).2.e
        = rec_saved :=
  ⟨by decide!, by decide!, by decide!, by decide!, by decide!,
    (prog_then_read (.nxid 4) [] (loaded_state env_empty rec_saved) (by decide!)).1,
    (prog_then_read (.nxid 4) [] (loaded_state env_empty rec_saved) (by decide!)).2.2.2
      (by decide!) (by decide!) (by decide!) (by decide!)⟩

/-! ## prog_eeprom over every transport: result and accesses -/

theorem prog_finish_spec {σ : Type} (s : State σ) (e : List Nat) (v : Int × σ × List BusOp) :
    (prog_finish s e v).2.log = v.2.2 ∧
    ((prog_finish s e v).1 = -1 ∨ (prog_finish s e v).1 = 0) ∧
    ((prog_finish s e v).1 = -1 ↔ v.1 ≠ 0) ∧
    ((prog_finish s e v).1 = -1 → (prog_finish s e v).2.has_been_read = false) ∧
    ((prog_finish s e v).1 = 0 → (prog_finish s e v).2.has_been_read = s.has_been_read) := by
  unfold prog_finish
  by_cases h : v.1 = 0
  · simp [h]
  · simp [h]

theorem read_eeprom_uncached_log {σ : Type} (t : Transport σ) (cfg : Config) (s : State σ)
    (h : s.has_been_read = false) :
    ∃ ret buf, (read_eeprom t cfg s).2.log =
      s.log ++ [BusOp.read 0 (sizeof_eeprom cfg) ret buf] := by
  unfold read_eeprom
  rw [if_neg (by simp [h])]
  exact ⟨_, _, rfl⟩

theorem read_eeprom_flag {σ : Type} (t : Transport σ) (cfg : Config) (s : State σ)
    (h : s.has_been_read = false) :
    (read_eeprom t cfg s).1 = (t.i2c_read s.bus 0 (sizeof_eeprom cfg)).1 ∧
    (read_eeprom t cfg s).2.has_been_read =
      ((t.i2c_read s.bus 0 (sizeof_eeprom cfg)).1 == 0) := by
  unfold read_eeprom
  rw [if_neg (by simp [h])]
  exact ⟨rfl, rfl⟩

theorem set_date_flag {σ : Type} (cfg : Config) (string : List Nat) (s : State σ) :
    (set_date cfg string s).has_been_read = s.has_been_read := by
  unfold set_date
  split <;> rfl

theorem set_mac_address_flag {σ : Type} (strtoul : List Nat → Nat → Nat × List Nat)
    (cfg : Config) (index : Nat) (string : List Nat) (s : State σ) :
    (set_mac_address strtoul cfg index string s).has_been_read = s.has_been_read := by
  unfold set_mac_address
  split <;> rfl

theorem do_mac_switch_flag {σ : Type} (strtoul : List Nat → Nat → Nat × List Nat)
    (cfg : Config) (cmd : Nat) (name arg : List Nat) (s : State σ) :
    (do_mac_switch strtoul cfg cmd name arg s).has_been_read = s.has_been_read := by
  unfold do_mac_switch
  split_ifs
  · rfl
  · rfl
  · rfl
  · cases cfg <;> rfl
  · exact set_date_flag cfg arg s
  · rfl
  · exact set_mac_address_flag strtoul cfg _ arg s
  · rfl

theorem export_record_flag {σ : Type} (cfg : Config) (s : State σ) :
    (export_record cfg s).has_been_read = s.has_been_read := rfl

theorem mac_read_flag {σ : Type} (t : Transport σ) (cfg : Config) (s : State σ)
    (h : s.has_been_read = true) : (mac_read_from_eeprom t cfg s).has_been_read = true := by
  unfold mac_read_from_eeprom
  rw [read_eeprom_cached t cfg (s.print .eeprom) h]
  simp only
  split_ifs
  · exact h
  · exact h
  · exact h
  · rw [export_record_flag]; exact h

theorem do_mac_flag {σ : Type} (t : Transport σ) (strtoul : List Nat → Nat → Nat × List Nat)
    (cfg : Config) (e2 : List Nat) (argv : List (List Nat)) (s : State σ)
    (h : s.has_been_read = true) :
    (do_mac t strtoul cfg e2 argv s).has_been_read = true ∨
      (prog_eeprom t cfg e2 s).1 = -1 := by
  unfold do_mac
  simp only
  split_ifs
  · exact Or.inl h
  · rw [read_eeprom_cached t cfg s h]; exact Or.inl h
  · cases cfg <;> exact Or.inl h
  · exact Or.inl h
  · have hf := prog_finish_spec s (record_programmed cfg s.e)
      (prog_verify t cfg e2 (record_programmed cfg s.e)
        (prog_loop t cfg (record_programmed cfg s.e) (chunk_offsets cfg) s.bus s.log))
    have hdef : prog_eeprom t cfg e2 s = prog_finish s (record_programmed cfg s.e)
      (prog_verify t cfg e2 (record_programmed cfg s.e)
        (prog_loop t cfg (record_programmed cfg s.e) (chunk_offsets cfg) s.bus s.log)) := rfl
    rw [hdef]
    rcases hf.2.1 with h1 | h0
    · exact Or.inr h1
    · exact Or.inl ((hf.2.2.2.2 h0).trans h)
  · exact Or.inl h
  · rw [do_mac_switch_flag]; exact Or.inl h

/-- Claim C11: a read_eeprom that returns 0 leaves has_been_read set; with
has_been_read set, read_eeprom returns 0 and leaves the whole state - the
record, the transport and the log of its accesses - as it was; the flag stays
set through prog_eeprom returning 0, mac_read_from_eeprom and every do_mac
command, and is only lost when prog_eeprom returns -1; a read_eeprom that
does not return 0 returned the transport's status, leaves has_been_read
clear, and the next read_eeprom accesses the transport again. -/
theorem read_eeprom_idempotent {σ : Type} (t : Transport σ) (cfg : Config) (s : State σ) :
    ((read_eeprom t cfg s).1 = 0 → (read_eeprom t cfg s).2.has_been_read = true) ∧
    (s.has_been_read = true → read_eeprom t cfg s = (0, s)) ∧
    (s.has_been_read = true → ∀ e2, (prog_eeprom t cfg e2 s).1 = 0 →
      (prog_eeprom t cfg e2 s).2.has_been_read = true) ∧
    (s.has_been_read = true → (mac_read_from_eeprom t cfg s).has_been_read = true) ∧
    (s.has_been_read = true → ∀ strtoul e2 argv,
      (do_mac t strtoul cfg e2 argv s).has_been_read = true ∨
        (prog_eeprom t cfg e2 s).1 = -1) ∧
    ((read_eeprom t cfg s).1 ≠ 0 →
      (read_eeprom t cfg s).1 = (t.i2c_read s.bus 0 (sizeof_eeprom cfg)).1 ∧
      (read_eeprom t cfg s).2.has_been_read = false ∧
      ∃ ret buf, (read_eeprom t cfg (read_eeprom t cfg s).2).2.log =
        (read_eeprom t cfg s).2.log ++ [BusOp.read 0 (sizeof_eeprom cfg) ret buf]) := by
  refine ⟨?_, read_eeprom_cached t cfg s, ?_, mac_read_flag t cfg s,
    fun h strtoul e2 argv => do_mac_flag t strtoul cfg e2 argv s h, ?_⟩
  · intro h0
    cases hs : s.has_been_read with
    | true => rw [read_eeprom_cached t cfg s hs]; exact hs
    | false =>
      rw [(read_eeprom_flag t cfg s hs).2, ← (read_eeprom_flag t cfg s hs).1, h0]
      rfl
  · intro hs e2 h0
    have hf := prog_finish_spec s (record_programmed cfg s.e)
      (prog_verify t cfg e2 (record_programmed cfg s.e)
        (prog_loop t cfg (record_programmed cfg s.e) (chunk_offsets cfg) s.bus s.log))
    exact (hf.2.2.2.2 h0).trans hs
  · intro hne
    cases hs : s.has_been_read with
    | true => rw [read_eeprom_cached t cfg s hs] at hne; exact absurd rfl hne
    | false =>
      have hf := read_eeprom_flag t cfg s hs
      have hfalse : (read_eeprom t cfg s).2.has_been_read = false := by
        rw [hf.2]
        rw [hf.1] at hne
        simpa using hne
      exact ⟨hf.1, hfalse, read_eeprom_uncached_log t cfg _ hfalse⟩

/-- The read theorem on the byte-memory device holding rec_v1: the first
read_eeprom returns 0 and sets the flag, and the second one makes no further
access (the log still holds the one read). -/
theorem read_eeprom_idempotent_witness :
    (read_eeprom mem_transport (.nxid 4) (boot_state (.nxid 4) env_empty rec_v1)).1 = 0 ∧
    (read_eeprom mem_transport (.nxid 4)
      (boot_state (.nxid 4) env_empty rec_v1)).2.has_been_read = true ∧
    (read_eeprom mem_transport (.nxid 4)
      (read_eeprom mem_transport (.nxid 4)
        (boot_state (.nxid 4) env_empty rec_v1)).2).2.log.length = 1 :=
  ⟨by decide!,
    (read_eeprom_idempotent mem_transport (.nxid 4)
      (boot_state (.nxid 4) env_empty rec_v1)).1 (by decide!),
    by decide!⟩

/-! ## read_eeprom: the bytes it leaves in memory -/

theorem byte_at_clear_ff (e : List Nat) (off i : Nat) :
    byte_at (clear_ff e off) i =
      if i = off ∧ byte_at e off = 0xff then 0 else byte_at e i := by
  unfold clear_ff
  by_cases hff : byte_at e off = 0xff
  · have hlt : off < e.length := by
      by_contra hge
      simp only [byte_at, List.getD_eq_getElem?_getD] at hff
      rw [List.getElem?_eq_none (by omega)] at hff
      simp at hff
    rw [if_pos hff]
    by_cases hi : i = off
    · subst hi
      have := byte_at_set_bytes_mid e i [0] 0 (by simp) (by omega)
      simp only [Nat.add_zero] at this
      rw [this]
      simp [hff]
    · rw [if_neg (by simp [hi])]
      rcases Nat.lt_or_gt_of_ne hi with h | h
      · exact byte_at_set_bytes_lt e off [0] i h (by omega)
      · exact byte_at_set_bytes_ge e off [0] i (by simp; omega) (by omega)
  · rw [if_neg hff, if_neg (by simp [hff])]

theorem byte_at_clear_ff_step (e1 e : List Nat) (S : Nat → Prop) [DecidablePred S] (a : Nat)
    (ha : ¬ S a)
    (h : ∀ i, byte_at e1 i = if S i ∧ byte_at e i = 0xff then 0 else byte_at e i) (i : Nat) :
    byte_at (clear_ff e1 a) i =
      if (S i ∨ i = a) ∧ byte_at e i = 0xff then 0 else byte_at e i := by
  have hea : byte_at e1 a = byte_at e a := by rw [h a, if_neg (fun hc => ha hc.1)]
  rw [byte_at_clear_ff, hea]
  by_cases hi : i = a
  · subst hi
    by_cases hff : byte_at e i = 0xff
    · rw [if_pos ⟨rfl, hff⟩, if_pos ⟨Or.inr rfl, hff⟩]
    · rw [if_neg (fun hc => hff hc.2), if_neg (fun hc => hff hc.2), hea]
  · rw [if_neg (fun hc => hi hc.1), h i]
    by_cases hS : S i ∧ byte_at e i = 0xff
    · rw [if_pos hS, if_pos ⟨Or.inl hS.1, hS.2⟩]
    · rw [if_neg hS, if_neg (fun hc => hS ⟨hc.1.resolve_right hi, hc.2⟩)]

theorem byte_at_clear_unset (cfg : Config) (raw : List Nat) (i : Nat) :
    byte_at (clear_unset cfg raw) i =
      if (i = off_sn cfg ∨ i = off_errata ∨
          (cfg.is_nxid = true ∧ (i = off_board_version cfg ∨ i = off_product_info cfg))) ∧
          byte_at raw i = 0xff
      then 0 else byte_at raw i := by
  have h0 : ∀ j, byte_at raw j = if (fun _ : Nat => False) j ∧ byte_at raw j = 0xff then 0
      else byte_at raw j := fun j => by simp
  have h1 := byte_at_clear_ff_step raw raw (fun _ => False) (off_sn cfg) (by simp) h0
  have h2 := byte_at_clear_ff_step _ raw (fun j => False ∨ j = off_sn cfg) off_errata
    (by cases cfg <;> simp [off_sn, off_errata]) h1
  cases cfg with
  | ccid =>
    simp only [clear_unset, Config.is_nxid, Bool.false_eq_true, if_false, false_and, or_false]
    rw [h2 i]
    simp only [false_or]
  | nxid p =>
    have h3 := byte_at_clear_ff_step _ raw
      (fun j => (False ∨ j = off_sn (.nxid p)) ∨ j = off_errata) (off_board_version (.nxid p))
      (by simp [off_sn, off_errata, off_board_version, off_mac, MAX_NUM_PORTS]; omega) h2
    have h4 := byte_at_clear_ff_step _ raw
      (fun j => ((False ∨ j = off_sn (.nxid p)) ∨ j = off_errata) ∨
        j = off_board_version (.nxid p)) (off_product_info (.nxid p))
      (by simp [off_sn, off_errata, off_board_version, off_product_info, off_mac,
        len_board_version, MAX_NUM_PORTS]) h3
    simp only [clear_unset, Config.is_nxid, if_true, true_and]
    rw [h4 i]
    simp only [false_or, or_assoc]

/-- Claim C12 as stated fails: the device holds rec_v1 with 0xFF as first
byte of the errata field (offset 0x10); the read succeeds and the byte at
0x10, which belongs to none of serial number, board version and product
info, is 0 in memory. -/
theorem read_eeprom_clears_errata :
    byte_at (set_bytes rec_v1 16 [0xFF]) 16 = 0xFF ∧
    off_sn (.nxid 4) ≠ 16 ∧ off_board_version (.nxid 4) ≠ 16 ∧ off_product_info (.nxid 4) ≠ 16 ∧
    (read_eeprom mem_transport (.nxid 4)
      (boot_state (.nxid 4) env_empty (set_bytes rec_v1 16 [0xFF]))).1 = 0 ∧
    byte_at (read_eeprom mem_transport (.nxid 4)
      (boot_state (.nxid 4) env_empty (set_bytes rec_v1 16 [0xFF]))).2.e 16 = 0 := by
  decide!

/-- Claim C12, as amended: a read_eeprom from an unread cache returns the
status of the transport read, whatever the bytes are (no tag or checksum is
looked at); the record in memory is the buffer the transport read left (the
delivered bytes, when the transport delivered the whole record) with 0x00 in
place of 0xFF at the first byte of the serial number, of the errata and, in
the NXID layout, of the board version and of the product info; every other
byte is the raw byte. -/
theorem read_eeprom_bytes {σ : Type} (t : Transport σ) (cfg : Config) (s : State σ)
    (hun : s.has_been_read = false) :
    (read_eeprom t cfg s).1 = (t.i2c_read s.bus 0 (sizeof_eeprom cfg)).1 ∧
    (s.e.length = sizeof_eeprom cfg →
      (t.i2c_read s.bus 0 (sizeof_eeprom cfg)).2.1.length = sizeof_eeprom cfg →
      buf_store s.e (t.i2c_read s.bus 0 (sizeof_eeprom cfg)).2.1 (sizeof_eeprom cfg) =
        (t.i2c_read s.bus 0 (sizeof_eeprom cfg)).2.1) ∧
    (read_eeprom t cfg s).2.e.length =
      (buf_store s.e (t.i2c_read s.bus 0 (sizeof_eeprom cfg)).2.1 (sizeof_eeprom cfg)).length ∧
    ∀ i, byte_at (read_eeprom t cfg s).2.e i =
      if (i = off_sn cfg ∨ i = off_errata ∨
          (cfg.is_nxid = true ∧ (i = off_board_version cfg ∨ i = off_product_info cfg))) ∧
          byte_at (buf_store s.e (t.i2c_read s.bus 0 (sizeof_eeprom cfg)).2.1
            (sizeof_eeprom cfg)) i = 0xff
      then 0
      else byte_at (buf_store s.e (t.i2c_read s.bus 0 (sizeof_eeprom cfg)).2.1
        (sizeof_eeprom cfg)) i := by
  have he : (read_eeprom t cfg s).2.e = clear_unset cfg
      (buf_store s.e (t.i2c_read s.bus 0 (sizeof_eeprom cfg)).2.1 (sizeof_eeprom cfg)) := by
    unfold read_eeprom
    rw [if_neg (by simp [hun])]
  refine ⟨(read_eeprom_flag t cfg s hun).1, fun h1 h2 => buf_store_same _ _ _ h2 h1, ?_, ?_⟩
  · rw [he, length_clear_unset]
  · intro i
    rw [he, byte_at_clear_unset]

/-- The read theorem on the byte-memory device holding rec_v1 with 0xFF as
first byte of serial number and errata: both read as 0, the next byte of the
serial number is the raw byte. -/
theorem read_eeprom_bytes_witness :
    (boot_state (.nxid 4) env_empty
      (set_bytes (set_bytes rec_v1 16 [0xFF]) 4 [0xFF])).has_been_read = false ∧
    byte_at (read_eeprom mem_transport (.nxid 4) (boot_state (.nxid 4) env_empty
      (set_bytes (set_bytes rec_v1 16 [0xFF]) 4 [0xFF]))).2.e 4 = 0 ∧
    byte_at (read_eeprom mem_transport (.nxid 4) (boot_state (.nxid 4) env_empty
      (set_bytes (set_bytes rec_v1 16 [0xFF]) 4 [0xFF]))).2.e 16 = 0 ∧
    byte_at (read_eeprom mem_transport (.nxid 4) (boot_state (.nxid 4) env_empty
      (set_bytes (set_bytes rec_v1 16 [0xFF]) 4 [0xFF]))).2.e 5 = 78 :=
  ⟨by decide!,
    ((read_eeprom_bytes mem_transport (.nxid 4) (boot_state (.nxid 4) env_empty
      (set_bytes (set_bytes rec_v1 16 [0xFF]) 4 [0xFF])) (by decide!)).2.2.2 4).trans
      (by decide!),
    ((read_eeprom_bytes mem_transport (.nxid 4) (boot_state (.nxid 4) env_empty
      (set_bytes (set_bytes rec_v1 16 [0xFF]) 4 [0xFF])) (by decide!)).2.2.2 16).trans
      (by decide!),
    ((read_eeprom_bytes mem_transport (.nxid 4) (boot_state (.nxid 4) env_empty
      (set_bytes (set_bytes rec_v1 16 [0xFF]) 4 [0xFF])) (by decide!)).2.2.2 5).trans
      (by decide!)⟩

/-! ## The string setters of do_mac -/

theorem bytes_at_set_bytes_ext (e : List Nat) (off : Nat) (data : List Nat) (n : Nat)
    (h : off ≤ e.length) (hn : data.length ≤ n) :
    bytes_at (set_bytes e off data) off n =
      data ++ bytes_at e (off + data.length) (n - data.length) := by
  unfold bytes_at set_bytes
  rw [List.append_assoc, List.drop_append_of_le_length (by simp; omega)]
  have h0 : List.drop off (List.take off e) = [] := by
    rw [List.drop_eq_nil_iff]; simp
  rw [h0, List.nil_append, List.take_append_eq_append_take, List.take_of_length_le hn]

theorem bytes_at_memset_tail (e : List Nat) (off c w k : Nat) (h : off + w ≤ e.length)
    (hk : k ≤ w) : bytes_at (memset e off c w) (off + k) (w - k) = List.replicate (w - k) c := by
  unfold bytes_at memset set_bytes
  rw [List.append_assoc, List.drop_append_eq_append_drop]
  have h0 : List.drop (off + k) (List.take off e) = [] := by
    rw [List.drop_eq_nil_iff]; simp
  rw [h0, List.nil_append, List.length_take, Nat.min_eq_left (by omega),
    show off + k - off = k by omega, List.drop_append_of_le_length (by simp; omega),
    List.take_append_of_le_length (by simp)]
  simp

theorem bytes_at_string_field (cfg : Config) (e : List Nat) (off w : Nat) (arg : List Nat)
    (hlen : e.length = sizeof_eeprom cfg) (hw : 0 < w) (hcrc : off + w ≤ off_crc cfg) :
    bytes_at (update_crc cfg (set_bytes (memset e off 0 w) off (strncpy arg (w - 1)))) off w =
      (c_str arg).take (min (strlen arg) (w - 1)) ++
        List.replicate (w - min (strlen arg) (w - 1)) 0 := by
  have hsz : off_crc cfg + 4 = e.length := by rw [hlen]; rfl
  have hm : (memset e off 0 w).length = e.length := length_memset _ _ _ _ (by omega)
  have hx : (set_bytes (memset e off 0 w) off (strncpy arg (w - 1))).length = e.length := by
    rw [length_set_bytes _ _ _ (by rw [length_strncpy, hm]; omega), hm]
  unfold update_crc
  rw [bytes_at_set_bytes_lt _ _ _ _ _ hcrc (by rw [hx]; omega),
    bytes_at_set_bytes_ext _ _ _ _ (by rw [hm]; omega) (by rw [length_strncpy]; omega),
    length_strncpy]
  have := bytes_at_memset_tail e off 0 w (w - 1) (by omega) (by omega)
  rw [this]
  have ht : (c_str arg).take (w - 1) = (c_str arg).take (min (c_str arg).length (w - 1)) := by
    rw [List.take_eq_take]
    omega
  simp only [strncpy, strlen, List.length_take, List.append_assoc, ← List.replicate_add]
  rw [← ht]
  congr 2
  omega

theorem string_field_last (e : List Nat) (off w : Nat) (str : List Nat) (hw : 0 < w)
    (hle : off + w ≤ e.length)
    (h : bytes_at e off w = str.take (min str.length (w - 1)) ++
      List.replicate (w - min str.length (w - 1)) 0) :
    byte_at e (off + (w - 1)) = 0 := by
  have hl : (bytes_at e off w).length = w := by rw [length_bytes_at]; omega
  have := getD_bytes_at e off w (w - 1) (by omega)
  unfold byte_at
  rw [← this, h, List.getD_eq_getElem?_getD,
    List.getElem?_append_right (by simp only [List.length_take]; omega),
    List.getElem?_replicate]
  simp only [List.length_take]
  split <;> rfl

theorem do_mac_eq_switch {σ : Type} (t : Transport σ)
    (strtoul : List Nat → Nat → Nat × List Nat) (cfg : Config) (e2 : List Nat)
    (argv : List (List Nat)) (s : State σ) (hargc : 3 ≤ argv.length)
    (hvalid : is_valid cfg s.e = true)
    (hr : str_at (argv.getD 1 []) 0 ≠ 114) (hi : str_at (argv.getD 1 []) 0 ≠ 105) :
    do_mac t strtoul cfg e2 argv s =
      do_mac_switch strtoul cfg (str_at (argv.getD 1 []) 0) (argv.getD 1 []) (argv.getD 2 []) s := by
  have h1 : argv.length ≠ 1 := by omega
  have h2 : argv.length ≠ 2 := by omega
  unfold do_mac
  simp only [h1, h2, hr, hi, hvalid, if_false, Bool.not_true, Bool.false_eq_true]

theorem length_do_mac_switch_string {σ : Type} (strtoul : List Nat → Nat → Nat × List Nat)
    (cfg : Config) (cmd : Nat) (name arg : List Nat) (s : State σ)
    (hlen : s.e.length = sizeof_eeprom cfg)
    (hcmd : cmd = 110 ∨ (cfg.is_nxid = true ∧ (cmd = 98 ∨ cmd = 97 ∨ cmd = 101))) :
    (do_mac_switch strtoul cfg cmd name arg s).e.length = sizeof_eeprom cfg := by
  unfold do_mac_switch
  rcases hcmd with rfl | ⟨hx, rfl | rfl | rfl⟩
  · simp only [if_true]
    refine length_update_crc _ _ ?_
    rw [length_set_field _ _ _ _ (by
      cases cfg <;> simp [hlen, sizeof_nxid, sizeof_ccid, off_sn, len_sn]; omega)
      (by cases cfg <;> simp [len_sn]), hlen]
  · cases cfg with
    | ccid => simp [Config.is_nxid] at hx
    | nxid p =>
      simp only [hx, and_self, if_true]
      norm_num
      refine length_update_crc _ _ ?_
      rw [length_set_field _ _ _ _ (by
        simp [hlen, sizeof_nxid, off_board_version, off_mac, len_board_version, MAX_NUM_PORTS]
        omega) (by simp [len_board_version]), hlen]
  · cases cfg with
    | ccid => simp [Config.is_nxid] at hx
    | nxid p =>
      simp only [hx, and_self, if_true]
      norm_num
      refine length_update_crc _ _ ?_
      rw [length_set_field _ _ _ _ (by
        simp [hlen, sizeof_nxid, off_product_info, off_board_version, off_mac,
          len_board_version, len_product_info, MAX_NUM_PORTS]
        omega) (by simp [len_product_info]), hlen]
  · cases cfg with
    | ccid => simp [Config.is_nxid] at hx
    | nxid p =>
      norm_num [Config.is_nxid]
      refine length_update_crc _ _ ?_
      rw [length_set_field s.e off_errata 5 arg
        (by simp [hlen, sizeof_nxid, off_errata]; omega) (by norm_num), hlen]

/-- Claim C13: for every prior record of the configured size and every
string, the setter of do_mac for the serial number (n), and in the NXID
layout for the board version (b), the product info (a) and the errata (e),
leaves in the field the first min(len(s), width-1) bytes of the string
followed by NUL bytes up to the width of the field (serial number 12 in NXID
and 10 in CCID, board version 16, product info 64, errata 5), whatever the
field held before; the last byte of the field is NUL.  do_mac runs these
setters for every record whose tag passes is_valid when the command has an
argument. -/
theorem do_mac_string_setters {σ : Type} (strtoul : List Nat → Nat → Nat × List Nat)
    (cfg : Config) (name arg : List Nat) (s : State σ)
    (hlen : s.e.length = sizeof_eeprom cfg) :
    (bytes_at (do_mac_switch strtoul cfg 110 name arg s).e (off_sn cfg) (len_sn cfg) =
        nul_padded arg (len_sn cfg) ∧
      byte_at (do_mac_switch strtoul cfg 110 name arg s).e (off_sn cfg + (len_sn cfg - 1)) = 0) ∧
    (cfg.is_nxid = true →
      len_sn cfg = 12 ∧
      (bytes_at (do_mac_switch strtoul cfg 98 name arg s).e (off_board_version cfg) 16 =
          nul_padded arg 16 ∧
        byte_at (do_mac_switch strtoul cfg 98 name arg s).e (off_board_version cfg + 15) = 0) ∧
      (bytes_at (do_mac_switch strtoul cfg 97 name arg s).e (off_product_info cfg) 64 =
          nul_padded arg 64 ∧
        byte_at (do_mac_switch strtoul cfg 97 name arg s).e (off_product_info cfg + 63) = 0) ∧
      (bytes_at (do_mac_switch strtoul cfg 101 name arg s).e off_errata 5 = nul_padded arg 5 ∧
        byte_at (do_mac_switch strtoul cfg 101 name arg s).e (off_errata + 4) = 0)) ∧
    (∀ (t : Transport σ) (e2 : List Nat) (argv : List (List Nat)), 3 ≤ argv.length →
      is_valid cfg s.e = true →
      str_at (argv.getD 1 []) 0 = 110 ∨ str_at (argv.getD 1 []) 0 = 98 ∨
        str_at (argv.getD 1 []) 0 = 97 ∨ str_at (argv.getD 1 []) 0 = 101 →
      do_mac t strtoul cfg e2 argv s =
        do_mac_switch strtoul cfg (str_at (argv.getD 1 []) 0) (argv.getD 1 []) (argv.getD 2 []) s) := by
  refine ⟨?_, ?_, ?_⟩
  · have hl := length_do_mac_switch_string strtoul cfg 110 name arg s hlen (Or.inl rfl)
    have hb : bytes_at (do_mac_switch strtoul cfg 110 name arg s).e (off_sn cfg) (len_sn cfg) =
        nul_padded arg (len_sn cfg) := by
      unfold do_mac_switch
      simp only [if_true]
      exact bytes_at_string_field cfg s.e _ _ arg hlen (by cases cfg <;> simp [len_sn])
        (by cases cfg <;> simp [off_sn, len_sn, off_crc, off_mac, off_res_2, off_product_info,
          off_board_version]; omega)
    exact ⟨hb, string_field_last _ _ _ (c_str arg) (by cases cfg <;> simp [len_sn])
      (by rw [hl]; cases cfg <;> simp [sizeof_nxid, sizeof_ccid, off_sn, len_sn]; omega) hb⟩
  · intro hx
    cases cfg with
    | ccid => simp [Config.is_nxid] at hx
    | nxid p =>
      have hs := sizeof_nxid p
      have hc : off_crc (.nxid p) = 156 + 6 * p := by
        have := off_crc_eq (.nxid p); omega
      refine ⟨rfl, ?_, ?_, ?_⟩
      · have hl := length_do_mac_switch_string strtoul (.nxid p) 98 name arg s hlen
          (Or.inr ⟨rfl, Or.inl rfl⟩)
        have hb : bytes_at (do_mac_switch strtoul (.nxid p) 98 name arg s).e
            (off_board_version (.nxid p)) 16 = nul_padded arg 16 := by
          unfold do_mac_switch
          norm_num [Config.is_nxid]
          exact bytes_at_string_field (.nxid p) s.e _ 16 arg hlen (by norm_num)
            (by simp [hc, off_board_version, off_mac, MAX_NUM_PORTS]; omega)
        exact ⟨hb, string_field_last _ _ 16 (c_str arg) (by norm_num)
          (by rw [hl, hs]; simp [off_board_version, off_mac, MAX_NUM_PORTS]; omega) hb⟩
      · have hl := length_do_mac_switch_string strtoul (.nxid p) 97 name arg s hlen
          (Or.inr ⟨rfl, Or.inr (Or.inl rfl)⟩)
        have hb : bytes_at (do_mac_switch strtoul (.nxid p) 97 name arg s).e
            (off_product_info (.nxid p)) 64 = nul_padded arg 64 := by
          unfold do_mac_switch
          norm_num [Config.is_nxid]
          exact bytes_at_string_field (.nxid p) s.e _ 64 arg hlen (by norm_num)
            (by simp [hc, off_product_info, off_board_version, off_mac, len_board_version,
              MAX_NUM_PORTS]; omega)
        exact ⟨hb, string_field_last _ _ 64 (c_str arg) (by norm_num)
          (by rw [hl, hs]; simp [off_product_info, off_board_version, off_mac,
            len_board_version, MAX_NUM_PORTS]; omega) hb⟩
      · have hl := length_do_mac_switch_string strtoul (.nxid p) 101 name arg s hlen
          (Or.inr ⟨rfl, Or.inr (Or.inr rfl)⟩)
        have hb : bytes_at (do_mac_switch strtoul (.nxid p) 101 name arg s).e off_errata 5 =
            nul_padded arg 5 := by
          unfold do_mac_switch
          norm_num [Config.is_nxid]
          exact bytes_at_string_field (.nxid p) s.e off_errata 5 arg hlen (by norm_num)
            (by simp [hc, off_errata]; omega)
        exact ⟨hb, string_field_last _ _ 5 (c_str arg) (by norm_num)
          (by rw [hl, hs]; simp [off_errata]; omega) hb⟩
  · intro t e2 argv hargc hvalid hcmd
    exact do_mac_eq_switch t strtoul cfg e2 argv s hargc hvalid (by omega) (by omega)

/-- The setter theorem on the example of the specification: the serial
number is set to "ABCDEF" and then to "XY"; the field then holds "XY"
followed by ten NUL bytes. -/
theorem do_mac_string_setters_witness :
    (do_mac mem_transport simple_strtoul (.nxid 4) [] [ascii "mac", ascii "n", ascii "ABCDEF"]
      (loaded_state env_empty rec_v1)).e.length = sizeof_eeprom (.nxid 4) ∧
    bytes_at (do_mac mem_transport simple_strtoul (.nxid 4) []
      [ascii "mac", ascii "n", ascii "ABCDEF"] (loaded_state env_empty rec_v1)).e 4 12 =
        ascii "ABCDEF" ++ List.replicate 6 0 ∧
    bytes_at (do_mac_switch simple_strtoul (.nxid 4) 110 (ascii "n") (ascii "XY")
      (do_mac mem_transport simple_strtoul (.nxid 4) [] [ascii "mac", ascii "n", ascii "ABCDEF"]
        (loaded_state env_empty rec_v1))).e (off_sn (.nxid 4)) (len_sn (.nxid 4)) =
        ascii "XY" ++ List.replicate 10 0 ∧
    bytes_at (do_mac mem_transport simple_strtoul (.nxid 4) [] [ascii "mac", ascii "n", ascii "XY"]
      (do_mac mem_transport simple_strtoul (.nxid 4) [] [ascii "mac", ascii "n", ascii "ABCDEF"]
        (loaded_state env_empty rec_v1))).e 4 12 = ascii "XY" ++ List.replicate 10 0 :=
  ⟨by decide!, by decide!,
    ((do_mac_string_setters simple_strtoul (.nxid 4) (ascii "n") (ascii "XY")
      (do_mac mem_transport simple_strtoul (.nxid 4) [] [ascii "mac", ascii "n", ascii "ABCDEF"]
        (loaded_state env_empty rec_v1)) (by decide!)).1.1).trans (by decide!),
    by decide!⟩

/-! ## set_mac_address: the bytes of the slot -/

theorem set_bytes_nil (e : List Nat) (off : Nat) : set_bytes e off [] = e := by
  simp [set_bytes]

theorem set_bytes_cons (e : List Nat) (off v : Nat) (l : List Nat) (h : off < e.length) :
    set_bytes (set_bytes e off [v]) (off + 1) l = set_bytes e off (v :: l) := by
  have hA : (List.take off e ++ [v]).length = off + 1 := by simp; omega
  have h1 : List.take (off + 1) (List.take off e ++ [v] ++ List.drop (off + 1) e) =
      List.take off e ++ [v] := List.take_left' hA
  have h2 : List.drop (off + 1 + l.length) (List.take off e ++ [v] ++ List.drop (off + 1) e) =
      List.drop (off + (l.length + 1)) e := by
    rw [← hA, List.drop_append, List.drop_drop]
    congr 1
    omega
  simp only [set_bytes, List.length_cons, List.length_nil, Nat.zero_add]
  rw [h1, h2]
  simp

theorem length_mac_octets (strtoul : List Nat → Nat → Nat × List Nat) (b : Nat) (p : List Nat) :
    (mac_octets strtoul b p).length ≤ b := by
  induction b generalizing p with
  | zero => simp [mac_octets]
  | succ b ih =>
    simp only [mac_octets]
    split
    · simp
    · simp only [List.length_cons]
      have := ih (if (strtoul p 16).2.headD 0 = 58 then (strtoul p 16).2.tail
        else (strtoul p 16).2)
      omega

theorem set_mac_loop_eq (strtoul : List Nat → Nat → Nat × List Nat) (index b i : Nat)
    (p e : List Nat) (h : off_mac_slot index + i + b ≤ e.length) :
    set_mac_loop strtoul index b i p e =
      set_bytes e (off_mac_slot index + i) (mac_octets strtoul b p) := by
  induction b generalizing i p e with
  | zero => simp [set_mac_loop, mac_octets, set_bytes_nil]
  | succ b ih =>
    simp only [set_mac_loop, mac_octets]
    split
    · rw [set_bytes_nil]
    · have hl : (set_bytes e (off_mac_slot index + i) [(strtoul p 16).1 % 256]).length =
          e.length := length_set_bytes _ _ _ (by simp; omega)
      rw [ih (i + 1) _ _ (by rw [hl]; omega), ← Nat.add_assoc,
        set_bytes_cons _ _ _ _ (by omega)]

theorem mac_slot_end_le_crc (cfg : Config) (index : Nat) (h : index < MAX_NUM_PORTS cfg) :
    off_mac_slot index + 6 ≤ off_crc cfg := by
  cases cfg with
  | ccid => simp [MAX_NUM_PORTS] at h; simp [off_crc, off_mac_slot, off_mac]; omega
  | nxid p =>
    simp [MAX_NUM_PORTS] at h
    simp [off_crc, off_res_2, off_product_info, off_board_version, off_mac_slot, off_mac,
      MAX_NUM_PORTS]
    omega

/-- Claim C14 as stated fails: with 11:22:33:44:55:66 in slot 0, the string
"AA:BB" leaves AA:BB:33:44:55:66, and on the record rec_v1, whose slot 0 is
AA:BB:CC:DD:EE:01, the same string leaves the slot as it was: the bytes after
the call depend on the bytes before it. -/
theorem set_mac_address_keeps_tail :
    mac_slot rec_mac 0 = [0x11, 0x22, 0x33, 0x44, 0x55, 0x66] ∧
    mac_slot (set_mac_address simple_strtoul (.nxid 4) 0 (ascii "AA:BB")
      (loaded_state env_empty rec_mac)).e 0 = [0xAA, 0xBB, 0x33, 0x44, 0x55, 0x66] ∧
    mac_slot (set_mac_address simple_strtoul (.nxid 4) 0 (ascii "AA:BB")
      (loaded_state env_empty rec_v1)).e 0 = [0xAA, 0xBB, 0xCC, 0xDD, 0xEE, 0x01] := by
  decide!

/-- Claim C14, as amended: for every index below MAX_NUM_PORTS, every prior
record of the configured size and every string, after set_mac_address the
slot mac[index] holds the octets read from the string (at most six) followed
by the bytes the slot held before at the remaining positions, and the
checksum is updated; for an index that is not below MAX_NUM_PORTS the usage
line is printed and the record is left unchanged. -/
theorem set_mac_address_slot {σ : Type} (strtoul : List Nat → Nat → Nat × List Nat)
    (cfg : Config) (index : Nat) (string : List Nat) (s : State σ)
    (hlen : s.e.length = sizeof_eeprom cfg) :
    (index < MAX_NUM_PORTS cfg →
      (mac_octets strtoul 6 string).length ≤ 6 ∧
      mac_slot (set_mac_address strtoul cfg index string s).e index =
        mac_octets strtoul 6 string ++
          (mac_slot s.e index).drop (mac_octets strtoul 6 string).length ∧
      crc_valid cfg (set_mac_address strtoul cfg index string s).e = true) ∧
    (MAX_NUM_PORTS cfg ≤ index →
      (set_mac_address strtoul cfg index string s).e = s.e ∧
      (set_mac_address strtoul cfg index string s).console = s.console ++ [Msg.usage_mac]) := by
  have hspec := set_mac_address_spec strtoul cfg index string s hlen
  refine ⟨fun hidx => ⟨length_mac_octets strtoul 6 string, ?_, hspec.1 hidx⟩,
    fun hge => hspec.2 (by omega)⟩
  have hk := length_mac_octets strtoul 6 string
  have hend := mac_slot_end_le_crc cfg index hidx
  have hsz : off_crc cfg + 4 = s.e.length := by rw [hlen]; rfl
  have hloop := set_mac_loop_eq strtoul index 6 0 string s.e (by omega)
  simp only [Nat.add_zero] at hloop
  have hx : (set_bytes s.e (off_mac_slot index) (mac_octets strtoul 6 string)).length =
      s.e.length := length_set_bytes _ _ _ (by omega)
  unfold set_mac_address
  rw [if_neg (by omega)]
  simp only [hloop, mac_slot]
  unfold update_crc
  rw [bytes_at_set_bytes_lt _ _ _ _ _ hend (by rw [hx]; omega),
    bytes_at_set_bytes_ext _ _ _ _ (by omega) hk]
  congr 1
  simp only [bytes_at, List.drop_take, List.drop_drop]

/-- The slot theorem on the example of the claim: slot 0 holds
11:22:33:44:55:66 and the string is "AA:BB"; two octets are read and the slot
ends up as AA:BB:33:44:55:66. -/
theorem set_mac_address_slot_witness :
    (loaded_state env_empty rec_mac).e.length = sizeof_eeprom (.nxid 4) ∧
    0 < MAX_NUM_PORTS (.nxid 4) ∧
    mac_octets simple_strtoul 6 (ascii "AA:BB") = [0xAA, 0xBB] ∧
    mac_slot (set_mac_address simple_strtoul (.nxid 4) 0 (ascii "AA:BB")
      (loaded_state env_empty rec_mac)).e 0 = [0xAA, 0xBB, 0x33, 0x44, 0x55, 0x66] :=
  ⟨by decide!, by decide!, by decide!,
    (((set_mac_address_slot simple_strtoul (.nxid 4) 0 (ascii "AA:BB")
      (loaded_state env_empty rec_mac) (by decide!)).1 (by decide!)).2.1).trans (by decide!)⟩

/-! ## set_date -/

theorem h2i_le (c : Nat) : h2i c ≤ 15 := by
  unfold h2i
  split_ifs <;> omega

theorem h2i_eq_digit_val (c : Nat) (h : digit_val c < 16) : h2i c = digit_val c := by
  unfold h2i
  unfold digit_val at h ⊢
  split_ifs at h ⊢ <;> omega

theorem h2i_of_no_digit (c : Nat) (h : digit_val c = 255) : h2i c = 0 := by
  unfold h2i
  unfold digit_val at h
  split_ifs at h ⊢ <;> omega

theorem nibbles_eq : ∀ a, a < 16 → ∀ b, b < 16 → ((a <<< 4) ||| b) % 256 = 16 * a + b := by
  decide

theorem date_byte_eq (string : List Nat) (i : Nat) :
    date_byte string i = 16 * h2i (str_at string (2 * i)) + h2i (str_at string (2 * i + 1)) := by
  unfold date_byte
  exact nibbles_eq _ (by have := h2i_le (str_at string (2 * i)); omega) _
    (by have := h2i_le (str_at string (2 * i + 1)); omega)

theorem off_date_le (cfg : Config) : off_date cfg + 6 ≤ off_crc cfg := by
  cases cfg <;> simp [off_date, off_crc, off_mac, off_res_2, off_product_info, off_board_version]
  omega

theorem set_date_accepted {σ : Type} (cfg : Config) (string : List Nat) (s : State σ)
    (h : strlen string = 12) :
    set_date cfg string s = { s with e := update_crc cfg (set_bytes s.e (off_date cfg)
      ((List.range 6).map (date_byte string))) } := by
  unfold set_date
  rw [if_neg (by simp [h])]

theorem set_date_bytes {σ : Type} (cfg : Config) (string : List Nat) (s : State σ)
    (hlen : s.e.length = sizeof_eeprom cfg) (h : strlen string = 12) :
    bytes_at (set_date cfg string s).e (off_date cfg) 6 =
      (List.range 6).map (date_byte string) := by
  have hsz : off_crc cfg + 4 = s.e.length := by rw [hlen]; rfl
  have hd := off_date_le cfg
  have hx : (set_bytes s.e (off_date cfg) ((List.range 6).map (date_byte string))).length =
      s.e.length := length_set_bytes _ _ _ (by simp; omega)
  rw [set_date_accepted cfg string s h]
  simp only [update_crc]
  rw [bytes_at_set_bytes_lt _ _ _ _ _ hd (by rw [hx]; omega)]
  have := bytes_at_set_bytes_self s.e (off_date cfg) ((List.range 6).map (date_byte string))
    (by omega)
  simpa using this

theorem set_date_frame {σ : Type} (cfg : Config) (string : List Nat) (s : State σ)
    (hlen : s.e.length = sizeof_eeprom cfg) (h : strlen string = 12) (j : Nat)
    (hj : j < off_date cfg ∨ off_date cfg + 6 ≤ j) (hc : j < off_crc cfg ∨ off_crc cfg + 4 ≤ j) :
    byte_at (set_date cfg string s).e j = byte_at s.e j := by
  have hsz : off_crc cfg + 4 = s.e.length := by rw [hlen]; rfl
  have hd := off_date_le cfg
  have hx : (set_bytes s.e (off_date cfg) ((List.range 6).map (date_byte string))).length =
      s.e.length := length_set_bytes _ _ _ (by simp; omega)
  have h1 : byte_at (set_bytes s.e (off_date cfg) ((List.range 6).map (date_byte string))) j =
      byte_at s.e j := by
    rcases hj with hj | hj
    · exact byte_at_set_bytes_lt _ _ _ _ hj (by omega)
    · exact byte_at_set_bytes_ge _ _ _ _ (by simpa using hj) (by omega)
  rw [set_date_accepted cfg string s h]
  simp only [update_crc]
  rcases hc with hc | hc
  · rw [byte_at_set_bytes_lt _ _ _ _ hc (by rw [hx]; omega), h1]
  · rw [byte_at_set_bytes_ge _ _ _ _ (by simpa [cpu_to_be32] using hc) (by rw [hx]; omega), h1]

/-- Claim C15 as stated fails: the string "1G0000000000" has 12 characters
of which G is no hexadecimal digit; set_date stores it all the same: the date
field of rec_v1 goes from six zero bytes to 10 00 00 00 00 00 and the
checksum changes. -/
theorem set_date_takes_non_hex :
    strlen (ascii "1G0000000000") = 12 ∧
    digit_val (str_at (ascii "1G0000000000") 1) = 255 ∧
    bytes_at rec_v1 (off_date (.nxid 4)) 6 = [0, 0, 0, 0, 0, 0] ∧
    bytes_at (set_date (.nxid 4) (ascii "1G0000000000") (loaded_state env_empty rec_v1)).e
      (off_date (.nxid 4)) 6 = [0x10, 0, 0, 0, 0, 0] ∧
    get_be32 (set_date (.nxid 4) (ascii "1G0000000000") (loaded_state env_empty rec_v1)).e
      (off_crc (.nxid 4)) ≠ get_be32 rec_v1 (off_crc (.nxid 4)) := by
  decide!

/-- Claim C15, as amended: set_date rejects every argument whose length is
not 12 before any mutation - it prints the usage line and leaves the record,
the checksum included, and the rest of the state unchanged; an argument of
length 12 is always stored, date[i] = 16*h2i(s[2i]) + h2i(s[2i+1]) with the
checksum updated, and a character that is no hexadecimal digit counts as
0. -/
theorem set_date_length_check {σ : Type} (cfg : Config) (string : List Nat) (s : State σ)
    (hlen : s.e.length = sizeof_eeprom cfg) :
    (strlen string ≠ 12 → set_date cfg string s = s.print Msg.usage_date ∧
      (set_date cfg string s).e = s.e) ∧
    (strlen string = 12 →
      bytes_at (set_date cfg string s).e (off_date cfg) 6 =
        (List.range 6).map
          (fun i => 16 * h2i (str_at string (2 * i)) + h2i (str_at string (2 * i + 1))) ∧
      crc_valid cfg (set_date cfg string s).e = true) ∧
    (∀ c, digit_val c = 255 → h2i c = 0) := by
  refine ⟨fun h => ?_, fun h => ⟨?_, (set_date_spec cfg string s hlen).1 h⟩, h2i_of_no_digit⟩
  · unfold set_date
    rw [if_pos h]
    exact ⟨rfl, rfl⟩
  · rw [set_date_bytes cfg string s hlen h]
    exact List.map_congr_left (fun i _ => date_byte_eq string i)

/-- The length check on two arguments: "123" is rejected and the record
stays rec_v1; "1G0000000000" is stored with G counting as 0. -/
theorem set_date_length_check_witness :
    (loaded_state env_empty rec_v1).e.length = sizeof_eeprom (.nxid 4) ∧
    strlen (ascii "123") ≠ 12 ∧
    (set_date (.nxid 4) (ascii "123") (loaded_state env_empty rec_v1)).e = rec_v1 ∧
    strlen (ascii "1G0000000000") = 12 ∧
    bytes_at (set_date (.nxid 4) (ascii "1G0000000000") (loaded_state env_empty rec_v1)).e
      (off_date (.nxid 4)) 6 = [0x10, 0, 0, 0, 0, 0] :=
  ⟨by decide!, by decide!,
    ((set_date_length_check (.nxid 4) (ascii "123") (loaded_state env_empty rec_v1)
      (by decide!)).1 (by decide!)).2,
    by decide!,
    (((set_date_length_check (.nxid 4) (ascii "1G0000000000") (loaded_state env_empty rec_v1)
      (by decide!)).2.1 (by decide!)).1).trans (by decide!)⟩

/-- Claim C16: for every string of exactly 12 hexadecimal digits, of either
case, and every record of the configured size, set_date stores
date[i] = 16*value(s[2i]) + value(s[2i+1]) for i = 0..5; every byte outside
the date field and the checksum field is unchanged, the checksum is updated,
and nothing else of the state changes. -/
theorem set_date_packs_bcd {σ : Type} (cfg : Config) (string : List Nat) (s : State σ)
    (hlen : s.e.length = sizeof_eeprom cfg)
    (h12 : strlen string = 12)
    (hhex : ∀ i, i < 12 → digit_val (str_at string i) < 16) :
    (∀ i, i < 6 → byte_at (set_date cfg string s).e (off_date cfg + i) =
      16 * digit_val (str_at string (2 * i)) + digit_val (str_at string (2 * i + 1))) ∧
    (∀ j, (j < off_date cfg ∨ off_date cfg + 6 ≤ j) →
      (j < off_crc cfg ∨ off_crc cfg + 4 ≤ j) →
      byte_at (set_date cfg string s).e j = byte_at s.e j) ∧
    (set_date cfg string s).e.length = s.e.length ∧
    crc_valid cfg (set_date cfg string s).e = true ∧
    (set_date cfg string s).env = s.env ∧
    (set_date cfg string s).has_been_read = s.has_been_read ∧
    (set_date cfg string s).log = s.log ∧
    (set_date cfg string s).console = s.console := by
  have hb := set_date_bytes cfg string s hlen h12
  have hacc := set_date_accepted cfg string s h12
  refine ⟨fun i hi => ?_, fun j hj hc => set_date_frame cfg string s hlen h12 j hj hc, ?_,
    (set_date_spec cfg string s hlen).1 h12, by rw [hacc], by rw [hacc], by rw [hacc],
    by rw [hacc]⟩
  · have hl : (bytes_at (set_date cfg string s).e (off_date cfg) 6).length = 6 := by
      rw [hb]; simp
    have := getD_bytes_at (set_date cfg string s).e (off_date cfg) 6 i (by omega)
    unfold byte_at
    rw [← this, hb, List.getD_eq_getElem?_getD, List.getElem?_map,
      List.getElem?_range hi]
    simp only [Option.map_some', Option.getD_some]
    rw [date_byte_eq, h2i_eq_digit_val _ (hhex _ (by omega)),
      h2i_eq_digit_val _ (hhex _ (by omega))]
  · have hd := off_date_le cfg
    have hsz : off_crc cfg + 4 = s.e.length := by rw [hlen]; rfl
    have hx : (set_bytes s.e (off_date cfg) ((List.range 6).map (date_byte string))).length =
        s.e.length := length_set_bytes _ _ _ (by simp; omega)
    rw [hacc]
    simp only
    rw [length_update_crc cfg _ (by rw [hx, hlen]), hlen]

/-- The date theorem on a decimal date and on hexadecimal digits of both
cases: "241231235959" is stored as 24 12 31 23 59 59. -/
theorem set_date_packs_bcd_witness :
    (loaded_state env_empty rec_v1).e.length = sizeof_eeprom (.nxid 4) ∧
    strlen (ascii "241231235959") = 12 ∧
    (∀ i, i < 12 → digit_val (str_at (ascii "241231235959") i) < 16) ∧
    byte_at (set_date (.nxid 4) (ascii "241231235959") (loaded_state env_empty rec_v1)).e
      (off_date (.nxid 4) + 3) = 0x23 ∧
    bytes_at (set_date (.nxid 4) (ascii "241231235959") (loaded_state env_empty rec_v1)).e
      (off_date (.nxid 4)) 6 = [0x24, 0x12, 0x31, 0x23, 0x59, 0x59] ∧
    bytes_at (set_date (.nxid 4) (ascii "aB0000000000") (loaded_state env_empty rec_v1)).e
      (off_date (.nxid 4)) 1 = [0xAB] :=
  ⟨by decide!, by decide!, by decide!,
    (((set_date_packs_bcd (.nxid 4) (ascii "241231235959") (loaded_state env_empty rec_v1)
      (by decide!) (by decide!) (by decide!)).1 3 (by decide)).trans (by decide!)),
    by decide!, by decide!⟩

/-! ## prog_eeprom: the chunks it writes -/

theorem prog_loop_accepting {σ : Type} (t : Transport σ) (cfg : Config) (e : List Nat)
    (hw : ∀ bus off data, (t.i2c_write bus off data).1 = 0)
    (L : List Nat) (bus : σ) (log : List BusOp) :
    (prog_loop t cfg e L bus log).1 = 0 ∧
    (prog_loop t cfg e L bus log).2.2 = log ++
      L.map (fun i => BusOp.write i (bytes_at e i (min (sizeof_eeprom cfg - i) 8)) 0) := by
  induction L generalizing bus log with
  | nil => simp [prog_loop]
  | cons i rest ih =>
    have h0 := hw bus i (bytes_at e i (min (sizeof_eeprom cfg - i) 8))
    have hstep : prog_loop t cfg e (i :: rest) bus log =
        prog_loop t cfg e rest
          (t.i2c_write bus i (bytes_at e i (min (sizeof_eeprom cfg - i) 8))).2
          (log ++ [BusOp.write i (bytes_at e i (min (sizeof_eeprom cfg - i) 8)) 0]) := by
      simp [prog_loop, h0]
    rw [hstep]
    refine ⟨(ih _ _).1, ?_⟩
    rw [(ih _ _).2]
    simp

theorem join_chunks_take (e : List Nat) (m : Nat) :
    ((List.range m).map (fun k => bytes_at e (8 * k) (min (e.length - 8 * k) 8))).flatten =
      e.take (8 * m) := by
  induction m with
  | zero => simp
  | succ m ih =>
    rw [List.range_succ, List.map_append, List.flatten_append, ih]
    simp only [List.map_cons, List.map_nil, List.flatten_cons, List.flatten_nil, List.append_nil,
      bytes_at]
    have h1 : (e.drop (8 * m)).take (min (e.length - 8 * m) 8) = (e.drop (8 * m)).take 8 := by
      apply List.take_eq_take.mpr
      simp only [List.length_drop]
      omega
    rw [h1, show 8 * (m + 1) = 8 * m + 8 by ring, List.take_add]

theorem join_chunks (cfg : Config) (e : List Nat) (hlen : e.length = sizeof_eeprom cfg) :
    ((chunk_offsets cfg).map (fun i => bytes_at e i (min (sizeof_eeprom cfg - i) 8))).flatten
      = e := by
  have h := join_chunks_take e ((sizeof_eeprom cfg + 7) / 8)
  rw [hlen] at h
  unfold chunk_offsets
  rw [List.map_map]
  have hc : ((fun i => bytes_at e i (min (sizeof_eeprom cfg - i) 8)) ∘ fun k => 8 * k) =
      fun k => bytes_at e (8 * k) (min (sizeof_eeprom cfg - 8 * k) 8) := rfl
  rw [hc, h]
  exact List.take_of_length_le (by rw [hlen]; omega)

/-- Claim C26: on a transport that accepts every write, the accesses
prog_eeprom makes are one write per offset 0, 8, 16, ... below the record
size, in this order, each of min(size - offset, 8) bytes of the record with
the reserved values set and the checksum updated, followed by the read-back;
no chunk is longer than 8 bytes or ends behind the record, every record byte
lies in exactly one chunk, and the chunks joined in order are the record. -/
theorem prog_eeprom_chunks {σ : Type} (t : Transport σ) (cfg : Config) (e2 : List Nat)
    (s : State σ) (hw : ∀ bus off data, (t.i2c_write bus off data).1 = 0)
    (hlen : s.e.length = sizeof_eeprom cfg) :
    (∃ rd, rd.is_write = false ∧
      (prog_eeprom t cfg e2 s).2.log = s.log ++
        (chunk_offsets cfg).map (fun i => BusOp.write i
          (bytes_at (record_programmed cfg s.e) i (min (sizeof_eeprom cfg - i) 8)) 0) ++
        [rd]) ∧
    chunk_offsets cfg = (List.range ((sizeof_eeprom cfg + 7) / 8)).map (fun k => 8 * k) ∧
    (∀ i ∈ chunk_offsets cfg, i < sizeof_eeprom cfg ∧
      (bytes_at (record_programmed cfg s.e) i (min (sizeof_eeprom cfg - i) 8)).length =
        min (sizeof_eeprom cfg - i) 8 ∧
      (bytes_at (record_programmed cfg s.e) i (min (sizeof_eeprom cfg - i) 8)).length ≤ 8 ∧
      i + (bytes_at (record_programmed cfg s.e) i (min (sizeof_eeprom cfg - i) 8)).length ≤
        sizeof_eeprom cfg) ∧
    (∀ a, a < sizeof_eeprom cfg → ∃ i ∈ chunk_offsets cfg,
      (i ≤ a ∧ a < i + min (sizeof_eeprom cfg - i) 8) ∧
      ∀ j ∈ chunk_offsets cfg, j ≤ a ∧ a < j + min (sizeof_eeprom cfg - j) 8 → j = i) ∧
    ((chunk_offsets cfg).map (fun i =>
      bytes_at (record_programmed cfg s.e) i (min (sizeof_eeprom cfg - i) 8))).flatten =
      record_programmed cfg s.e ∧
    (prog_eeprom t cfg e2 s).2.e = record_programmed cfg s.e := by
  have hrec := length_record_programmed cfg s.e hlen
  have hloop := prog_loop_accepting t cfg (record_programmed cfg s.e) hw (chunk_offsets cfg)
    s.bus s.log
  refine ⟨?_, rfl, ?_, ?_, join_chunks cfg _ hrec, prog_eeprom_e t cfg e2 s⟩
  · refine ⟨BusOp.read 0 (sizeof_eeprom cfg)
      (t.i2c_read (prog_loop t cfg (record_programmed cfg s.e) (chunk_offsets cfg)
        s.bus s.log).2.1 0 (sizeof_eeprom cfg)).1
      (buf_store e2 (t.i2c_read (prog_loop t cfg (record_programmed cfg s.e)
        (chunk_offsets cfg) s.bus s.log).2.1 0 (sizeof_eeprom cfg)).2.1 (sizeof_eeprom cfg)),
      rfl, ?_⟩
    have hf := (prog_finish_spec s (record_programmed cfg s.e)
      (prog_verify t cfg e2 (record_programmed cfg s.e)
        (prog_loop t cfg (record_programmed cfg s.e) (chunk_offsets cfg) s.bus s.log))).1
    have hp : (prog_eeprom t cfg e2 s).2.log = (prog_verify t cfg e2 (record_programmed cfg s.e)
        (prog_loop t cfg (record_programmed cfg s.e) (chunk_offsets cfg) s.bus s.log)).2.2 := hf
    rw [hp]
    unfold prog_verify
    rw [if_pos hloop.1]
    simp only
    rw [hloop.2]
  · intro i hi
    simp only [chunk_offsets, List.mem_map, List.mem_range] at hi
    obtain ⟨k, hk, rfl⟩ := hi
    rw [length_bytes_at, hrec]
    omega
  · intro a ha
    refine ⟨8 * (a / 8), ?_, by omega, ?_⟩
    · simp only [chunk_offsets, List.mem_map, List.mem_range]
      exact ⟨a / 8, by omega, rfl⟩
    · intro j hj hcov
      simp only [chunk_offsets, List.mem_map, List.mem_range] at hj
      obtain ⟨k, _, rfl⟩ := hj
      omega

/-- The chunk theorem on the record rec_v1 over the byte-memory device: 23
writes, the last one at offset 176, then the read-back. -/
theorem prog_eeprom_chunks_witness :
    edit_state.e.length = sizeof_eeprom (.nxid 4) ∧
    chunk_offsets (.nxid 4) = [0, 8, 16, 24, 32, 40, 48, 56, 64, 72, 80, 88, 96, 104, 112,
      120, 128, 136, 144, 152, 160, 168, 176] ∧
    ((chunk_offsets (.nxid 4)).map (fun i =>
      bytes_at (record_programmed (.nxid 4) edit_state.e) i
        (min (sizeof_eeprom (.nxid 4) - i) 8))).flatten = record_programmed (.nxid 4) edit_state.e :=
  ⟨by decide!, by decide!,
    (prog_eeprom_chunks mem_transport (.nxid 4) [] edit_state (fun _ _ _ => rfl)
      (by decide!)).2.2.2.2.1⟩

/-! ## The checksum check behind the read, and the key buffer -/

/-- Claim C29 fails on the device content rec_sn_ff: its tag is valid and its
stored CRC-32 is correct for the bytes on the device, the read from the
unread cache over the byte-memory transport returns 0, but read_eeprom
replaces the 0xFF at the first byte of the serial number by 0x00 before the
checksum is computed, so mac_read_from_eeprom reports a CRC mismatch and
exports nothing. -/
theorem mac_read_rejects_correct_device :
    is_valid (.nxid 4) rec_sn_ff = true ∧
    crc_valid (.nxid 4) rec_sn_ff = true ∧
    byte_at rec_sn_ff (off_sn (.nxid 4)) = 0xFF ∧
    (boot_state (.nxid 4) env_empty rec_sn_ff).has_been_read = false ∧
    (read_eeprom mem_transport (.nxid 4)
      ((boot_state (.nxid 4) env_empty rec_sn_ff).print .eeprom)).1 = 0 ∧
    byte_at (record_read mem_transport (.nxid 4) (boot_state (.nxid 4) env_empty rec_sn_ff))
      (off_sn (.nxid 4)) = 0 ∧
    accepts mem_transport (.nxid 4) (boot_state (.nxid 4) env_empty rec_sn_ff) = false ∧
    (mac_read_from_eeprom mem_transport (.nxid 4)
      (boot_state (.nxid 4) env_empty rec_sn_ff)).console =
      [Msg.eeprom, Msg.crc_mismatch
        (crc32 0 ((record_read mem_transport (.nxid 4)
          (boot_state (.nxid 4) env_empty rec_sn_ff)).take 180))
        (get_be32 rec_sn_ff 180)] ∧
    crc32 0 ((record_read mem_transport (.nxid 4)
      (boot_state (.nxid 4) env_empty rec_sn_ff)).take 180) ≠ get_be32 rec_sn_ff 180 ∧
    (mac_read_from_eeprom mem_transport (.nxid 4)
      (boot_state (.nxid 4) env_empty rec_sn_ff)).env SERIALNO_NAME = none ∧
    (mac_read_from_eeprom mem_transport (.nxid 4)
      (boot_state (.nxid 4) env_empty rec_sn_ff)).env (ascii "ethaddr") = none := by
  decide!

/-- Claim C30 fails for the default MAX_NUM_PORTS = 16: the key for slot 10
is "eth10addr", nine characters, which need ten bytes with the NUL while
enetvar has nine; mac_read_from_eeprom formats this key for the record
rec_11_macs and so writes behind the end of the array.  The key with its
NUL fits in nine bytes exactly for the indices below 10, and the formatted
address always takes 17 characters, 18 bytes with its NUL. -/
theorem enetvar_exceeds_buffer :
    MAX_NUM_PORTS (.nxid 16) = 16 ∧
    enetvar 10 = ascii "eth10addr" ∧
    (enetvar 10).length + 1 = 10 ∧
    (mac_read_from_eeprom mem_transport (.nxid 16)
      (boot_state (.nxid 16) env_empty rec_11_macs)).overflow = true ∧
    (∀ i, i < 16 → ((enetvar i).length + 1 ≤ 9 ↔ i < 10)) ∧
    (∀ m, (fmt_ethaddr m).length + 1 = 18) :=
  ⟨by decide!, by decide!, by decide!, by decide!, by decide!,
    fun m => by simp [fmt_ethaddr, fmt_02X]⟩

end SysEeprom

namespace Eqos

/-! ## eqos_send: the poll loop -/

theorem tx_poll_none (p : Params) (hw : Nat → Nat) (idx budget i : Nat) (tr : List Ev)
    (h : ∀ j, j < budget → hw (i + j) &&& p.EQOS_DESC3_OWN ≠ 0) :
    (tx_poll p hw idx budget i tr).1 = none := by
  induction budget generalizing i tr with
  | zero => rfl
  | succ b ih =>
    have h0 := h 0 (by omega)
    simp only [Nat.add_zero] at h0
    simp only [tx_poll, h0, if_false]
    exact ih _ _ (fun j hj => by have := h (j + 1) (by omega); rwa [Nat.add_assoc, Nat.add_comm 1 j])

theorem tx_poll_some (p : Params) (hw : Nat → Nat) (idx budget i : Nat) (tr : List Ev) (k : Nat)
    (h : (tx_poll p hw idx budget i tr).1 = some k) :
    i ≤ k ∧ k < i + budget ∧ hw k &&& p.EQOS_DESC3_OWN = 0 ∧
      ∀ j, i ≤ j → j < k → hw j &&& p.EQOS_DESC3_OWN ≠ 0 := by
  induction budget generalizing i tr with
  | zero => simp [tx_poll] at h
  | succ b ih =>
    simp only [tx_poll] at h
    split at h
    · rename_i h0
      simp only [Option.some.injEq] at h
      subst h
      exact ⟨le_refl _, by omega, h0, fun j h1 h2 => by omega⟩
    · rename_i h0
      obtain ⟨h1, h2, h3, h4⟩ := ih _ _ h
      refine ⟨by omega, by omega, h3, fun j hj1 hj2 => ?_⟩
      by_cases hji : j = i
      · subst hji; exact h0
      · exact h4 j (by omega) hj2

theorem tx_poll_trace (p : Params) (hw : Nat → Nat) (idx budget i : Nat) (tr : List Ev) :
    ∃ evs, (tx_poll p hw idx budget i tr).2 = tr ++ evs ∧
      List.countP Ev.is_poll evs =
        (match (tx_poll p hw idx budget i tr).1 with
          | some k => k - i + 1
          | none => budget : Nat) := by
  induction budget generalizing i tr with
  | zero => exact ⟨[], by simp [tx_poll], by simp [tx_poll]⟩
  | succ b ih =>
    by_cases h0 : hw i &&& p.EQOS_DESC3_OWN = 0
    · refine ⟨[Ev.inval_tx_desc idx, Ev.readl_tx_des3 idx (hw i)], by simp [tx_poll, h0], ?_⟩
      simp [tx_poll, h0, List.countP_cons, Ev.is_poll]
    · obtain ⟨evs, h1, h2⟩ := ih (i + 1)
        (tr ++ [Ev.inval_tx_desc idx, Ev.readl_tx_des3 idx (hw i), Ev.udelay 1])
      refine ⟨[Ev.inval_tx_desc idx, Ev.readl_tx_des3 idx (hw i), Ev.udelay 1] ++ evs,
        by simp only [tx_poll, h0, if_false, h1, List.append_assoc], ?_⟩
      simp only [tx_poll, h0, if_false]
      rw [List.countP_append]
      cases hr : (tx_poll p hw idx b (i + 1)
          (tr ++ [Ev.inval_tx_desc idx, Ev.readl_tx_des3 idx (hw i), Ev.udelay 1])).1 with
      | none =>
        rw [hr] at h2
        simp only at h2
        rw [h2]
        simp [List.countP_cons, Ev.is_poll]
        exact Nat.add_comm 1 b
      | some k =>
        have := (tx_poll_some p hw idx b (i + 1) _ k hr).1
        rw [hr] at h2
        simp only at h2
        rw [h2]
        simp [List.countP_cons, Ev.is_poll]
        have e1 : k - (i + 1) + 1 = k - i := by omega
        rw [e1]
        exact Nat.add_comm 1 (k - i)

theorem tx_poll_result_indep (p : Params) (hw : Nat → Nat) (idx budget i : Nat) (tr : List Ev) :
    (tx_poll p hw idx budget i tr).1 = (tx_poll p hw idx budget i []).1 := by
  induction budget generalizing i tr with
  | zero => rfl
  | succ b ih =>
    by_cases h0 : hw i &&& p.EQOS_DESC3_OWN = 0
    · simp [tx_poll, h0]
    · simp only [tx_poll, h0, if_false]
      rw [ih, ih (i + 1) ([] ++ _)]

theorem eqos_send_ret (p : Params) (hw : Nat → Nat) (packet : List Nat) (s : eqos_priv) :
    (eqos_send p hw packet s).1 =
        (match (tx_poll p hw s.tx_desc_idx 1000000 0 []).1 with
          | some _ => 0
          | none => -ETIMEDOUT) := by
  unfold eqos_send
  simp only
  rw [tx_poll_result_indep]
  cases (tx_poll p hw s.tx_desc_idx 1000000 0 []).1 <;> rfl

theorem eqos_send_desc (p : Params) (hw : Nat → Nat) (packet : List Nat) (s : eqos_priv) :
    (eqos_send p hw packet s).2.tx_descs =
      set_desc s.tx_descs s.tx_desc_idx
        { des0 := u32 s.tx_dma_buf, des1 := 0, des2 := u32 packet.length,
          des3 := match (tx_poll p hw s.tx_desc_idx 1000000 0 []).1 with
            | some i => hw i
            | none => hw 999999 } := by
  unfold eqos_send
  simp only
  rw [tx_poll_result_indep]
  cases (tx_poll p hw s.tx_desc_idx 1000000 0 []).1 <;> rfl

theorem eqos_send_cursor (p : Params) (hw : Nat → Nat) (packet : List Nat) (s : eqos_priv) :
    (eqos_send p hw packet s).2.tx_desc_idx = (s.tx_desc_idx + 1) % p.EQOS_DESCRIPTORS_TX ∧
      (eqos_send p hw packet s).2.rx_descs = s.rx_descs ∧
      (eqos_send p hw packet s).2.rx_desc_idx = s.rx_desc_idx ∧
      (eqos_send p hw packet s).2.ch0_rxdesc_tail_pointer = s.ch0_rxdesc_tail_pointer := by
  unfold eqos_send
  simp only
  split <;> exact ⟨rfl, rfl, rfl, rfl⟩

theorem tx_poll_trace_app (p : Params) (hw : Nat → Nat) (idx budget : Nat)
    (base pre : List Ev) :
    ∃ evs, (tx_poll p hw idx budget 0 (base ++ pre)).2 = base ++ evs ∧
      List.countP Ev.is_poll evs = List.countP Ev.is_poll pre +
        (match (tx_poll p hw idx budget 0 []).1 with
          | some k => k + 1
          | none => budget : Nat) := by
  obtain ⟨evs, h1, h2⟩ := tx_poll_trace p hw idx budget 0 (base ++ pre)
  rw [tx_poll_result_indep] at h2
  refine ⟨pre ++ evs, by rw [h1, List.append_assoc], ?_⟩
  rw [List.countP_append, h2]
  cases (tx_poll p hw idx budget 0 []).1 <;> simp

theorem eqos_send_trace (p : Params) (hw : Nat → Nat) (packet : List Nat) (s : eqos_priv) :
    ∃ evs, (eqos_send p hw packet s).2.trace = s.trace ++ evs ∧
      List.countP Ev.is_poll evs =
        (match (tx_poll p hw s.tx_desc_idx 1000000 0 []).1 with
          | some k => k + 1
          | none => 1000000 : Nat) := by
  obtain ⟨evs, h1, h2⟩ := tx_poll_trace_app p hw s.tx_desc_idx 1000000 s.trace
    [Ev.memcpy_tx packet.length, Ev.flush_buffer s.tx_dma_buf packet.length,
      Ev.store_tx s.tx_desc_idx 0 (u32 s.tx_dma_buf), Ev.store_tx s.tx_desc_idx 1 0,
      Ev.store_tx s.tx_desc_idx 2 (u32 packet.length), Ev.mb,
      Ev.store_tx s.tx_desc_idx 3
        (u32 (p.EQOS_DESC3_OWN ||| p.EQOS_DESC3_FD ||| p.EQOS_DESC3_LD ||| packet.length)),
      Ev.flush_tx_desc s.tx_desc_idx,
      Ev.writel_txdesc_tail_pointer
        (u32 (s.tx_desc_addr ((s.tx_desc_idx + 1) % p.EQOS_DESCRIPTORS_TX)))]
  simp only [List.countP_cons, List.countP_nil, Ev.is_poll, Bool.false_eq_true, if_false,
    Nat.zero_add] at h2
  unfold eqos_send
  simp only
  rw [tx_poll_result_indep]
  cases hk : (tx_poll p hw s.tx_desc_idx 1000000 0 []).1 with
  | some k =>
    rw [hk] at h2
    exact ⟨evs, h1, h2⟩
  | none =>
    rw [hk] at h2
    refine ⟨evs ++ [Ev.printf_tx_timeout], ?_, ?_⟩
    · show _ ++ [Ev.printf_tx_timeout] = _
      rw [h1, List.append_assoc]
    · rw [List.countP_append, h2]
      simp [List.countP_cons, Ev.is_poll]

theorem tx_poll_none_all (p : Params) (hw : Nat → Nat) (idx budget i : Nat) (tr : List Ev)
    (h : (tx_poll p hw idx budget i tr).1 = none) :
    ∀ j, j < budget → hw (i + j) &&& p.EQOS_DESC3_OWN ≠ 0 := by
  induction budget generalizing i tr with
  | zero => intro j hj; omega
  | succ b ih =>
    by_cases h0 : hw i &&& p.EQOS_DESC3_OWN = 0
    · simp [tx_poll, h0] at h
    · simp only [tx_poll, h0, if_false] at h
      intro j hj
      cases j with
      | zero => exact h0
      | succ j =>
        have := ih _ _ h j (by omega)
        rwa [Nat.add_assoc, Nat.add_comm 1 j] at this

theorem eqos_send_zero_iff (p : Params) (hw : Nat → Nat) (packet : List Nat) (s : eqos_priv) :
    (eqos_send p hw packet s).1 = 0 ↔ ∃ i, i < 1000000 ∧ hw i &&& p.EQOS_DESC3_OWN = 0 := by
  rw [eqos_send_ret]
  cases hk : (tx_poll p hw s.tx_desc_idx 1000000 0 []).1 with
  | some k =>
    obtain ⟨_, h2, h3, _⟩ := tx_poll_some p hw s.tx_desc_idx 1000000 0 [] k hk
    simp only [true_iff]
    exact ⟨k, by omega, h3⟩
  | none =>
    simp only [ETIMEDOUT]
    constructor
    · intro h; exact absurd h (by decide)
    · rintro ⟨i, hi, h0⟩
      have := tx_poll_none_all p hw s.tx_desc_idx 1000000 0 [] hk i hi
      rw [Nat.zero_add] at this
      exact absurd h0 this

theorem eqos_send_timeout_iff (p : Params) (hw : Nat → Nat) (packet : List Nat) (s : eqos_priv) :
    (eqos_send p hw packet s).1 = -ETIMEDOUT ↔
      ∀ i, i < 1000000 → hw i &&& p.EQOS_DESC3_OWN ≠ 0 := by
  rw [eqos_send_ret]
  cases hk : (tx_poll p hw s.tx_desc_idx 1000000 0 []).1 with
  | some k =>
    obtain ⟨_, h2, h3, _⟩ := tx_poll_some p hw s.tx_desc_idx 1000000 0 [] k hk
    simp only [ETIMEDOUT]
    constructor
    · intro h; exact absurd h (by decide)
    · intro h; exact absurd h3 (h k (by omega))
  | none =>
    simp only [true_iff]
    intro i hi
    have := tx_poll_none_all p hw s.tx_desc_idx 1000000 0 [] hk i hi
    rwa [Nat.zero_add] at this

theorem eqos_send_timeout_desc (p : Params) (hw : Nat → Nat) (packet : List Nat) (s : eqos_priv)
    (h : ∀ i, i < 1000000 → hw i &&& p.EQOS_DESC3_OWN ≠ 0) :
    (eqos_send p hw packet s).2.tx_descs =
      set_desc s.tx_descs s.tx_desc_idx
        { des0 := u32 s.tx_dma_buf, des1 := 0, des2 := u32 packet.length, des3 := hw 999999 } := by
  rw [eqos_send_desc, tx_poll_none p hw s.tx_desc_idx 1000000 0 []
    (fun j hj => by rw [Nat.zero_add]; exact h j hj)]

theorem own_and (own b : Nat) (h : own < 4294967296) : u32 (own ||| b) &&& own = own := by
  apply Nat.eq_of_testBit_eq
  intro i
  have e : (4294967296 : Nat) = 2 ^ 32 := by norm_num
  unfold u32
  rw [e, Nat.testBit_and, Nat.testBit_mod_two_pow, Nat.testBit_or]
  by_cases hi : i < 32
  · simp only [hi, decide_True, Bool.true_and]
    cases own.testBit i <;> simp
  · have : own.testBit i = false :=
      Nat.testBit_lt_two_pow (lt_of_lt_of_le (e ▸ h)
        (Nat.pow_le_pow_right (by norm_num) (not_lt.mp hi)))
    simp [this]

theorem u32_of_lt (v : Nat) (h : v < 4294967296) : u32 v = v := Nat.mod_eq_of_lt h

theorem and_7fff_ne_eagain (v : Nat) : ((v &&& 0x7fff : Nat) : Int) ≠ -EAGAIN := by
  unfold EAGAIN
  omega

/-- C17: eqos_send returns for every frame and every hardware behaviour; the
result is 0 exactly when one of the first 1,000,000 polls of des3 sees OWN
clear and -ETIMEDOUT exactly when none does; the call makes at most
1,000,000 polls, stopping at the first one that sees OWN clear. -/
theorem eqos_send_poll_budget (p : Params) (hw : Nat → Nat) (packet : List Nat)
    (s : eqos_priv) :
    ((eqos_send p hw packet s).1 = 0 ↔
        ∃ i, i < 1000000 ∧ hw i &&& p.EQOS_DESC3_OWN = 0) ∧
      ((eqos_send p hw packet s).1 = -ETIMEDOUT ↔
        ¬ ∃ i, i < 1000000 ∧ hw i &&& p.EQOS_DESC3_OWN = 0) ∧
      ((eqos_send p hw packet s).1 = 0 ∨ (eqos_send p hw packet s).1 = -ETIMEDOUT) ∧
      ∃ evs, (eqos_send p hw packet s).2.trace = s.trace ++ evs ∧
        List.countP Ev.is_poll evs ≤ 1000000 ∧
        (∀ k, k < 1000000 → hw k &&& p.EQOS_DESC3_OWN = 0 →
          (∀ j, j < k → hw j &&& p.EQOS_DESC3_OWN ≠ 0) →
          List.countP Ev.is_poll evs = k + 1) ∧
        ((∀ i, i < 1000000 → hw i &&& p.EQOS_DESC3_OWN ≠ 0) →
          List.countP Ev.is_poll evs = 1000000) := by
  refine ⟨eqos_send_zero_iff p hw packet s, ?_, ?_, ?_⟩
  · rw [eqos_send_timeout_iff]
    constructor
    · rintro h ⟨i, hi, h0⟩; exact h i hi h0
    · intro h i hi h0; exact h ⟨i, hi, h0⟩
  · by_cases hex : ∃ i, i < 1000000 ∧ hw i &&& p.EQOS_DESC3_OWN = 0
    · exact Or.inl ((eqos_send_zero_iff p hw packet s).2 hex)
    · exact Or.inr ((eqos_send_timeout_iff p hw packet s).2
        (fun i hi h0 => hex ⟨i, hi, h0⟩))
  · obtain ⟨evs, h1, h2⟩ := eqos_send_trace p hw packet s
    refine ⟨evs, h1, ?_, ?_, ?_⟩
    · rw [h2]
      cases hk : (tx_poll p hw s.tx_desc_idx 1000000 0 []).1 with
      | some k =>
        have := (tx_poll_some p hw s.tx_desc_idx 1000000 0 [] k hk).2.1
        simp only
        omega
      | none => exact le_refl _
    · intro k hk h0 hbefore
      rw [h2]
      cases hr : (tx_poll p hw s.tx_desc_idx 1000000 0 []).1 with
      | some m =>
        obtain ⟨_, m2, m3, m4⟩ := tx_poll_some p hw s.tx_desc_idx 1000000 0 [] m hr
        simp only
        have h5 : ¬ m < k := fun hlt => hbefore m hlt m3
        have h6 : ¬ k < m := fun hlt => m4 k (Nat.zero_le _) hlt h0
        omega
      | none =>
        have := tx_poll_none_all p hw s.tx_desc_idx 1000000 0 [] hr k hk
        rw [Nat.zero_add] at this
        exact absurd h0 this
    · intro hall
      rw [h2, tx_poll_none p hw s.tx_desc_idx 1000000 0 []
        (fun j hj => by rw [Nat.zero_add]; exact hall j hj)]

/-- Witness for C17 on the ring eqos_start leaves: the hardware clears OWN
before the first poll, and a three-byte frame is sent with result 0. -/
theorem eqos_send_poll_budget_witness :
    (eqos_send sample_params (fun _ => 0) [1, 2, 3] sample_state).1 = 0 :=
  (eqos_send_poll_budget sample_params (fun _ => 0) [1, 2, 3] sample_state).1.2
    ⟨0, by decide, by decide⟩

/-- Counterexample to C18: on the ring eqos_start leaves, with four TX
descriptors and a hardware that never clears OWN, eqos_send returns
-ETIMEDOUT and the TX cursor, 0 before the call, is 1 after it. -/
theorem eqos_send_timeout_moves_cursor :
    (eqos_send sample_params (fun _ => 0x80000000) [0xde, 0xad] sample_state).1 = -ETIMEDOUT ∧
      sample_state.tx_desc_idx = 0 ∧
      (eqos_send sample_params (fun _ => 0x80000000) [0xde, 0xad] sample_state).2.tx_desc_idx
        = 1 :=
  ⟨(eqos_send_timeout_iff sample_params (fun _ => 0x80000000) [0xde, 0xad] sample_state).2
      (fun _ _ => (by decide : (0x80000000 &&& 0x80000000 : Nat) ≠ 0)),
    rfl,
    (eqos_send_cursor sample_params (fun _ => 0x80000000) [0xde, 0xad] sample_state).1⟩

/-- C18, amended: when no poll within the budget sees OWN clear, eqos_send
returns -ETIMEDOUT with the TX cursor advanced by one modulo
EQOS_DESCRIPTORS_TX (so it differs from its old value on a ring of two or
more descriptors); the descriptor of the timed-out frame is still
hardware-owned, the other TX descriptors, the RX ring, the RX cursor and the
RX tail pointer are unchanged, and a retry fills the slot at the new
cursor, leaving the timed-out descriptor as it is. -/
theorem eqos_send_timeout_state (p : Params) (hw : Nat → Nat) (packet : List Nat)
    (s : eqos_priv) (h : ∀ i, i < 1000000 → hw i &&& p.EQOS_DESC3_OWN ≠ 0) :
    (eqos_send p hw packet s).1 = -ETIMEDOUT ∧
      (eqos_send p hw packet s).2.tx_desc_idx = (s.tx_desc_idx + 1) % p.EQOS_DESCRIPTORS_TX ∧
      (s.tx_desc_idx < p.EQOS_DESCRIPTORS_TX → 2 ≤ p.EQOS_DESCRIPTORS_TX →
        (eqos_send p hw packet s).2.tx_desc_idx ≠ s.tx_desc_idx) ∧
      hw_owned p ((eqos_send p hw packet s).2.tx_descs s.tx_desc_idx) = true ∧
      (∀ j, j ≠ s.tx_desc_idx → (eqos_send p hw packet s).2.tx_descs j = s.tx_descs j) ∧
      (eqos_send p hw packet s).2.rx_descs = s.rx_descs ∧
      (eqos_send p hw packet s).2.rx_desc_idx = s.rx_desc_idx ∧
      (eqos_send p hw packet s).2.ch0_rxdesc_tail_pointer = s.ch0_rxdesc_tail_pointer ∧
      ∀ (hw2 : Nat → Nat) (packet2 : List Nat),
        (eqos_send p hw packet s).2.tx_desc_idx ≠ s.tx_desc_idx →
        (eqos_send p hw2 packet2 (eqos_send p hw packet s).2).2.tx_descs s.tx_desc_idx =
          (eqos_send p hw packet s).2.tx_descs s.tx_desc_idx := by
  obtain ⟨c1, c2, c3, c4⟩ := eqos_send_cursor p hw packet s
  refine ⟨(eqos_send_timeout_iff p hw packet s).2 h, c1, ?_, ?_, ?_, c2, c3, c4, ?_⟩
  · intro hlt h2
    rw [c1]
    by_cases hlast : s.tx_desc_idx + 1 < p.EQOS_DESCRIPTORS_TX
    · rw [Nat.mod_eq_of_lt hlast]; omega
    · have : s.tx_desc_idx + 1 = p.EQOS_DESCRIPTORS_TX := by omega
      rw [this, Nat.mod_self]; omega
  · rw [eqos_send_timeout_desc p hw packet s h]
    have := h 999999 (by norm_num)
    simp [set_desc, hw_owned, this]
  · intro j hj
    rw [eqos_send_timeout_desc p hw packet s h]
    simp [set_desc, hj]
  · intro hw2 packet2 hne
    rw [eqos_send_desc p hw2 packet2]
    simp only [set_desc]
    rw [if_neg (fun e => hne e.symm)]

/-- Witness for C18 (amended) on the ring eqos_start leaves, with a hardware
that keeps OWN set at every poll. -/
theorem eqos_send_timeout_state_witness :
    (eqos_send sample_params (fun _ => 0x80000000) [0xde, 0xad] sample_state).1 = -ETIMEDOUT ∧
      (eqos_send sample_params (fun _ => 0x80000000) [0xde, 0xad] sample_state).2.tx_desc_idx
        = (sample_state.tx_desc_idx + 1) % sample_params.EQOS_DESCRIPTORS_TX :=
  ⟨(eqos_send_timeout_state sample_params (fun _ => 0x80000000) [0xde, 0xad] sample_state
      (fun _ _ => (by decide : (0x80000000 &&& 0x80000000 : Nat) ≠ 0))).1,
    (eqos_send_timeout_state sample_params (fun _ => 0x80000000) [0xde, 0xad] sample_state
      (fun _ _ => (by decide : (0x80000000 &&& 0x80000000 : Nat) ≠ 0))).2.1⟩

/-! ## eqos_recv and eqos_free_pkt -/

theorem hw_owned_iff (p : Params) (d : eqos_desc) :
    hw_owned p d = true ↔ d.des3 &&& p.EQOS_DESC3_OWN ≠ 0 := by
  simp [hw_owned]

theorem hw_owned_false_iff (p : Params) (d : eqos_desc) :
    hw_owned p d = false ↔ d.des3 &&& p.EQOS_DESC3_OWN = 0 := by
  simp [hw_owned]

/-- C19: eqos_recv returns -EAGAIN exactly when the RX descriptor at
rx_desc_idx and the one after it (modulo EQOS_DESCRIPTORS_RX) are both
hardware-owned, and then stores no pointer and keeps rx_desc_idx; otherwise
it takes the first of the two that is software-owned, makes rx_desc_idx its
index, stores rx_dma_buf + index * EQOS_MAX_PACKET_SIZE through packetp and
returns des3 & 0x7fff of that descriptor.  No descriptor is changed. -/
theorem eqos_recv_lookahead (p : Params) (s : eqos_priv) :
    ((eqos_recv p s).1 = -EAGAIN ↔
        hw_owned p (s.rx_descs s.rx_desc_idx) = true ∧
          hw_owned p (s.rx_descs ((s.rx_desc_idx + 1) % p.EQOS_DESCRIPTORS_RX)) = true) ∧
      ((eqos_recv p s).1 = -EAGAIN →
        (eqos_recv p s).2.2.rx_desc_idx = s.rx_desc_idx ∧ (eqos_recv p s).2.1 = none) ∧
      (hw_owned p (s.rx_descs s.rx_desc_idx) = false →
        (eqos_recv p s).2.2.rx_desc_idx = s.rx_desc_idx ∧
          (eqos_recv p s).2.1 = some (s.rx_dma_buf + s.rx_desc_idx * p.EQOS_MAX_PACKET_SIZE) ∧
          (eqos_recv p s).1 = (((s.rx_descs s.rx_desc_idx).des3 &&& 0x7fff : Nat) : Int)) ∧
      (hw_owned p (s.rx_descs s.rx_desc_idx) = true →
        hw_owned p (s.rx_descs ((s.rx_desc_idx + 1) % p.EQOS_DESCRIPTORS_RX)) = false →
        (eqos_recv p s).2.2.rx_desc_idx = (s.rx_desc_idx + 1) % p.EQOS_DESCRIPTORS_RX ∧
          (eqos_recv p s).2.1 = some (s.rx_dma_buf +
            ((s.rx_desc_idx + 1) % p.EQOS_DESCRIPTORS_RX) * p.EQOS_MAX_PACKET_SIZE) ∧
          (eqos_recv p s).1 =
            (((s.rx_descs ((s.rx_desc_idx + 1) % p.EQOS_DESCRIPTORS_RX)).des3 &&& 0x7fff : Nat)
              : Int)) ∧
      (eqos_recv p s).2.2.rx_descs = s.rx_descs ∧
      (eqos_recv p s).2.2.tx_descs = s.tx_descs ∧
      (eqos_recv p s).2.2.tx_desc_idx = s.tx_desc_idx := by
  simp only [hw_owned_iff, hw_owned_false_iff]
  by_cases h1 : (s.rx_descs s.rx_desc_idx).des3 &&& p.EQOS_DESC3_OWN = 0
  · have e : eqos_recv p s = recv_packet p
        { s with trace := s.trace ++ [Ev.inval_rx_desc s.rx_desc_idx] } s.rx_desc_idx := by
      simp [eqos_recv, h1]
    rw [e]
    refine ⟨⟨fun h => absurd h (and_7fff_ne_eagain _), fun h => absurd h1 h.1⟩,
      fun h => absurd h (and_7fff_ne_eagain _), fun _ => ⟨rfl, rfl, rfl⟩,
      fun h => absurd h1 h, rfl, rfl, rfl⟩
  · by_cases h2 : (s.rx_descs ((s.rx_desc_idx + 1) % p.EQOS_DESCRIPTORS_RX)).des3 &&&
        p.EQOS_DESC3_OWN = 0
    · have e : eqos_recv p s = recv_packet p
          { s with
            trace := s.trace ++ [Ev.inval_rx_desc s.rx_desc_idx] ++
              [Ev.inval_rx_desc ((s.rx_desc_idx + 1) % p.EQOS_DESCRIPTORS_RX)]
            rx_desc_idx := (s.rx_desc_idx + 1) % p.EQOS_DESCRIPTORS_RX }
          ((s.rx_desc_idx + 1) % p.EQOS_DESCRIPTORS_RX) := by
        simp [eqos_recv, h1, h2]
      rw [e]
      refine ⟨⟨fun h => absurd h (and_7fff_ne_eagain _), fun h => absurd h2 h.2⟩,
        fun h => absurd h (and_7fff_ne_eagain _), fun h => absurd h h1,
        fun _ _ => ⟨rfl, rfl, rfl⟩, rfl, rfl, rfl⟩
    · have e : eqos_recv p s = (-EAGAIN, none,
          { s with
            trace := s.trace ++ [Ev.inval_rx_desc s.rx_desc_idx] ++
              [Ev.inval_rx_desc ((s.rx_desc_idx + 1) % p.EQOS_DESCRIPTORS_RX)] }) := by
        simp [eqos_recv, h1, h2]
      rw [e]
      refine ⟨⟨fun _ => ⟨h1, h2⟩, fun _ => rfl⟩, fun _ => ⟨rfl, rfl⟩, fun h => absurd h h1,
        fun _ h => absurd h h2, rfl, rfl, rfl⟩

/-- Witness for C19: on the ring eqos_start leaves every RX descriptor is
hardware-owned and eqos_recv returns -EAGAIN with the cursor kept. -/
theorem eqos_recv_lookahead_witness :
    (eqos_recv sample_params sample_state).2.2.rx_desc_idx = sample_state.rx_desc_idx ∧
      (eqos_recv sample_params sample_state).2.1 = none :=
  (eqos_recv_lookahead sample_params sample_state).2.1
    ((eqos_recv_lookahead sample_params sample_state).1.2 ⟨by decide, by decide⟩)

/-- C20: eqos_free_pkt returns -EINVAL exactly when packet is not the address
of the RX buffer at rx_desc_idx, and then the state is unchanged; otherwise
it returns 0, the descriptor at rx_desc_idx is hardware-owned with des0 the
low 32 bits of packet (packet itself for a 32-bit address), des1 = des2 = 0
and des3 = OWN|BUF1V, the RX tail pointer holds the low 32 bits of that
descriptor's address, rx_desc_idx is advanced by one modulo
EQOS_DESCRIPTORS_RX, and the other descriptors are unchanged. -/
theorem eqos_free_pkt_requeue (p : Params) (packet length : Nat) (s : eqos_priv)
    (hown : 0 < p.EQOS_DESC3_OWN) (h32 : p.EQOS_DESC3_OWN < 4294967296) :
    ((eqos_free_pkt p packet length s).1 = -EINVAL ↔
        packet ≠ s.rx_dma_buf + s.rx_desc_idx * p.EQOS_MAX_PACKET_SIZE) ∧
      (packet ≠ s.rx_dma_buf + s.rx_desc_idx * p.EQOS_MAX_PACKET_SIZE →
        (eqos_free_pkt p packet length s).2 = s) ∧
      (packet = s.rx_dma_buf + s.rx_desc_idx * p.EQOS_MAX_PACKET_SIZE →
        (eqos_free_pkt p packet length s).1 = 0 ∧
          hw_owned p ((eqos_free_pkt p packet length s).2.rx_descs s.rx_desc_idx) = true ∧
          (eqos_free_pkt p packet length s).2.rx_descs s.rx_desc_idx =
            { des0 := u32 packet, des1 := 0, des2 := 0,
              des3 := u32 (p.EQOS_DESC3_OWN ||| p.EQOS_DESC3_BUF1V) } ∧
          (packet < 4294967296 →
            ((eqos_free_pkt p packet length s).2.rx_descs s.rx_desc_idx).des0 = packet) ∧
          (p.EQOS_DESC3_BUF1V < 4294967296 →
            ((eqos_free_pkt p packet length s).2.rx_descs s.rx_desc_idx).des3 =
              p.EQOS_DESC3_OWN ||| p.EQOS_DESC3_BUF1V) ∧
          (eqos_free_pkt p packet length s).2.ch0_rxdesc_tail_pointer =
            u32 (s.rx_descs_addr + s.rx_desc_idx * sizeof_eqos_desc) ∧
          (s.rx_descs_addr + s.rx_desc_idx * sizeof_eqos_desc < 4294967296 →
            (eqos_free_pkt p packet length s).2.ch0_rxdesc_tail_pointer =
              s.rx_descs_addr + s.rx_desc_idx * sizeof_eqos_desc) ∧
          (eqos_free_pkt p packet length s).2.rx_desc_idx =
            (s.rx_desc_idx + 1) % p.EQOS_DESCRIPTORS_RX ∧
          (∀ j, j ≠ s.rx_desc_idx →
            (eqos_free_pkt p packet length s).2.rx_descs j = s.rx_descs j) ∧
          (eqos_free_pkt p packet length s).2.tx_descs = s.tx_descs ∧
          (eqos_free_pkt p packet length s).2.tx_desc_idx = s.tx_desc_idx) := by
  by_cases hp : packet = s.rx_dma_buf + s.rx_desc_idx * p.EQOS_MAX_PACKET_SIZE
  · have e : eqos_free_pkt p packet length s = (0, { s with
        rx_descs := set_desc s.rx_descs s.rx_desc_idx
          { des0 := u32 packet, des1 := 0, des2 := 0,
            des3 := u32 (p.EQOS_DESC3_OWN ||| p.EQOS_DESC3_BUF1V) }
        ch0_rxdesc_tail_pointer := u32 (s.rx_desc_addr s.rx_desc_idx)
        rx_desc_idx := (s.rx_desc_idx + 1) % p.EQOS_DESCRIPTORS_RX
        trace := (eqos_free_pkt p packet length s).2.trace }) := by
      simp [eqos_free_pkt, eqos_priv.rx_buf_addr, hp]
    rw [e]
    refine ⟨⟨fun h => absurd h (by decide : (0 : Int) ≠ -EINVAL), fun h => absurd hp h⟩,
      fun h => absurd hp h,
      fun _ => ⟨rfl, ?_, ?_, ?_, ?_, rfl, ?_, rfl, ?_, rfl, rfl⟩⟩
    · simp only [set_desc, if_true, hw_owned_iff]
      rw [own_and _ _ h32]
      omega
    · simp [set_desc]
    · intro hlt
      simp [set_desc, u32_of_lt _ hlt]
    · intro hlt
      have : p.EQOS_DESC3_OWN ||| p.EQOS_DESC3_BUF1V < 2 ^ 32 :=
        Nat.or_lt_two_pow (by norm_num; exact h32) (by norm_num; exact hlt)
      simp only [set_desc, if_true]
      exact u32_of_lt _ (by norm_num at this; exact this)
    · intro hlt
      exact u32_of_lt _ hlt
    · intro j hj
      simp [set_desc, hj]
  · have e : eqos_free_pkt p packet length s = (-EINVAL, s) := by
      simp [eqos_free_pkt, eqos_priv.rx_buf_addr, hp]
    rw [e]
    exact ⟨⟨fun _ => hp, fun _ => rfl⟩, fun _ => rfl, fun h => absurd h hp⟩

/-- Witness for C20 on the ring eqos_start leaves: the buffer of slot 0 is
handed back and the RX cursor moves to 1. -/
theorem eqos_free_pkt_requeue_witness :
    (eqos_free_pkt sample_params 0x90002000 64 sample_state).1 = 0 ∧
      (eqos_free_pkt sample_params 0x90002000 64 sample_state).2.rx_desc_idx = 1 :=
  ⟨((eqos_free_pkt_requeue sample_params 0x90002000 64 sample_state (by decide)
      (by decide)).2.2 (by decide)).1,
    ((eqos_free_pkt_requeue sample_params 0x90002000 64 sample_state (by decide)
      (by decide)).2.2 (by decide)).2.2.2.2.2.2.2.1⟩

/-! ## The order of the descriptor stores -/

theorem tx_poll_no_store (p : Params) (hw : Nat → Nat) (idx budget i : Nat) (tr : List Ev) :
    ∃ evs, (tx_poll p hw idx budget i tr).2 = tr ++ evs ∧ ∀ e ∈ evs, Ev.is_store e = false := by
  induction budget generalizing i tr with
  | zero => exact ⟨[], by simp [tx_poll], by simp⟩
  | succ b ih =>
    by_cases h0 : hw i &&& p.EQOS_DESC3_OWN = 0
    · refine ⟨[Ev.inval_tx_desc idx, Ev.readl_tx_des3 idx (hw i)], by simp [tx_poll, h0], ?_⟩
      intro e he
      simp only [List.mem_cons, List.mem_singleton, List.mem_nil_iff, or_false] at he
      rcases he with rfl | rfl <;> rfl
    · obtain ⟨evs, h1, h2⟩ := ih (i + 1)
        (tr ++ [Ev.inval_tx_desc idx, Ev.readl_tx_des3 idx (hw i), Ev.udelay 1])
      refine ⟨[Ev.inval_tx_desc idx, Ev.readl_tx_des3 idx (hw i), Ev.udelay 1] ++ evs,
        by simp only [tx_poll, h0, if_false, h1, List.append_assoc], ?_⟩
      intro e he
      simp only [List.mem_append, List.mem_cons, List.mem_singleton, List.mem_nil_iff,
        or_false] at he
      rcases he with (rfl | rfl | rfl) | he
      · rfl
      · rfl
      · rfl
      · exact h2 e he

theorem eqos_send_stores (p : Params) (hw : Nat → Nat) (packet : List Nat) (s : eqos_priv) :
    ∃ post, (∀ e ∈ post, Ev.is_store e = false) ∧
      (eqos_send p hw packet s).2.trace = s.trace ++
        [Ev.memcpy_tx packet.length, Ev.flush_buffer s.tx_dma_buf packet.length,
          Ev.store_tx s.tx_desc_idx 0 (u32 s.tx_dma_buf), Ev.store_tx s.tx_desc_idx 1 0,
          Ev.store_tx s.tx_desc_idx 2 (u32 packet.length), Ev.mb,
          Ev.store_tx s.tx_desc_idx 3
            (u32 (p.EQOS_DESC3_OWN ||| p.EQOS_DESC3_FD ||| p.EQOS_DESC3_LD |||
              packet.length))] ++ post := by
  obtain ⟨evs, h1, h2⟩ := tx_poll_no_store p hw s.tx_desc_idx 1000000 0
    (s.trace ++ [Ev.memcpy_tx packet.length, Ev.flush_buffer s.tx_dma_buf packet.length,
      Ev.store_tx s.tx_desc_idx 0 (u32 s.tx_dma_buf), Ev.store_tx s.tx_desc_idx 1 0,
      Ev.store_tx s.tx_desc_idx 2 (u32 packet.length), Ev.mb,
      Ev.store_tx s.tx_desc_idx 3
        (u32 (p.EQOS_DESC3_OWN ||| p.EQOS_DESC3_FD ||| p.EQOS_DESC3_LD ||| packet.length)),
      Ev.flush_tx_desc s.tx_desc_idx,
      Ev.writel_txdesc_tail_pointer
        (u32 (s.tx_desc_addr ((s.tx_desc_idx + 1) % p.EQOS_DESCRIPTORS_TX)))])
  unfold eqos_send
  simp only
  cases hk : (tx_poll p hw s.tx_desc_idx 1000000 0
    (s.trace ++ [Ev.memcpy_tx packet.length, Ev.flush_buffer s.tx_dma_buf packet.length,
      Ev.store_tx s.tx_desc_idx 0 (u32 s.tx_dma_buf), Ev.store_tx s.tx_desc_idx 1 0,
      Ev.store_tx s.tx_desc_idx 2 (u32 packet.length), Ev.mb,
      Ev.store_tx s.tx_desc_idx 3
        (u32 (p.EQOS_DESC3_OWN ||| p.EQOS_DESC3_FD ||| p.EQOS_DESC3_LD ||| packet.length)),
      Ev.flush_tx_desc s.tx_desc_idx,
      Ev.writel_txdesc_tail_pointer
        (u32 (s.tx_desc_addr ((s.tx_desc_idx + 1) % p.EQOS_DESCRIPTORS_TX)))])).1 with
  | some k =>
    refine ⟨[Ev.flush_tx_desc s.tx_desc_idx, Ev.writel_txdesc_tail_pointer
      (u32 (s.tx_desc_addr ((s.tx_desc_idx + 1) % p.EQOS_DESCRIPTORS_TX)))] ++ evs, ?_, ?_⟩
    · intro e he
      simp only [List.mem_append, List.mem_cons, List.mem_singleton, List.mem_nil_iff,
        or_false] at he
      rcases he with (rfl | rfl) | he
      · rfl
      · rfl
      · exact h2 e he
    · show (tx_poll _ _ _ _ _ _).2 = _
      rw [h1]
      simp
  | none =>
    refine ⟨[Ev.flush_tx_desc s.tx_desc_idx, Ev.writel_txdesc_tail_pointer
      (u32 (s.tx_desc_addr ((s.tx_desc_idx + 1) % p.EQOS_DESCRIPTORS_TX)))] ++ evs ++
      [Ev.printf_tx_timeout], ?_, ?_⟩
    · intro e he
      simp only [List.mem_append, List.mem_cons, List.mem_singleton, List.mem_nil_iff,
        or_false] at he
      rcases he with ((rfl | rfl) | he) | rfl
      · rfl
      · rfl
      · exact h2 e he
      · rfl
    · show (tx_poll _ _ _ _ _ _).2 ++ _ = _
      rw [h1]
      simp

theorem foldl_apply_tx_no_store (idx : Nat) (d : eqos_desc) (l : List Ev)
    (h : ∀ e ∈ l, Ev.is_store e = false) : List.foldl (apply_tx idx) d l = d := by
  induction l generalizing d with
  | nil => rfl
  | cons e rest ih =>
    have he := h e (List.mem_cons_self _ _)
    have hd : apply_tx idx d e = d := by
      cases e <;> first | rfl | simp [Ev.is_store] at he
    rw [List.foldl_cons, hd]
    exact ih d (fun e1 h1 => h e1 (List.mem_cons_of_mem _ h1))

theorem foldl_apply_rx_no_store (idx : Nat) (d : eqos_desc) (l : List Ev)
    (h : ∀ e ∈ l, Ev.is_store e = false) : List.foldl (apply_rx idx) d l = d := by
  induction l generalizing d with
  | nil => rfl
  | cons e rest ih =>
    have he := h e (List.mem_cons_self _ _)
    have hd : apply_rx idx d e = d := by
      cases e <;> first | rfl | simp [Ev.is_store] at he
    rw [List.foldl_cons, hd]
    exact ih d (fun e1 h1 => h e1 (List.mem_cons_of_mem _ h1))

theorem mem_take_no_store (l : List Ev) (k : Nat) (h : ∀ e ∈ l, Ev.is_store e = false) :
    ∀ e ∈ l.take k, Ev.is_store e = false :=
  fun e he => h e (List.mem_of_mem_take he)

theorem send_stores_replay (p : Params) (idx a b c : Nat) (post : List Ev)
    (hpost : ∀ e ∈ post, Ev.is_store e = false) (m1 m2 : Ev)
    (hm1 : Ev.is_store m1 = false) (hm2 : Ev.is_store m2 = false)
    (d0 : eqos_desc) (h0 : hw_owned p d0 = false) (k : Nat)
    (hk : hw_owned p (List.foldl (apply_tx idx) d0
      (List.take k ([m1, m2, Ev.store_tx idx 0 a, Ev.store_tx idx 1 0, Ev.store_tx idx 2 b,
        Ev.mb, Ev.store_tx idx 3 c] ++ post))) = true) :
    List.foldl (apply_tx idx) d0
      (List.take k ([m1, m2, Ev.store_tx idx 0 a, Ev.store_tx idx 1 0, Ev.store_tx idx 2 b,
        Ev.mb, Ev.store_tx idx 3 c] ++ post)) =
      { des0 := a, des1 := 0, des2 := b, des3 := c } := by
  have hm1a : ∀ d, apply_tx idx d m1 = d := fun d => by
    cases m1 <;> first | rfl | simp [Ev.is_store] at hm1
  have hm2a : ∀ d, apply_tx idx d m2 = d := fun d => by
    cases m2 <;> first | rfl | simp [Ev.is_store] at hm2
  by_cases hlt : k < 7
  · exfalso
    rw [List.take_append_of_le_length (by simp; omega)] at hk
    have hd3 : (List.foldl (apply_tx idx) d0
        (List.take k [m1, m2, Ev.store_tx idx 0 a, Ev.store_tx idx 1 0, Ev.store_tx idx 2 b,
          Ev.mb, Ev.store_tx idx 3 c])).des3 = d0.des3 := by
      interval_cases k <;> simp only [List.take, List.foldl, hm1a, hm2a] <;>
        simp [apply_tx, store_word]
    simp only [hw_owned, hd3] at hk h0
    rw [h0] at hk
    exact absurd hk (by decide)
  · rw [List.take_append_eq_append_take, List.take_of_length_le (by simp; omega),
      List.foldl_append,
      foldl_apply_tx_no_store idx _ _ (mem_take_no_store post _ hpost)]
    simp only [List.foldl, hm1a, hm2a]
    simp [apply_tx, store_word]

theorem free_pkt_stores_replay (p : Params) (idx a c pk len w : Nat)
    (d0 : eqos_desc) (h0 : hw_owned p d0 = false) (k : Nat)
    (hk : hw_owned p (List.foldl (apply_rx idx) d0
      (List.take k [Ev.store_rx idx 0 0, Ev.mb, Ev.flush_rx_desc idx, Ev.inval_buffer pk len,
        Ev.store_rx idx 0 a, Ev.store_rx idx 1 0, Ev.store_rx idx 2 0, Ev.mb,
        Ev.store_rx idx 3 c, Ev.flush_rx_desc idx, Ev.writel_rxdesc_tail_pointer w])) = true) :
    List.foldl (apply_rx idx) d0
      (List.take k [Ev.store_rx idx 0 0, Ev.mb, Ev.flush_rx_desc idx, Ev.inval_buffer pk len,
        Ev.store_rx idx 0 a, Ev.store_rx idx 1 0, Ev.store_rx idx 2 0, Ev.mb,
        Ev.store_rx idx 3 c, Ev.flush_rx_desc idx, Ev.writel_rxdesc_tail_pointer w]) =
      { des0 := a, des1 := 0, des2 := 0, des3 := c } := by
  by_cases hlt : k < 9
  · exfalso
    have hd3 : (List.foldl (apply_rx idx) d0
        (List.take k [Ev.store_rx idx 0 0, Ev.mb, Ev.flush_rx_desc idx, Ev.inval_buffer pk len,
          Ev.store_rx idx 0 a, Ev.store_rx idx 1 0, Ev.store_rx idx 2 0, Ev.mb,
          Ev.store_rx idx 3 c, Ev.flush_rx_desc idx,
          Ev.writel_rxdesc_tail_pointer w])).des3 = d0.des3 := by
      interval_cases k <;> simp [List.take, apply_rx, store_word]
    simp only [hw_owned, hd3] at hk h0
    rw [h0] at hk
    exact absurd hk (by decide)
  · by_cases hlt2 : k < 12
    · interval_cases k <;> simp [List.take, apply_rx, store_word]
    · rw [List.take_of_length_le (by simp; omega)]
      simp [apply_rx, store_word]

/-- Claim C28: in the trace of eqos_send the stores into the descriptor are, in
this order, des0 (buffer address), des1 (zero), des2 (length), then after
the barrier des3 with OWN, and no store follows; in the trace of an accepted
eqos_free_pkt they are des0 = 0, des0 (buffer address), des1, des2 (zero),
then after the barrier des3 with OWN, and no store follows.  Hence, on a
descriptor that is not hardware-owned when the call begins, after every
prefix of the trace in which OWN is set in the descriptor memory the other
three words hold their final values. -/
theorem own_stored_last (p : Params) (hw : Nat → Nat) (packet : List Nat) (s : eqos_priv)
    (pk len : Nat) :
    (∃ post, (∀ e ∈ post, Ev.is_store e = false) ∧
      (eqos_send p hw packet s).2.trace = s.trace ++
        [Ev.memcpy_tx packet.length, Ev.flush_buffer s.tx_dma_buf packet.length,
          Ev.store_tx s.tx_desc_idx 0 (u32 s.tx_dma_buf), Ev.store_tx s.tx_desc_idx 1 0,
          Ev.store_tx s.tx_desc_idx 2 (u32 packet.length), Ev.mb,
          Ev.store_tx s.tx_desc_idx 3
            (u32 (p.EQOS_DESC3_OWN ||| p.EQOS_DESC3_FD ||| p.EQOS_DESC3_LD |||
              packet.length))] ++ post) ∧
    (∀ (d0 : eqos_desc) (k : Nat), hw_owned p d0 = false →
      hw_owned p (List.foldl (apply_tx s.tx_desc_idx) d0
        (List.take k (List.drop s.trace.length (eqos_send p hw packet s).2.trace))) = true →
      List.foldl (apply_tx s.tx_desc_idx) d0
        (List.take k (List.drop s.trace.length (eqos_send p hw packet s).2.trace)) =
        { des0 := u32 s.tx_dma_buf, des1 := 0, des2 := u32 packet.length,
          des3 := u32 (p.EQOS_DESC3_OWN ||| p.EQOS_DESC3_FD ||| p.EQOS_DESC3_LD |||
            packet.length) }) ∧
    (pk = s.rx_buf_addr p s.rx_desc_idx →
      (eqos_free_pkt p pk len s).2.trace = s.trace ++
        [Ev.store_rx s.rx_desc_idx 0 0, Ev.mb, Ev.flush_rx_desc s.rx_desc_idx,
          Ev.inval_buffer pk len, Ev.store_rx s.rx_desc_idx 0 (u32 pk),
          Ev.store_rx s.rx_desc_idx 1 0, Ev.store_rx s.rx_desc_idx 2 0, Ev.mb,
          Ev.store_rx s.rx_desc_idx 3 (u32 (p.EQOS_DESC3_OWN ||| p.EQOS_DESC3_BUF1V)),
          Ev.flush_rx_desc s.rx_desc_idx,
          Ev.writel_rxdesc_tail_pointer (u32 (s.rx_desc_addr s.rx_desc_idx))] ∧
      ∀ (d0 : eqos_desc) (k : Nat), hw_owned p d0 = false →
        hw_owned p (List.foldl (apply_rx s.rx_desc_idx) d0
          (List.take k (List.drop s.trace.length (eqos_free_pkt p pk len s).2.trace))) = true →
        List.foldl (apply_rx s.rx_desc_idx) d0
          (List.take k (List.drop s.trace.length (eqos_free_pkt p pk len s).2.trace)) =
          { des0 := u32 pk, des1 := 0, des2 := 0,
            des3 := u32 (p.EQOS_DESC3_OWN ||| p.EQOS_DESC3_BUF1V) }) ∧
    (pk ≠ s.rx_buf_addr p s.rx_desc_idx → (eqos_free_pkt p pk len s).2.trace = s.trace) := by
  obtain ⟨post, hpost, htr⟩ := eqos_send_stores p hw packet s
  refine ⟨⟨post, hpost, htr⟩, ?_, ?_, ?_⟩
  · intro d0 k h0 hk
    rw [htr, List.append_assoc, List.drop_left] at hk ⊢
    exact send_stores_replay p s.tx_desc_idx _ _ _ post hpost (Ev.memcpy_tx packet.length)
      (Ev.flush_buffer s.tx_dma_buf packet.length) rfl rfl d0 h0 k hk
  · intro hp
    have htr2 : (eqos_free_pkt p pk len s).2.trace = s.trace ++
        [Ev.store_rx s.rx_desc_idx 0 0, Ev.mb, Ev.flush_rx_desc s.rx_desc_idx,
          Ev.inval_buffer pk len, Ev.store_rx s.rx_desc_idx 0 (u32 pk),
          Ev.store_rx s.rx_desc_idx 1 0, Ev.store_rx s.rx_desc_idx 2 0, Ev.mb,
          Ev.store_rx s.rx_desc_idx 3 (u32 (p.EQOS_DESC3_OWN ||| p.EQOS_DESC3_BUF1V)),
          Ev.flush_rx_desc s.rx_desc_idx,
          Ev.writel_rxdesc_tail_pointer (u32 (s.rx_desc_addr s.rx_desc_idx))] := by
      unfold eqos_free_pkt
      rw [if_neg (by simp [hp])]
    refine ⟨htr2, ?_⟩
    intro d0 k h0 hk
    rw [htr2, List.drop_left] at hk ⊢
    exact free_pkt_stores_replay p s.rx_desc_idx _ _ pk len _ d0 h0 k hk
  · intro hp
    unfold eqos_free_pkt
    rw [if_pos hp]

/-- The store order on the ring eqos_start leaves: the RX descriptor 0 is
handed back; with the first nine events applied to a descriptor whose OWN bit
is clear the descriptor is complete, des3 being OWN|BUF1V. -/
theorem own_stored_last_witness :
    List.foldl (apply_rx sample_state.rx_desc_idx)
      { des0 := 0x90002000, des1 := 0, des2 := 0, des3 := 64 }
      (List.take 9 (List.drop sample_state.trace.length
        (eqos_free_pkt sample_params 0x90002000 64 sample_state).2.trace)) =
      { des0 := u32 0x90002000, des1 := 0, des2 := 0,
        des3 := u32 (sample_params.EQOS_DESC3_OWN ||| sample_params.EQOS_DESC3_BUF1V) } :=
  ((own_stored_last sample_params (fun _ => 0) [] sample_state 0x90002000 64).2.2.1
    (by decide)).2 { des0 := 0x90002000, des1 := 0, des2 := 0, des3 := 64 } 9 (by decide)
    (by decide)

/-! ## eqos_start: the paths through it -/

theorem start_unwind_state (label : Label) (ret : Int) (s : eqos_dev) :
    (start_unwind label ret s).1 = ret ∧
    (start_unwind label ret s).2.ring = s.ring ∧
    (start_unwind label ret s).2.started = s.started ∧
    (start_unwind label ret s).2.reg_access_ok = s.reg_access_ok ∧
    (start_unwind label ret s).2.phy = s.phy :=
  ⟨rfl, rfl, rfl, rfl, rfl⟩

theorem eqos_write_hwaddr_state (cfg : eqos_config) (enetaddr : List Nat) (s : eqos_dev) :
    (eqos_write_hwaddr cfg enetaddr s).1 = 0 ∧
    (eqos_write_hwaddr cfg enetaddr s).2.ring = s.ring ∧
    (eqos_write_hwaddr cfg enetaddr s).2.started = s.started ∧
    (eqos_write_hwaddr cfg enetaddr s).2.reg_access_ok = s.reg_access_ok ∧
    (eqos_write_hwaddr cfg enetaddr s).2.phy = s.phy := by
  unfold eqos_write_hwaddr
  split <;> exact ⟨rfl, rfl, rfl, rfl, rfl⟩

theorem start_hw_state (p : Params) (b : RegBits) (cfg : eqos_config) (pl : Platform)
    (s : eqos_dev) :
    (start_hw p b cfg pl s).started = true ∧
    (start_hw p b cfg pl s).ring = setup_descriptors p s.ring ∧
    (start_hw p b cfg pl s).reg_access_ok = s.reg_access_ok ∧
    (start_hw p b cfg pl s).phy = s.phy := by
  unfold start_hw
  have h := eqos_write_hwaddr_state cfg pl.enetaddr
    (s.did (configure_mtl b cfg pl ++ configure_mac b cfg))
  refine ⟨rfl, ?_, ?_, ?_⟩
  · show setup_descriptors p (eqos_write_hwaddr cfg pl.enetaddr _).2.ring = _
    rw [h.2.1]; rfl
  · show (eqos_write_hwaddr cfg pl.enetaddr _).2.reg_access_ok = _
    rw [h.2.2.2.1]; rfl
  · show (eqos_write_hwaddr cfg pl.enetaddr _).2.phy = _
    rw [h.2.2.2.2]; rfl

/-- The two ways start_link ends: at the end of eqos_start, or at the label
err_shutdown_phy. -/
theorem start_link_outcome (p : Params) (b : RegBits) (cfg : eqos_config) (pl : Platform)
    (phy : phy_device) (s : eqos_dev) :
    (∃ s2, start_link p b cfg pl phy s = (0, start_hw p b cfg pl s2) ∧ s2.ring = s.ring ∧
        s2.reg_access_ok = s.reg_access_ok) ∨
    (∃ ret s2, start_link p b cfg pl phy s = start_unwind .err_shutdown_phy ret s2 ∧
        s2.ring = s.ring ∧ s2.started = s.started ∧ s2.reg_access_ok = s.reg_access_ok) := by
  unfold start_link
  simp only
  split
  · exact Or.inr ⟨_, _, rfl, rfl, rfl, rfl⟩
  · split
    · exact Or.inr ⟨_, _, rfl, rfl, rfl, rfl⟩
    · split
      · exact Or.inr ⟨_, _, rfl, rfl, rfl, rfl⟩
      · exact Or.inl ⟨_, rfl, rfl, rfl⟩

theorem start_phy_outcome (p : Params) (b : RegBits) (cfg : eqos_config) (pl : Platform)
    (ret : Int) (s : eqos_dev) :
    (∃ s2, start_phy p b cfg pl ret s = (0, start_hw p b cfg pl s2) ∧ s2.ring = s.ring ∧
        s2.reg_access_ok = s.reg_access_ok) ∨
    (∃ label r s2, start_phy p b cfg pl ret s = start_unwind label r s2 ∧
        s2.ring = s.ring ∧ s2.started = s.started ∧ s2.reg_access_ok = s.reg_access_ok) := by
  unfold start_phy
  split
  · rename_i phy _
    rcases start_link_outcome p b cfg pl phy s with ⟨s2, h1, h2, h3⟩ | ⟨r, s2, h1, h2, h3, h4⟩
    · exact Or.inl ⟨s2, h1, h2, h3⟩
    · exact Or.inr ⟨_, r, s2, h1, h2, h3, h4⟩
  · split
    · exact Or.inr ⟨_, _, _, rfl, rfl, rfl, rfl⟩
    · rename_i phy _
      simp only
      split
      · exact Or.inr ⟨_, _, _, rfl, rfl, rfl, rfl⟩
      · split
        · refine Or.inr ⟨_, _, _, rfl, ?_, ?_, ?_⟩ <;> (split <;> rfl)
        · rcases start_link_outcome p b cfg pl phy
            ((if s.max_speed ≠ 0 then
                ({ s.did [Op.phy_connect true] with phy := some phy } : eqos_dev).did
                  [Op.phy_set_supported s.max_speed pl.phy_set_supported]
              else { s.did [Op.phy_connect true] with phy := some phy }).did
              [Op.phy_config pl.phy_config])
            with ⟨s2, h1, h2, h3⟩ | ⟨r, s2, h1, h2, h3, h4⟩
          · refine Or.inl ⟨s2, h1, h2.trans ?_, h3.trans ?_⟩ <;> (split <;> rfl)
          · refine Or.inr ⟨_, r, s2, h1, h2.trans ?_, h3.trans ?_, h4.trans ?_⟩ <;>
              (split <;> rfl)

/-- The two ways eqos_start ends: at its end, with the state start_hw leaves,
or at one of the labels; on both the cursors have been set to 0 and the
rest of the ring part is as before the call up to there. -/
theorem eqos_start_outcome (p : Params) (b : RegBits) (cfg : eqos_config) (pl : Platform)
    (s : eqos_dev) :
    (∃ s2, eqos_start p b cfg pl s = (0, start_hw p b cfg pl s2) ∧
        s2.ring = { s.ring with tx_desc_idx := 0, rx_desc_idx := 0 } ∧
        s2.reg_access_ok = true) ∨
    (∃ label r s2, eqos_start p b cfg pl s = start_unwind label r s2 ∧
        s2.ring = { s.ring with tx_desc_idx := 0, rx_desc_idx := 0 } ∧
        s2.started = s.started) := by
  unfold eqos_start
  simp only
  split
  · exact Or.inr ⟨_, _, _, rfl, rfl, rfl⟩
  · split
    · exact Or.inr ⟨_, _, _, rfl, rfl, rfl⟩
    · split
      · exact Or.inr ⟨_, _, _, rfl, rfl, rfl⟩
      · split
        · exact Or.inr ⟨_, _, _, rfl, rfl, rfl⟩
        · rcases start_phy_outcome p b cfg pl pl.eqos_calibrate_pads _ with
            ⟨s2, h1, h2, h3⟩ | ⟨l, r, s2, h1, h2, h3, _⟩
          · exact Or.inl ⟨s2, h1, h2, h3⟩
          · exact Or.inr ⟨l, r, s2, h1, h2, h3⟩

theorem eqos_start_cursors (p : Params) (b : RegBits) (cfg : eqos_config) (pl : Platform)
    (s : eqos_dev) :
    (eqos_start p b cfg pl s).2.ring.tx_desc_idx = 0 ∧
    (eqos_start p b cfg pl s).2.ring.rx_desc_idx = 0 := by
  rcases eqos_start_outcome p b cfg pl s with ⟨s2, h1, h2, _⟩ | ⟨l, r, s2, h1, h2, _⟩
  · rw [h1]
    simp only [(start_hw_state p b cfg pl s2).2.1, h2]
    exact ⟨rfl, rfl⟩
  · rw [h1, (start_unwind_state l r s2).2.1, h2]
    exact ⟨rfl, rfl⟩

theorem adjust_link_clocks_ret (pl : Platform) (en : Bool) (ops : List Op) :
    (adjust_link_clocks pl en ops).1 = (adjust_link_clocks pl en []).1 := by
  unfold adjust_link_clocks
  cases en <;> simp only <;> split_ifs <;> rfl

theorem eqos_adjust_link_ret (b : RegBits) (pl : Platform) (phy : phy_device) (ops : List Op) :
    (eqos_adjust_link b pl phy ops).1 = (eqos_adjust_link b pl phy []).1 := by
  unfold eqos_adjust_link
  simp only
  split
  · rw [adjust_link_clocks_ret, adjust_link_clocks_ret pl true ([] ++ _ ++ _)]
  · split
    · rw [adjust_link_clocks_ret, adjust_link_clocks_ret pl true ([] ++ _ ++ _)]
    · split
      · rw [adjust_link_clocks_ret, adjust_link_clocks_ret pl false ([] ++ _ ++ _)]
      · rfl

theorem start_link_ok (p : Params) (b : RegBits) (cfg : eqos_config) (pl : Platform)
    (phy : phy_device) (s : eqos_dev) (h : link_steps_ok b pl phy = true) :
    ∃ s2, start_link p b cfg pl phy s = (0, start_hw p b cfg pl s2) ∧ s2.ring = s.ring ∧
      s2.reg_access_ok = s.reg_access_ok := by
  simp only [link_steps_ok, Bool.and_eq_true, decide_eq_true_eq, bne_iff_ne, ne_eq] at h
  obtain ⟨⟨h1, h2⟩, h3⟩ := h
  unfold start_link
  simp only
  rw [if_neg (by omega), if_neg h2, eqos_adjust_link_ret, if_neg (by omega)]
  exact ⟨_, rfl, rfl, rfl⟩

theorem start_phy_ok (p : Params) (b : RegBits) (cfg : eqos_config) (pl : Platform)
    (ret : Int) (s : eqos_dev)
    (h : (match s.phy with
      | some phy => link_steps_ok b pl phy
      | none =>
        match pl.phy_connect with
        | none => false
        | some phy =>
          (s.max_speed == 0 || pl.phy_set_supported == 0) && decide (0 ≤ pl.phy_config) &&
            link_steps_ok b pl phy) = true) :
    ∃ s2, start_phy p b cfg pl ret s = (0, start_hw p b cfg pl s2) ∧ s2.ring = s.ring ∧
      s2.reg_access_ok = s.reg_access_ok := by
  unfold start_phy
  cases hphy : s.phy with
  | some phy =>
    rw [hphy] at h
    exact start_link_ok p b cfg pl phy s h
  | none =>
    rw [hphy] at h
    cases hc : pl.phy_connect with
    | none => rw [hc] at h; simp at h
    | some phy =>
      rw [hc] at h
      simp only [Bool.and_eq_true, Bool.or_eq_true, beq_iff_eq, decide_eq_true_eq] at h
      obtain ⟨⟨h1, h2⟩, h3⟩ := h
      simp only
      rw [if_neg (by intro hh; rcases h1 with h1 | h1 <;> simp [h1] at hh), if_neg (by omega)]
      obtain ⟨s2, e1, e2, e3⟩ := start_link_ok p b cfg pl phy
        ((if s.max_speed ≠ 0 then
            ({ s.did [Op.phy_connect true] with phy := some phy } : eqos_dev).did
              [Op.phy_set_supported s.max_speed pl.phy_set_supported]
          else { s.did [Op.phy_connect true] with phy := some phy }).did
          [Op.phy_config pl.phy_config]) h3
      refine ⟨s2, e1, e2.trans ?_, e3.trans ?_⟩ <;> (split <;> rfl)

theorem eqos_start_ok (p : Params) (b : RegBits) (cfg : eqos_config) (pl : Platform)
    (s : eqos_dev) (h : start_steps_ok b pl s = true) :
    ∃ s2, eqos_start p b cfg pl s = (0, start_hw p b cfg pl s2) ∧
      s2.ring = { s.ring with tx_desc_idx := 0, rx_desc_idx := 0 } ∧
      s2.reg_access_ok = true := by
  unfold start_steps_ok at h
  simp only [Bool.and_eq_true, decide_eq_true_eq] at h
  obtain ⟨⟨⟨⟨h1, h2⟩, h3⟩, h4⟩, h5⟩ := h
  unfold eqos_start
  simp only
  rw [if_neg (by omega), if_neg (by omega), if_neg (by simp [h3]), if_neg (by omega)]
  exact start_phy_ok p b cfg pl _ _ h5

/-- Claim C21: after an eqos_start in which every step succeeds the result is
0, started and reg_access_ok are true, both cursors are 0, every TX
descriptor is all-zero, every RX descriptor i below EQOS_DESCRIPTORS_RX is
hardware-owned with des0 the (32-bit) address of RX buffer slot i, des1 =
des2 = 0 and des3 = OWN|BUF1V, and the RX tail pointer holds the (32-bit)
address of the last RX descriptor; an eqos_recv on this ring returns
-EAGAIN and stores no pointer. -/
theorem eqos_start_ring (p : Params) (b : RegBits) (cfg : eqos_config) (pl : Platform)
    (s : eqos_dev) (hown : 0 < p.EQOS_DESC3_OWN) (h32 : p.EQOS_DESC3_OWN < 4294967296)
    (hrx : 0 < p.EQOS_DESCRIPTORS_RX) (hok : start_steps_ok b pl s = true) :
    (eqos_start p b cfg pl s).1 = 0 ∧
    (eqos_start p b cfg pl s).2.started = true ∧
    (eqos_start p b cfg pl s).2.reg_access_ok = true ∧
    (eqos_start p b cfg pl s).2.ring.tx_desc_idx = 0 ∧
    (eqos_start p b cfg pl s).2.ring.rx_desc_idx = 0 ∧
    (∀ j, j < p.EQOS_DESCRIPTORS_TX → (eqos_start p b cfg pl s).2.ring.tx_descs j =
      { des0 := 0, des1 := 0, des2 := 0, des3 := 0 }) ∧
    (∀ i, i < p.EQOS_DESCRIPTORS_RX →
      (eqos_start p b cfg pl s).2.ring.rx_descs i =
        { des0 := u32 (s.ring.rx_dma_buf + i * p.EQOS_MAX_PACKET_SIZE), des1 := 0, des2 := 0,
          des3 := u32 (p.EQOS_DESC3_OWN ||| p.EQOS_DESC3_BUF1V) } ∧
      hw_owned p ((eqos_start p b cfg pl s).2.ring.rx_descs i) = true ∧
      (s.ring.rx_dma_buf + i * p.EQOS_MAX_PACKET_SIZE < 4294967296 →
        ((eqos_start p b cfg pl s).2.ring.rx_descs i).des0 =
          s.ring.rx_dma_buf + i * p.EQOS_MAX_PACKET_SIZE) ∧
      (p.EQOS_DESC3_BUF1V < 4294967296 →
        ((eqos_start p b cfg pl s).2.ring.rx_descs i).des3 =
          p.EQOS_DESC3_OWN ||| p.EQOS_DESC3_BUF1V)) ∧
    (eqos_start p b cfg pl s).2.ring.ch0_rxdesc_tail_pointer =
      u32 (s.ring.rx_descs_addr + (p.EQOS_DESCRIPTORS_RX - 1) * sizeof_eqos_desc) ∧
    (s.ring.rx_descs_addr + (p.EQOS_DESCRIPTORS_RX - 1) * sizeof_eqos_desc < 4294967296 →
      (eqos_start p b cfg pl s).2.ring.ch0_rxdesc_tail_pointer =
        s.ring.rx_descs_addr + (p.EQOS_DESCRIPTORS_RX - 1) * sizeof_eqos_desc) ∧
    (eqos_recv p (eqos_start p b cfg pl s).2.ring).1 = -EAGAIN ∧
    (eqos_recv p (eqos_start p b cfg pl s).2.ring).2.1 = none := by
  obtain ⟨s2, h1, h2, h3⟩ := eqos_start_ok p b cfg pl s hok
  have hst := start_hw_state p b cfg pl s2
  have hring : (eqos_start p b cfg pl s).2.ring =
      setup_descriptors p { s.ring with tx_desc_idx := 0, rx_desc_idx := 0 } := by
    rw [h1]; show (start_hw p b cfg pl s2).ring = _; rw [hst.2.1, h2]
  have hdesc : ∀ i, i < p.EQOS_DESCRIPTORS_RX →
      (eqos_start p b cfg pl s).2.ring.rx_descs i =
        { des0 := u32 (s.ring.rx_dma_buf + i * p.EQOS_MAX_PACKET_SIZE), des1 := 0, des2 := 0,
          des3 := u32 (p.EQOS_DESC3_OWN ||| p.EQOS_DESC3_BUF1V) } := by
    intro i hi
    rw [hring]
    simp [setup_descriptors, hi, eqos_priv.rx_buf_addr]
  have howned : ∀ i, i < p.EQOS_DESCRIPTORS_RX →
      ((eqos_start p b cfg pl s).2.ring.rx_descs i).des3 &&& p.EQOS_DESC3_OWN ≠ 0 := by
    intro i hi
    rw [hdesc i hi]
    show u32 (p.EQOS_DESC3_OWN ||| p.EQOS_DESC3_BUF1V) &&& p.EQOS_DESC3_OWN ≠ 0
    rw [own_and _ _ h32]
    omega
  have hc0 : (eqos_start p b cfg pl s).2.ring.rx_desc_idx = 0 := by rw [hring]; rfl
  have hn : (0 + 1) % p.EQOS_DESCRIPTORS_RX < p.EQOS_DESCRIPTORS_RX := Nat.mod_lt _ hrx
  have hrecv : eqos_recv p (eqos_start p b cfg pl s).2.ring = (-EAGAIN, none,
      { (eqos_start p b cfg pl s).2.ring with
        trace := (eqos_start p b cfg pl s).2.ring.trace ++
          [Ev.inval_rx_desc (eqos_start p b cfg pl s).2.ring.rx_desc_idx] ++
          [Ev.inval_rx_desc (((eqos_start p b cfg pl s).2.ring.rx_desc_idx + 1) %
            p.EQOS_DESCRIPTORS_RX)] }) := by
    unfold eqos_recv
    simp only
    rw [if_pos (by rw [hc0]; exact howned 0 hrx), if_pos (by rw [hc0]; exact howned _ hn)]
  refine ⟨by rw [h1], by rw [h1]; exact hst.1, by rw [h1]; exact hst.2.2.1.trans h3,
    by rw [hring]; rfl, hc0, ?_, ?_, by rw [hring]; rfl, ?_, by rw [hrecv], by rw [hrecv]⟩
  · intro j hj
    rw [hring]
    simp [setup_descriptors, hj]
  · intro i hi
    refine ⟨hdesc i hi, ?_, ?_, ?_⟩
    · rw [hw_owned_iff]; exact howned i hi
    · intro hlt
      rw [hdesc i hi]
      exact u32_of_lt _ hlt
    · intro hlt
      rw [hdesc i hi]
      have : p.EQOS_DESC3_OWN ||| p.EQOS_DESC3_BUF1V < 2 ^ 32 :=
        Nat.or_lt_two_pow (by norm_num; exact h32) (by norm_num; exact hlt)
      exact u32_of_lt _ (by norm_num at this; exact this)
  · intro hlt
    rw [hring]
    exact u32_of_lt _ hlt

/-- The start theorem on the device stopped_dev and the platform
sample_platform, on which every step succeeds: the result is 0, descriptor 3
of the RX ring holds the address of buffer slot 3 and OWN|BUF1V, the tail
pointer holds the address of RX descriptor 3. -/
theorem eqos_start_ring_witness :
    start_steps_ok sample_bits sample_platform stopped_dev = true ∧
    (eqos_start sample_params sample_bits sample_config sample_platform stopped_dev).1 = 0 ∧
    (eqos_start sample_params sample_bits sample_config sample_platform
      stopped_dev).2.ring.rx_descs 3 =
      { des0 := 0x900032c0, des1 := 0, des2 := 0, des3 := 0x81000000 } ∧
    (eqos_start sample_params sample_bits sample_config sample_platform
      stopped_dev).2.ring.ch0_rxdesc_tail_pointer = 0x90000070 :=
  ⟨by decide,
    (eqos_start_ring sample_params sample_bits sample_config sample_platform stopped_dev
      (by decide) (by decide) (by decide) (by decide)).1,
    ((eqos_start_ring sample_params sample_bits sample_config sample_platform stopped_dev
      (by decide) (by decide) (by decide) (by decide)).2.2.2.2.2.2.1 3 (by decide)).1.trans
      (by decide),
    (eqos_start_ring sample_params sample_bits sample_config sample_platform stopped_dev
      (by decide) (by decide) (by decide) (by decide)).2.2.2.2.2.2.2.1.trans (by decide)⟩

/-- Claim C22 fails on the platform no_link_platform, where phy_startup
returns 0 and the PHY has no link: eqos_start goes to err_shutdown_phy with
ret still 0 and returns 0, not a negative code, while started stays false;
likewise on no_phy_platform, where phy_connect gives a null pointer, it
returns the 0 left in ret by eqos_calibrate_pads. -/
theorem eqos_start_no_link_returns_zero :
    (no_link_platform.phy_startup { link := 0, duplex := 0, speed := 0 }).2.link = 0 ∧
    start_steps_ok sample_bits no_link_platform stopped_dev = false ∧
    (eqos_start sample_params sample_bits sample_config no_link_platform stopped_dev).1 = 0 ∧
    (eqos_start sample_params sample_bits sample_config no_link_platform
      stopped_dev).2.started = false ∧
    (eqos_start sample_params sample_bits sample_config no_link_platform
      stopped_dev).2.ops.filter Op.is_resource_call =
      [Op.eqos_start_clks 0, Op.eqos_start_resets 0, Op.phy_connect true,
        Op.phy_set_supported 1000 0, Op.phy_config 0, Op.phy_startup 0, Op.phy_shutdown,
        Op.eqos_stop_resets, Op.eqos_stop_clks] ∧
    no_phy_platform.phy_connect = none ∧
    start_steps_ok sample_bits no_phy_platform stopped_dev = false ∧
    (eqos_start sample_params sample_bits sample_config no_phy_platform stopped_dev).1 = 0 ∧
    (eqos_start sample_params sample_bits sample_config no_phy_platform
      stopped_dev).2.started = false :=
  ⟨by decide, by decide, by decide, by decide, by decide, by decide, by decide, by decide,
    by decide⟩

/-- Claim C23 fails on the platform swr_stuck_platform, where the software
reset bit never clears: eqos_start on the stopped device returns -ETIMEDOUT
after eqos_stop_resets and eqos_stop_clks, started is false, but
reg_access_ok, set before the wait, is still true; eqos_write_hwaddr then
writes the two address registers although the clocks are stopped. -/
theorem eqos_start_failure_keeps_reg_access :
    stopped_dev.started = false ∧ stopped_dev.reg_access_ok = false ∧
    sample_config.reg_access_always_ok = false ∧
    (eqos_start sample_params sample_bits sample_config swr_stuck_platform stopped_dev).1 =
      -ETIMEDOUT ∧
    (eqos_start sample_params sample_bits sample_config swr_stuck_platform
      stopped_dev).2.started = false ∧
    (eqos_start sample_params sample_bits sample_config swr_stuck_platform
      stopped_dev).2.reg_access_ok = true ∧
    (eqos_start sample_params sample_bits sample_config swr_stuck_platform
      stopped_dev).2.ops.filter Op.is_resource_call =
      [Op.eqos_start_clks 0, Op.eqos_start_resets 0, Op.eqos_stop_resets, Op.eqos_stop_clks] ∧
    (eqos_write_hwaddr sample_config swr_stuck_platform.enetaddr
      (eqos_start sample_params sample_bits sample_config swr_stuck_platform
        stopped_dev).2).2.ops.drop
      (eqos_start sample_params sample_bits sample_config swr_stuck_platform
        stopped_dev).2.ops.length =
      [Op.writel .mac_address0_high 0x0100, Op.writel .mac_address0_low 0x00000002] ∧
    (eqos_write_hwaddr sample_config swr_stuck_platform.enetaddr stopped_dev).2.ops =
      stopped_dev.ops :=
  ⟨by decide, by decide, by decide, by decide, by decide, by decide, by decide, by decide,
    by decide⟩

/-! ## eqos_stop -/

theorem drain_poll_spec (done : Nat → Bool) (r : Reg) (hw : Nat → Nat) (budget i : Nat)
    (ops : List Op) :
    ∃ polls, drain_poll done r hw budget i ops = ops ++ polls ∧ polls.length ≤ budget ∧
      (∀ e ∈ polls, Op.is_readl r e = true) ∧
      ((∀ j, j < budget → done (hw (i + j)) = false) → polls.length = budget) ∧
      (∀ k, k < budget → done (hw (i + k)) = true →
        (∀ j, j < k → done (hw (i + j)) = false) → polls.length = k + 1) := by
  induction budget generalizing i ops with
  | zero =>
    exact ⟨[], by simp [drain_poll], le_refl _, by simp, fun _ => rfl,
      fun k hk => absurd hk (by omega)⟩
  | succ n ih =>
    by_cases hd : done (hw i) = true
    · refine ⟨[Op.readl r (u32 (hw i))], by simp [drain_poll, hd], by simp, ?_, ?_, ?_⟩
      · intro e he
        simp only [List.mem_singleton] at he
        subst he
        simp [Op.is_readl]
      · intro hall
        have := hall 0 (by omega)
        rw [Nat.add_zero, hd] at this
        exact absurd this (by decide)
      · intro k hk hkd hbefore
        cases k with
        | zero => rfl
        | succ k =>
          have := hbefore 0 (by omega)
          rw [Nat.add_zero, hd] at this
          exact absurd this (by decide)
    · obtain ⟨polls, h1, h2, h3, h4, h5⟩ := ih (i + 1) (ops ++ [Op.readl r (u32 (hw i))])
      refine ⟨Op.readl r (u32 (hw i)) :: polls, ?_, ?_, ?_, ?_, ?_⟩
      · simp only [drain_poll, hd, Bool.false_eq_true, if_false, h1, List.append_assoc,
          List.singleton_append]
      · simp only [List.length_cons]; omega
      · intro e he
        simp only [List.mem_cons] at he
        rcases he with rfl | he
        · simp [Op.is_readl]
        · exact h3 e he
      · intro hall
        simp only [List.length_cons]
        rw [h4 (fun j hj => by
          have := hall (j + 1) (by omega)
          rwa [Nat.add_assoc, Nat.add_comm 1 j])]
      · intro k hk hkd hbefore
        cases k with
        | zero => rw [Nat.add_zero] at hkd; exact absurd hkd hd
        | succ k =>
          simp only [List.length_cons]
          rw [h5 k (by omega) (by rwa [Nat.add_assoc, Nat.add_comm 1 k])
            (fun j hj => by
              have := hbefore (j + 1) (by omega)
              rwa [Nat.add_assoc, Nat.add_comm 1 j])]

/-- Claim C24: on a device that is not started eqos_stop returns the state as
it is (no register access, no call, no change); on a started device it
clears started and reg_access_ok, leaves the rings alone, and does, in this
order: the clear of the TX DMA start bit, at most 1,000,000 reads of
txq0_debug (all 1,000,000 when the queue never drains, and the function goes
on all the same), the clear of the MAC enable bits, at most 1,000,000 reads
of rxq0_debug, the clear of the RX DMA start bit, phy_shutdown when there is
a PHY, eqos_stop_resets, eqos_stop_clks; a second eqos_stop, whatever the
hardware does, changes nothing. -/
theorem eqos_stop_idempotent (b : RegBits) (hw_tx hw_rx : Nat → Nat) (s : eqos_dev) :
    (s.started = false → eqos_stop b hw_tx hw_rx s = s) ∧
    (eqos_stop b hw_tx hw_rx s).started = false ∧
    (s.started = true → (eqos_stop b hw_tx hw_rx s).reg_access_ok = false) ∧
    (eqos_stop b hw_tx hw_rx s).ring = s.ring ∧
    (eqos_stop b hw_tx hw_rx s).phy = s.phy ∧
    (∀ hw_tx2 hw_rx2 : Nat → Nat,
      eqos_stop b hw_tx2 hw_rx2 (eqos_stop b hw_tx hw_rx s) = eqos_stop b hw_tx hw_rx s) ∧
    (s.started = true → ∃ tx_polls rx_polls,
      (eqos_stop b hw_tx hw_rx s).ops = s.ops ++
        [Op.clrbits_le32 .dma_ch0_tx_control b.EQOS_DMA_CH0_TX_CONTROL_ST] ++ tx_polls ++
        [Op.clrbits_le32 .mac_configuration
          (b.EQOS_MAC_CONFIGURATION_TE ||| b.EQOS_MAC_CONFIGURATION_RE)] ++ rx_polls ++
        [Op.clrbits_le32 .dma_ch0_rx_control b.EQOS_DMA_CH0_RX_CONTROL_SR] ++
        (if s.phy.isSome then [Op.phy_shutdown] else []) ++
        [Op.eqos_stop_resets, Op.eqos_stop_clks] ∧
      tx_polls.length ≤ 1000000 ∧ rx_polls.length ≤ 1000000 ∧
      (∀ e ∈ tx_polls, Op.is_readl .mtl_txq0_debug e = true) ∧
      (∀ e ∈ rx_polls, Op.is_readl .mtl_rxq0_debug e = true) ∧
      ((∀ j, j < 1000000 → txq_drained b (hw_tx j) = false) → tx_polls.length = 1000000) ∧
      ((∀ j, j < 1000000 → rxq_drained b (hw_rx j) = false) → rx_polls.length = 1000000)) := by
  have hstopped : ∀ (t : eqos_dev) (f g : Nat → Nat), t.started = false →
      eqos_stop b f g t = t := by
    intro t f g ht
    unfold eqos_stop
    rw [if_pos (by simp [ht])]
  have hflag : (eqos_stop b hw_tx hw_rx s).started = false := by
    cases hs : s.started with
    | false => rw [hstopped s hw_tx hw_rx hs]; exact hs
    | true =>
      unfold eqos_stop
      rw [if_neg (by simp [hs])]
  refine ⟨hstopped s hw_tx hw_rx, hflag, ?_, ?_, ?_,
    fun f g => hstopped _ f g hflag, ?_⟩
  · intro hs
    unfold eqos_stop
    rw [if_neg (by simp [hs])]
  · unfold eqos_stop
    split <;> rfl
  · unfold eqos_stop
    split <;> rfl
  · intro hs
    obtain ⟨txp, t1, t2, t3, t4, _⟩ := drain_poll_spec (txq_drained b) .mtl_txq0_debug hw_tx
      1000000 0 (s.ops ++ [Op.clrbits_le32 .dma_ch0_tx_control b.EQOS_DMA_CH0_TX_CONTROL_ST])
    obtain ⟨rxp, r1, r2, r3, r4, _⟩ := drain_poll_spec (rxq_drained b) .mtl_rxq0_debug hw_rx
      1000000 0 (s.ops ++ [Op.clrbits_le32 .dma_ch0_tx_control b.EQOS_DMA_CH0_TX_CONTROL_ST] ++
        txp ++ [Op.clrbits_le32 .mac_configuration
          (b.EQOS_MAC_CONFIGURATION_TE ||| b.EQOS_MAC_CONFIGURATION_RE)])
    refine ⟨txp, rxp, ?_, t2, r2, t3, r3,
      fun h => t4 (fun j hj => by rw [Nat.zero_add]; exact h j hj),
      fun h => r4 (fun j hj => by rw [Nat.zero_add]; exact h j hj)⟩
    unfold eqos_stop
    rw [if_neg (by simp [hs])]
    simp only
    rw [t1, r1]

/-- The stop theorem on the device sample_platform started from stopped_dev,
with queues that are drained at the first read: started is cleared and a
second eqos_stop changes nothing. -/
theorem eqos_stop_idempotent_witness :
    (eqos_start sample_params sample_bits sample_config sample_platform
      stopped_dev).2.started = true ∧
    (eqos_stop sample_bits (fun _ => 0) (fun _ => 0)
      (eqos_start sample_params sample_bits sample_config sample_platform
        stopped_dev).2).started = false ∧
    (eqos_stop sample_bits (fun _ => 0) (fun _ => 0)
      (eqos_start sample_params sample_bits sample_config sample_platform
        stopped_dev).2).reg_access_ok = false ∧
    eqos_stop sample_bits (fun _ => 0x12) (fun _ => 0x30)
      (eqos_stop sample_bits (fun _ => 0) (fun _ => 0)
        (eqos_start sample_params sample_bits sample_config sample_platform
          stopped_dev).2) =
      eqos_stop sample_bits (fun _ => 0) (fun _ => 0)
        (eqos_start sample_params sample_bits sample_config sample_platform stopped_dev).2 :=
  ⟨by decide,
    (eqos_stop_idempotent sample_bits (fun _ => 0) (fun _ => 0)
      (eqos_start sample_params sample_bits sample_config sample_platform
        stopped_dev).2).2.1,
    (eqos_stop_idempotent sample_bits (fun _ => 0) (fun _ => 0)
      (eqos_start sample_params sample_bits sample_config sample_platform
        stopped_dev).2).2.2.1 (by decide),
    (eqos_stop_idempotent sample_bits (fun _ => 0) (fun _ => 0)
      (eqos_start sample_params sample_bits sample_config sample_platform
        stopped_dev).2).2.2.2.2.2.1 (fun _ => 0x12) (fun _ => 0x30)⟩

/-! ## The ring cursors -/

/-- Claim C25: on rings of at least one descriptor, both cursors are 0, hence
inside their rings, after eqos_start whatever its outcome; from cursors
inside their rings, eqos_send, eqos_recv and eqos_free_pkt leave both
cursors inside their rings whatever they return, eqos_send moves the TX
cursor to the next position modulo EQOS_DESCRIPTORS_TX and leaves the RX
cursor, eqos_recv and eqos_free_pkt leave the TX cursor and leave the RX
cursor or move it to the next position modulo EQOS_DESCRIPTORS_RX; the
indices the functions compute (the cursor, and the cursor plus one modulo
the capacity) are inside the ring. -/
theorem ring_cursor_invariant (p : Params) (htx : 0 < p.EQOS_DESCRIPTORS_TX)
    (hrx : 0 < p.EQOS_DESCRIPTORS_RX) :
    (∀ (b : RegBits) (cfg : eqos_config) (pl : Platform) (s : eqos_dev),
      (eqos_start p b cfg pl s).2.ring.tx_desc_idx = 0 ∧
      (eqos_start p b cfg pl s).2.ring.rx_desc_idx = 0 ∧
      (eqos_start p b cfg pl s).2.ring.tx_desc_idx < p.EQOS_DESCRIPTORS_TX ∧
      (eqos_start p b cfg pl s).2.ring.rx_desc_idx < p.EQOS_DESCRIPTORS_RX) ∧
    (∀ (hw : Nat → Nat) (packet : List Nat) (s : eqos_priv),
      s.tx_desc_idx < p.EQOS_DESCRIPTORS_TX → s.rx_desc_idx < p.EQOS_DESCRIPTORS_RX →
      (eqos_send p hw packet s).2.tx_desc_idx < p.EQOS_DESCRIPTORS_TX ∧
      (eqos_send p hw packet s).2.rx_desc_idx < p.EQOS_DESCRIPTORS_RX ∧
      (eqos_send p hw packet s).2.tx_desc_idx = (s.tx_desc_idx + 1) % p.EQOS_DESCRIPTORS_TX ∧
      (eqos_send p hw packet s).2.rx_desc_idx = s.rx_desc_idx) ∧
    (∀ (s : eqos_priv),
      s.tx_desc_idx < p.EQOS_DESCRIPTORS_TX → s.rx_desc_idx < p.EQOS_DESCRIPTORS_RX →
      (eqos_recv p s).2.2.tx_desc_idx < p.EQOS_DESCRIPTORS_TX ∧
      (eqos_recv p s).2.2.rx_desc_idx < p.EQOS_DESCRIPTORS_RX ∧
      (eqos_recv p s).2.2.tx_desc_idx = s.tx_desc_idx ∧
      ((eqos_recv p s).2.2.rx_desc_idx = s.rx_desc_idx ∨
        (eqos_recv p s).2.2.rx_desc_idx = (s.rx_desc_idx + 1) % p.EQOS_DESCRIPTORS_RX) ∧
      (s.rx_desc_idx + 1) % p.EQOS_DESCRIPTORS_RX < p.EQOS_DESCRIPTORS_RX) ∧
    (∀ (packet length : Nat) (s : eqos_priv),
      s.tx_desc_idx < p.EQOS_DESCRIPTORS_TX → s.rx_desc_idx < p.EQOS_DESCRIPTORS_RX →
      (eqos_free_pkt p packet length s).2.tx_desc_idx < p.EQOS_DESCRIPTORS_TX ∧
      (eqos_free_pkt p packet length s).2.rx_desc_idx < p.EQOS_DESCRIPTORS_RX ∧
      (eqos_free_pkt p packet length s).2.tx_desc_idx = s.tx_desc_idx ∧
      ((eqos_free_pkt p packet length s).2.rx_desc_idx = s.rx_desc_idx ∨
        (eqos_free_pkt p packet length s).2.rx_desc_idx =
          (s.rx_desc_idx + 1) % p.EQOS_DESCRIPTORS_RX)) := by
  refine ⟨?_, ?_, ?_, ?_⟩
  · intro b cfg pl s
    obtain ⟨h1, h2⟩ := eqos_start_cursors p b cfg pl s
    exact ⟨h1, h2, by rw [h1]; exact htx, by rw [h2]; exact hrx⟩
  · intro hw packet s _ hr
    obtain ⟨c1, _, c3, _⟩ := eqos_send_cursor p hw packet s
    exact ⟨by rw [c1]; exact Nat.mod_lt _ htx, by rw [c3]; exact hr, c1, c3⟩
  · intro s ht hr
    have hn := Nat.mod_lt (s.rx_desc_idx + 1) hrx
    unfold eqos_recv recv_packet
    simp only
    split
    · split
      · exact ⟨ht, hr, rfl, Or.inl rfl, hn⟩
      · exact ⟨ht, hn, rfl, Or.inr rfl, hn⟩
    · exact ⟨ht, hr, rfl, Or.inl rfl, hn⟩
  · intro packet length s ht hr
    have hn := Nat.mod_lt (s.rx_desc_idx + 1) hrx
    unfold eqos_free_pkt
    split
    · exact ⟨ht, hr, rfl, Or.inl rfl⟩
    · exact ⟨ht, hn, rfl, Or.inr rfl⟩

/-- The cursor theorem on rings of four descriptors: a send on the ring
eqos_start leaves moves the TX cursor from 0 to 1, and after four buffers
are handed back the RX cursor is 0 again. -/
theorem ring_cursor_invariant_witness :
    (eqos_send sample_params (fun _ => 0) [1, 2, 3] sample_state).2.tx_desc_idx = 1 ∧
    (eqos_free_pkt sample_params 0x900032c0 64
      { sample_state with rx_desc_idx := 3 }).2.rx_desc_idx = 0 :=
  ⟨((ring_cursor_invariant sample_params (by decide) (by decide)).2.1 (fun _ => 0) [1, 2, 3]
      sample_state (by decide) (by decide)).2.2.1.trans (by decide),
    by decide⟩

/-! ## RX flow control -/

theorem fifo_sz_lt (pre feature shift mask : Nat) :
    fifo_sz pre feature shift mask < 4294967296 := by
  unfold fifo_sz u32
  split <;> exact Nat.mod_lt _ (by norm_num)

theorem queue_size_small (sz : Nat) (h : sz < 256) : queue_size sz = 4294967295 := by
  unfold queue_size u32
  rw [Nat.div_eq_of_lt h]

theorem queue_size_large (sz : Nat) (h : 256 ≤ sz) (h32 : sz < 4294967296) :
    queue_size sz = sz / 256 - 1 := by
  unfold queue_size u32
  omega

/-- Claim C27 fails for a FIFO of fewer than 256 bytes, such as the 128 bytes
that the value 0 of the hardware feature field stands for: rqs = (128 / 256)
- 1 wraps to 0xFFFFFFFF in u32 arithmetic, so eqos_start sets EHFC and writes
the thresholds RFD = 6, RFA = 0x1E.  For every FIFO size the flow control
block is skipped exactly when the size is at least 256 and below 4096, and
the thresholds are (3, 1), (6, 0xA), (6, 0x12) for sizes whose quotient by 256
is 16, 32, 64 and (6, 0x1E) otherwise. -/
theorem rx_flow_control_small_fifo :
    fifo_sz sample_config.rx_fifo_size small_fifo_platform.hw_feature1
      sample_bits.EQOS_MAC_HW_FEATURE1_RXFIFOSIZE_SHIFT
      sample_bits.EQOS_MAC_HW_FEATURE1_RXFIFOSIZE_MASK = 128 ∧
    queue_size 128 = 0xFFFFFFFF ∧
    rx_flow_control sample_bits (queue_size 128) =
      [Op.setbits_le32 .mtl_rxq0_operation_mode 0x80,
       Op.clrsetbits_le32 .mtl_rxq0_operation_mode 0xfff00 (6 * 16384 + 0x1E * 256)] ∧
    Op.setbits_le32 .mtl_rxq0_operation_mode sample_bits.EQOS_MTL_RXQ0_OPERATION_MODE_EHFC ∈
      (eqos_start sample_params sample_bits sample_config small_fifo_platform
        stopped_dev).2.ops ∧
    (∀ (b : RegBits) (pre feature : Nat),
      (rx_flow_control b (queue_size (fifo_sz pre feature
        b.EQOS_MAC_HW_FEATURE1_RXFIFOSIZE_SHIFT b.EQOS_MAC_HW_FEATURE1_RXFIFOSIZE_MASK)) = [] ↔
        (256 ≤ fifo_sz pre feature b.EQOS_MAC_HW_FEATURE1_RXFIFOSIZE_SHIFT
            b.EQOS_MAC_HW_FEATURE1_RXFIFOSIZE_MASK ∧
          fifo_sz pre feature b.EQOS_MAC_HW_FEATURE1_RXFIFOSIZE_SHIFT
            b.EQOS_MAC_HW_FEATURE1_RXFIFOSIZE_MASK < 4096)) ∧
      flow_thresholds (queue_size (fifo_sz pre feature
        b.EQOS_MAC_HW_FEATURE1_RXFIFOSIZE_SHIFT b.EQOS_MAC_HW_FEATURE1_RXFIFOSIZE_MASK)) =
        (if fifo_sz pre feature b.EQOS_MAC_HW_FEATURE1_RXFIFOSIZE_SHIFT
            b.EQOS_MAC_HW_FEATURE1_RXFIFOSIZE_MASK / 256 = 16 then (3, 1)
        else if fifo_sz pre feature b.EQOS_MAC_HW_FEATURE1_RXFIFOSIZE_SHIFT
            b.EQOS_MAC_HW_FEATURE1_RXFIFOSIZE_MASK / 256 = 32 then (6, 0xA)
        else if fifo_sz pre feature b.EQOS_MAC_HW_FEATURE1_RXFIFOSIZE_SHIFT
            b.EQOS_MAC_HW_FEATURE1_RXFIFOSIZE_MASK / 256 = 64 then (6, 0x12)
        else (6, 0x1E))) := by
  refine ⟨by decide, by decide, by decide, by decide, ?_⟩
  intro b pre feature
  generalize hsz : fifo_sz pre feature b.EQOS_MAC_HW_FEATURE1_RXFIFOSIZE_SHIFT
    b.EQOS_MAC_HW_FEATURE1_RXFIFOSIZE_MASK = sz
  have h32 : sz < 4294967296 := by rw [← hsz]; exact fifo_sz_lt _ _ _ _
  by_cases hsmall : sz < 256
  · rw [queue_size_small sz hsmall]
    have hq : sz / 256 = 0 := Nat.div_eq_of_lt hsmall
    refine ⟨?_, ?_⟩
    · simp [rx_flow_control]
      omega
    · simp [flow_thresholds, hq]
  · rw [queue_size_large sz (by omega) h32]
    refine ⟨?_, ?_⟩
    · unfold rx_flow_control
      by_cases hge : sz / 256 - 1 ≥ 4096 / 256 - 1
      · rw [if_pos hge]
        simp
        omega
      · rw [if_neg hge]
        simp
        omega
    · unfold flow_thresholds
      have e1 : (sz / 256 - 1 = 4096 / 256 - 1) ↔ sz / 256 = 16 := by omega
      have e2 : (sz / 256 - 1 = 8192 / 256 - 1) ↔ sz / 256 = 32 := by omega
      have e3 : (sz / 256 - 1 = 16384 / 256 - 1) ↔ sz / 256 = 64 := by omega
      simp only [e1, e2, e3]

theorem start_link_not_ok (p : Params) (b : RegBits) (cfg : eqos_config) (pl : Platform)
    (phy : phy_device) (s : eqos_dev) (h : link_steps_ok b pl phy = false) :
    ∃ ret s2, start_link p b cfg pl phy s = start_unwind .err_shutdown_phy ret s2 ∧
      s2.started = s.started := by
  unfold start_link
  simp only
  by_cases h1 : (pl.phy_startup phy).1 < 0
  · rw [if_pos h1]
    exact ⟨_, _, rfl, rfl⟩
  · rw [if_neg h1]
    by_cases h2 : (pl.phy_startup phy).2.link = 0
    · rw [if_pos h2]
      exact ⟨_, _, rfl, rfl⟩
    · rw [if_neg h2]
      have h3 : (eqos_adjust_link b pl (pl.phy_startup phy).2 []).1 < 0 := by
        by_contra h3
        have : link_steps_ok b pl phy = true := by
          simp only [link_steps_ok, Bool.and_eq_true, decide_eq_true_eq, bne_iff_ne, ne_eq]
          exact ⟨⟨by omega, h2⟩, by omega⟩
        rw [h] at this
        exact absurd this (by decide)
      rw [eqos_adjust_link_ret, if_pos h3]
      exact ⟨_, _, rfl, rfl⟩

theorem start_phy_not_ok (p : Params) (b : RegBits) (cfg : eqos_config) (pl : Platform)
    (ret : Int) (s : eqos_dev)
    (h : (match s.phy with
      | some phy => link_steps_ok b pl phy
      | none =>
        match pl.phy_connect with
        | none => false
        | some phy =>
          (s.max_speed == 0 || pl.phy_set_supported == 0) && decide (0 ≤ pl.phy_config) &&
            link_steps_ok b pl phy) = false) :
    ∃ label r s2, start_phy p b cfg pl ret s = start_unwind label r s2 ∧
      s2.started = s.started := by
  unfold start_phy
  cases hphy : s.phy with
  | some phy =>
    rw [hphy] at h
    obtain ⟨r, s2, e1, e2⟩ := start_link_not_ok p b cfg pl phy s h
    exact ⟨_, r, s2, e1, e2⟩
  | none =>
    rw [hphy] at h
    cases hc : pl.phy_connect with
    | none => exact ⟨_, _, _, rfl, rfl⟩
    | some phy =>
      rw [hc] at h
      simp only
      by_cases h1 : s.max_speed ≠ 0 ∧ pl.phy_set_supported ≠ 0
      · rw [if_pos h1]
        exact ⟨_, _, _, rfl, rfl⟩
      · rw [if_neg h1]
        by_cases h2 : pl.phy_config < 0
        · rw [if_pos h2]
          refine ⟨_, _, _, rfl, ?_⟩
          split <;> rfl
        · rw [if_neg h2]
          have h3 : link_steps_ok b pl phy = false := by
            cases hl : link_steps_ok b pl phy with
            | false => rfl
            | true =>
              exfalso
              have hsup : (s.max_speed == 0 || pl.phy_set_supported == 0) = true := by
                simp only [Bool.or_eq_true, beq_iff_eq]
                by_cases hm : s.max_speed = 0
                · exact Or.inl hm
                · right
                  by_contra hq
                  exact h1 ⟨hm, hq⟩
              have hcfg : decide (0 ≤ pl.phy_config) = true := by
                simp only [decide_eq_true_eq]; omega
              simp [hl] at h
              have hs : s.max_speed = 0 ∨ pl.phy_set_supported = 0 := by simpa using hsup
              exact h2 (h hs)
          obtain ⟨r, s2, e1, e2⟩ := start_link_not_ok p b cfg pl phy
            ((if s.max_speed ≠ 0 then
                ({ s.did [Op.phy_connect true] with phy := some phy } : eqos_dev).did
                  [Op.phy_set_supported s.max_speed pl.phy_set_supported]
              else { s.did [Op.phy_connect true] with phy := some phy }).did
              [Op.phy_config pl.phy_config]) h3
          refine ⟨_, r, s2, e1, e2.trans ?_⟩
          split <;> rfl

/-- When a step fails, eqos_start ends at one of the labels: it returns what
start_unwind returns, and started is as before the call. -/
theorem eqos_start_not_ok (p : Params) (b : RegBits) (cfg : eqos_config) (pl : Platform)
    (s : eqos_dev) (h : start_steps_ok b pl s = false) :
    (∃ label r s2, eqos_start p b cfg pl s = start_unwind label r s2) ∧
      (eqos_start p b cfg pl s).2.started = s.started := by
  have key : ∃ label r s2, eqos_start p b cfg pl s = start_unwind label r s2 ∧
      s2.started = s.started := by
    unfold eqos_start
    simp only
    by_cases h1 : pl.eqos_start_clks < 0
    · rw [if_pos h1]; exact ⟨_, _, _, rfl, rfl⟩
    · rw [if_neg h1]
      by_cases h2 : pl.eqos_start_resets < 0
      · rw [if_pos h2]; exact ⟨_, _, _, rfl, rfl⟩
      · rw [if_neg h2]
        by_cases h3 : pl.wait_swr ≠ 0
        · rw [if_pos h3]; exact ⟨_, _, _, rfl, rfl⟩
        · rw [if_neg h3]
          by_cases h4 : pl.eqos_calibrate_pads < 0
          · rw [if_pos h4]; exact ⟨_, _, _, rfl, rfl⟩
          · rw [if_neg h4]
            have h5 : (match s.phy with
                | some phy => link_steps_ok b pl phy
                | none =>
                  match pl.phy_connect with
                  | none => false
                  | some phy =>
                    (s.max_speed == 0 || pl.phy_set_supported == 0) &&
                      decide (0 ≤ pl.phy_config) && link_steps_ok b pl phy) = false := by
              unfold start_steps_ok at h
              have e1 : decide (0 ≤ pl.eqos_start_clks) = true := by
                simp only [decide_eq_true_eq]; omega
              have e2 : decide (0 ≤ pl.eqos_start_resets) = true := by
                simp only [decide_eq_true_eq]; omega
              have e3 : decide (pl.wait_swr = 0) = true := by
                simp only [decide_eq_true_eq]; exact not_not.mp h3
              have e4 : decide (0 ≤ pl.eqos_calibrate_pads) = true := by
                simp only [decide_eq_true_eq]; omega
              rw [e1, e2, e3, e4] at h
              simpa using h
            exact start_phy_not_ok p b cfg pl pl.eqos_calibrate_pads _ h5
  obtain ⟨l, r, s2, e1, e2⟩ := key
  refine ⟨⟨l, r, s2, e1⟩, ?_⟩
  rw [e1]
  exact (start_unwind_state l r s2).2.2.1.trans e2

end Eqos
